import Mathlib

/-!
Verification of the Template Normalization & Provisioning Resolution Engine
of the ict-mcp-server repository (`src/mcp_server.py`).

The Python code is shallowly embedded: JSON/YAML documents become the
inductive value type `J` (objects are insertion-ordered association lists,
mirroring Python dicts), and each function of the source is translated into
an executable Lean function operating on `J` / `String` / `List`.  Machine
text operations (`strip`, `lower`, `replace`, substring search) are
re-implemented structurally on `List Char` so that every definition reduces
inside the kernel and concrete runs can be settled by `decide`.

Scope notes for the embedding, recorded once here:
* Python `dict` preserves insertion order; mutation of a present key keeps
  its position, a new key is appended.  `alSet`/`alErase` mirror this.
* Python truthiness (`or {}` patterns) is modelled by `jTruthy`.
* Text-level observations that `provision_cfn_stack` makes on the raw
  template string (substring membership and one regex) are supplied through
  the explicit `BodyObs` record, since the pipeline model works on parsed
  documents; each field is named after the exact Python expression.
* ASCII strings are assumed for `lower`/`strip` (the source only compares
  ASCII keyword strings).
-/

set_option autoImplicit false

namespace IctMcp

/-! ## Character / string primitives (structural, kernel-reducible) -/

/-- Whitespace characters removed by Python `str.strip()`. -/
def isWsChar (c : Char) : Bool :=
  c = ' ' || c = '\t' || c = '\n' || c = '\x0d' || c = '\x0b' || c = '\x0c'

def lcDropWs : List Char → List Char
  | [] => []
  | c :: rest => if isWsChar c then lcDropWs rest else c :: rest

/-- Python `str.strip()`. -/
def sTrim (s : String) : String :=
  String.mk (lcDropWs ((lcDropWs s.data.reverse).reverse))

def chLower (c : Char) : Char :=
  if 65 ≤ c.toNat ∧ c.toNat ≤ 90 then Char.ofNat (c.toNat + 32) else c

/-- Python `str.lower()` (ASCII). -/
def sLower (s : String) : String :=
  String.mk (s.data.map chLower)

/-- Is `pre` a prefix of `l`? -/
def lcIsPre : List Char → List Char → Bool
  | [], _ => true
  | _ :: _, [] => false
  | a :: as, b :: bs => a = b && lcIsPre as bs

def lcInfix (needle : List Char) : List Char → Bool
  | [] => needle.isEmpty
  | c :: rest => lcIsPre needle (c :: rest) || lcInfix needle rest

/-- Python `needle in hay` on strings. -/
def strContains (hay needle : String) : Bool :=
  lcInfix needle.data hay.data

/-- One step list of `str.replace` (all, left to right, non-overlapping);
fuel-structural so it reduces in the kernel. -/
def lcReplaceGo (old new : List Char) : Nat → List Char → List Char
  | 0, s => s
  | _ + 1, [] => []
  | fuel + 1, c :: rest =>
    if old ≠ [] ∧ lcIsPre old (c :: rest) then
      new ++ lcReplaceGo old new fuel (List.drop (old.length - 1) rest)
    else
      c :: lcReplaceGo old new fuel rest

/-- Python `s.replace(old, new)` for non-empty `old`. -/
def sReplace (s old new : String) : String :=
  String.mk (lcReplaceGo old.data new.data s.data.length s.data)

/-- Python `str(n)[-8:]`: the last 8 decimal digits of a timestamp. -/
def lastDigits (n : Nat) : String :=
  let ds := (toString n).data
  String.mk (ds.drop (ds.length - 8))

/-- Python `s[:n]`. -/
def sTake (s : String) (n : Nat) : String :=
  String.mk (s.data.take n)

/-! ## JSON-like documents: the parsed form shared by `json.loads` and
`yaml.safe_load` in the source.  Objects are insertion-ordered association
lists, matching Python dict semantics. -/

inductive J where
  | null
  | bool (b : Bool)
  | num (n : Int)
  | str (s : String)
  | arr (xs : List J)
  | obj (kvs : List (String × J))

mutual

def J.beq : J → J → Bool
  | .null, .null => true
  | .bool a, .bool b => a = b
  | .num a, .num b => a = b
  | .str a, .str b => a = b
  | .arr a, .arr b => beqArr a b
  | .obj a, .obj b => beqObj a b
  | _, _ => false

def beqArr : List J → List J → Bool
  | [], [] => true
  | a :: as, b :: bs => J.beq a b && beqArr as bs
  | _, _ => false

def beqObj : List (String × J) → List (String × J) → Bool
  | [], [] => true
  | (ka, va) :: as, (kb, vb) :: bs => ka = kb && J.beq va vb && beqObj as bs
  | _, _ => false

end

mutual

theorem J.beq_iff : ∀ a b : J, J.beq a b = true ↔ a = b
  | .null, .null => by simp [J.beq]
  | .null, .bool _ | .null, .num _ | .null, .str _ | .null, .arr _ | .null, .obj _ => by simp [J.beq]
  | .bool _, .null | .bool _, .num _ | .bool _, .str _ | .bool _, .arr _ | .bool _, .obj _ => by simp [J.beq]
  | .num _, .null | .num _, .bool _ | .num _, .str _ | .num _, .arr _ | .num _, .obj _ => by simp [J.beq]
  | .str _, .null | .str _, .bool _ | .str _, .num _ | .str _, .arr _ | .str _, .obj _ => by simp [J.beq]
  | .arr _, .null | .arr _, .bool _ | .arr _, .num _ | .arr _, .str _ | .arr _, .obj _ => by simp [J.beq]
  | .obj _, .null | .obj _, .bool _ | .obj _, .num _ | .obj _, .str _ | .obj _, .arr _ => by simp [J.beq]
  | .bool _, .bool _ => by simp [J.beq]
  | .num _, .num _ => by simp [J.beq]
  | .str _, .str _ => by simp [J.beq]
  | .arr a, .arr b => by simp [J.beq, beqArr_iff a b]
  | .obj a, .obj b => by simp [J.beq, beqObj_iff a b]

theorem beqArr_iff : ∀ a b : List J, beqArr a b = true ↔ a = b
  | [], [] => by simp [beqArr]
  | [], _ :: _ => by simp [beqArr]
  | _ :: _, [] => by simp [beqArr]
  | a :: as, b :: bs => by
    simp [beqArr, J.beq_iff a b, beqArr_iff as bs]

theorem beqObj_iff : ∀ a b : List (String × J), beqObj a b = true ↔ a = b
  | [], [] => by simp [beqObj]
  | [], _ :: _ => by simp [beqObj]
  | _ :: _, [] => by simp [beqObj]
  | (ka, va) :: as, (kb, vb) :: bs => by
    simp [beqObj, J.beq_iff va vb, beqObj_iff as bs, and_assoc]

end

instance : DecidableEq J := fun a b => decidable_of_iff _ (J.beq_iff a b)

/-- Python truthiness of a parsed JSON/YAML value. -/
def jTruthy : J → Bool
  | .null => false
  | .bool b => b
  | .num n => n ≠ 0
  | .str s => s ≠ ""
  | .arr xs => ¬ xs.isEmpty
  | .obj kvs => ¬ kvs.isEmpty

mutual

/-- `json.dumps` (compact separators, used only for substring
observations, where separator style is irrelevant). -/
def J.dump : J → String
  | .null => "null"
  | .bool b => if b then "true" else "false"
  | .num n => toString n
  | .str s => "\"" ++ s ++ "\""
  | .arr xs => "[" ++ dumpArr xs ++ "]"
  | .obj kvs => "\x7b" ++ dumpObj kvs ++ "\x7d"

def dumpArr : List J → String
  | [] => ""
  | [x] => J.dump x
  | x :: xs => J.dump x ++ ", " ++ dumpArr xs

def dumpObj : List (String × J) → String
  | [] => ""
  | [(k, v)] => "\"" ++ k ++ "\": " ++ J.dump v
  | (k, v) :: kvs => "\"" ++ k ++ "\": " ++ J.dump v ++ ", " ++ dumpObj kvs

end

mutual

/-- Apply `f` to every string atom (keys and values), modelling a textual
`str.replace` over the serialized document. -/
def jMapStrings (f : String → String) : J → J
  | .null => .null
  | .bool b => .bool b
  | .num n => .num n
  | .str s => .str (f s)
  | .arr xs => .arr (mapStringsArr f xs)
  | .obj kvs => .obj (mapStringsObj f kvs)

def mapStringsArr (f : String → String) : List J → List J
  | [] => []
  | x :: xs => jMapStrings f x :: mapStringsArr f xs

def mapStringsObj (f : String → String) : List (String × J) → List (String × J)
  | [] => []
  | (k, v) :: kvs => (f k, jMapStrings f v) :: mapStringsObj f kvs

end

/-! ## Association-list operations with Python dict semantics -/

def alGet {α : Type} : List (String × α) → String → Option α
  | [], _ => none
  | (k, v) :: rest, key => if k = key then some v else alGet rest key

def alHas {α : Type} (l : List (String × α)) (key : String) : Bool :=
  (alGet l key).isSome

/-- Python `d[key] = v`: replace in place when present, else append.
(Written as replace-first-or-append; identical on the unique-key lists
produced by parsing.) -/
def alSet {α : Type} : List (String × α) → String → α → List (String × α)
  | [], key, v => [(key, v)]
  | (k, w) :: rest, key, v =>
    if k = key then (key, v) :: rest
    else (k, w) :: alSet rest key v

/-- Python `del d[key]` / `d.pop(key)` for the key's entry. -/
def alErase {α : Type} : List (String × α) → String → List (String × α)
  | [], _ => []
  | (k, w) :: rest, key =>
    if k = key then alErase rest key
    else (k, w) :: alErase rest key

theorem alGet_alErase_self {α : Type} (l : List (String × α)) (key : String) :
    alGet (alErase l key) key = none := by
  induction l with
  | nil => simp [alGet, alErase]
  | cons kv rest ih =>
    obtain ⟨k, w⟩ := kv
    by_cases h : k = key
    · simpa [alErase, h] using ih
    · simpa [alErase, alGet, h] using ih

theorem alGet_alErase_ne {α : Type} (l : List (String × α)) (key other : String)
    (h : other ≠ key) : alGet (alErase l key) other = alGet l other := by
  have hko : key ≠ other := fun he => h he.symm
  induction l with
  | nil => simp [alGet, alErase]
  | cons kv rest ih =>
    obtain ⟨k, w⟩ := kv
    by_cases hk : k = key
    · subst hk
      simp [alErase, alGet, hko, ih]
    · by_cases ho : k = other
      · subst ho
        simp [alErase, alGet, hk]
      · simp [alErase, alGet, hk, ho, ih]

theorem alGet_alSet_self {α : Type} (l : List (String × α)) (key : String) (v : α) :
    alGet (alSet l key v) key = some v := by
  induction l with
  | nil => simp [alGet, alSet]
  | cons kv rest ih =>
    obtain ⟨k, w⟩ := kv
    by_cases h : k = key
    · simp [alSet, alGet, h]
    · simp [alSet, alGet, h, ih]

theorem alGet_alSet_ne {α : Type} (l : List (String × α)) (key other : String) (v : α)
    (h : other ≠ key) : alGet (alSet l key v) other = alGet l other := by
  have hko : key ≠ other := fun he => h he.symm
  induction l with
  | nil => simp [alGet, alSet, hko]
  | cons kv rest ih =>
    obtain ⟨k, w⟩ := kv
    by_cases hk : k = key
    · subst hk
      simp [alSet, alGet, hko]
    · by_cases ho : k = other
      · subst ho
        simp [alSet, alGet, hk]
      · simp [alSet, alGet, hk, ho, ih]

/-! ## A small JSON parser modelling `json.loads`.

Integers only (no floats / `\uXXXX` escapes: such documents are modelled as
parse failures).  The parser's output is never semantically inspected by a
theorem below — it is needed because the source calls `json.loads` on
`PolicyText` strings and on nested stack template bodies. -/

def parseNatGo : List Char → Nat → Nat × List Char
  | [], acc => (acc, [])
  | c :: rest, acc =>
    if c.isDigit then parseNatGo rest (acc * 10 + (c.toNat - 48)) else (acc, c :: rest)

def parseIntLit (cs : List Char) : Option (Int × List Char) :=
  match cs with
  | c :: _ =>
    if c.isDigit then
      let (n, r) := parseNatGo cs 0
      match r with
      | d :: _ => if d = '.' ∨ d = 'e' ∨ d = 'E' then none else some ((n : Int), r)
      | [] => some ((n : Int), [])
    else none
  | [] => none

def parseStrGo : Nat → List Char → Option (List Char × List Char)
  | 0, _ => none
  | _ + 1, [] => none
  | fuel + 1, c :: rest =>
    if c = '"' then some ([], rest)
    else if c = '\\' then
      match rest with
      | [] => none
      | e :: rest2 =>
        let ec : Option Char :=
          if e = '"' then some '"'
          else if e = '\\' then some '\\'
          else if e = '/' then some '/'
          else if e = 'n' then some '\n'
          else if e = 't' then some '\t'
          else if e = 'r' then some '\x0d'
          else if e = 'b' then some '\x08'
          else if e = 'f' then some '\x0c'
          else none
        match ec with
        | some c2 => (parseStrGo fuel rest2).map (fun sr => (c2 :: sr.1, sr.2))
        | none => none
    else (parseStrGo fuel rest).map (fun sr => (c :: sr.1, sr.2))

mutual

def parseVal : Nat → List Char → Option (J × List Char)
  | 0, _ => none
  | fuel + 1, cs0 =>
    match lcDropWs cs0 with
    | [] => none
    | c :: rest =>
      if c = '\x7b' then
        match lcDropWs rest with
        | '\x7d' :: r2 => some (J.obj [], r2)
        | _ => (parseObjItems fuel rest).map (fun kr => (J.obj kr.1, kr.2))
      else if c = '[' then
        match lcDropWs rest with
        | ']' :: r2 => some (J.arr [], r2)
        | _ => (parseArrItems fuel rest).map (fun vr => (J.arr vr.1, vr.2))
      else if c = '"' then
        (parseStrGo (rest.length + 1) rest).map (fun sr => (J.str (String.mk sr.1), sr.2))
      else if c = 't' then
        if lcIsPre ['r', 'u', 'e'] rest then some (J.bool true, rest.drop 3) else none
      else if c = 'f' then
        if lcIsPre ['a', 'l', 's', 'e'] rest then some (J.bool false, rest.drop 4) else none
      else if c = 'n' then
        if lcIsPre ['u', 'l', 'l'] rest then some (J.null, rest.drop 3) else none
      else if c = '-' then
        (parseIntLit rest).map (fun nr => (J.num (-nr.1), nr.2))
      else
        (parseIntLit (c :: rest)).map (fun nr => (J.num nr.1, nr.2))

def parseArrItems : Nat → List Char → Option (List J × List Char)
  | 0, _ => none
  | fuel + 1, cs =>
    match parseVal fuel cs with
    | none => none
    | some (v, r) =>
      match lcDropWs r with
      | ',' :: r2 => (parseArrItems fuel r2).map (fun vr => (v :: vr.1, vr.2))
      | ']' :: r2 => some ([v], r2)
      | _ => none

def parseObjItems : Nat → List Char → Option (List (String × J) × List Char)
  | 0, _ => none
  | fuel + 1, cs =>
    match lcDropWs cs with
    | '"' :: rest =>
      match parseStrGo (rest.length + 1) rest with
      | none => none
      | some (k, r) =>
        match lcDropWs r with
        | ':' :: r2 =>
          match parseVal fuel r2 with
          | none => none
          | some (v, r3) =>
            match lcDropWs r3 with
            | ',' :: r4 => (parseObjItems fuel r4).map (fun kr => ((String.mk k, v) :: kr.1, kr.2))
            | '\x7d' :: r4 => some ([(String.mk k, v)], r4)
            | _ => none
        | _ => none
    | _ => none

end

def jsonLoads (s : String) : Option J :=
  match parseVal (s.data.length * 2 + 4) s.data with
  | some (v, r) => if (lcDropWs r).isEmpty then some v else none
  | none => none

/-! ## `_normalize_cfn_template_for_provision`, JSON (structural) path.

Each `fix…` definition translates one `elif rtype == …` branch of the
source.  `getProps` models `props = rdef.get('Properties') or \x7b\x7d`:
the pair's Bool records whether `props` aliases the resource's own dict
(mutations are kept) or is a fresh empty dict (mutations are lost), which
is the case when `Properties` is absent, null or empty.  A non-object
truthy `Properties` would raise inside a rule branch in Python (caught by
the outermost `except`, returning the input text); theorems below exclude
that case by a well-formedness hypothesis. -/

def normKey (k : String) : String := sReplace (sLower (sTrim k)) "_" ""

def getProps (rkvs : List (String × J)) : List (String × J) × Bool :=
  match alGet rkvs "Properties" with
  | some (J.obj kvs) => if kvs.isEmpty then ([], false) else (kvs, true)
  | _ => ([], false)

def putProps (rkvs : List (String × J)) (shared : Bool) (props : List (String × J)) :
    List (String × J) :=
  if shared then alSet rkvs "Properties" (J.obj props) else rkvs

/-- `AWS::AutoScaling::ScalingPolicy`: rename the first key aliasing
`EstimatedWarmupSeconds` (any casing / underscores) to
`EstimatedInstanceWarmupSeconds`, and drop `ScaleInCooldown` /
`ScaleOutCooldown` from `TargetTrackingConfiguration`. -/
def fixScalingPolicy (props : List (String × J)) : List (String × J) × Bool :=
  let step1 : List (String × J) × Bool :=
    match props.find? (fun kv => normKey kv.1 = "estimatedwarmupseconds") with
    | some kv => (alSet (alErase props kv.1) "EstimatedInstanceWarmupSeconds" kv.2, true)
    | none => (props, false)
  let p1 := step1.1
  match alGet p1 "TargetTrackingConfiguration" with
  | some (J.obj tt) =>
    let c2 := alHas tt "ScaleInCooldown" || alHas tt "ScaleOutCooldown"
    let tt2 := alErase (alErase tt "ScaleInCooldown") "ScaleOutCooldown"
    (alSet p1 "TargetTrackingConfiguration" (J.obj tt2), step1.2 || c2)
  | _ => (p1, step1.2)

/-- `AWS::ApiGateway::Stage`: delete `LoggingLevel` and `DataTraceEnabled`. -/
def fixApiStage (props : List (String × J)) : List (String × J) × Bool :=
  let c := alHas props "LoggingLevel" || alHas props "DataTraceEnabled"
  (alErase (alErase props "LoggingLevel") "DataTraceEnabled", c)

/-- One cache-behavior dict: `OriginId` renamed to `TargetOriginId`, or
dropped when `TargetOriginId` already exists. -/
def fixCacheBehavior (cb : J) : J × Bool :=
  match cb with
  | .obj kvs =>
    match alGet kvs "OriginId" with
    | some v =>
      if alHas kvs "TargetOriginId" then (.obj (alErase kvs "OriginId"), true)
      else (.obj (alSet (alErase kvs "OriginId") "TargetOriginId" v), true)
    | none => (.obj kvs, false)
  | other => (other, false)

/-- `AWS::CloudFront::Distribution`, tags sub-step: hoist `Tags` out of
`DistributionConfig` (to the resource root when absent there). -/
def cfTagsStep (props dc : List (String × J)) :
    List (String × J) × List (String × J) × Bool :=
  match alGet dc "Tags" with
  | some tags =>
    let dcE := alErase dc "Tags"
    if tags ≠ J.null ∧ ¬ alHas props "Tags" then (dcE, alSet props "Tags" tags, true)
    else (dcE, props, true)
  | none => (dc, props, false)

/-- `AWS::CloudFront::Distribution`, default-cache-behavior sub-step. -/
def cfBehStep (dc : List (String × J)) : List (String × J) × Bool :=
  match alGet dc "DefaultCacheBehavior" with
  | some (J.obj db) =>
    let r := fixCacheBehavior (J.obj db)
    (alSet dc "DefaultCacheBehavior" r.1, r.2)
  | _ => (dc, false)

/-- `AWS::CloudFront::Distribution`, `CacheBehaviors` list sub-step. -/
def cfCbStep (dc : List (String × J)) : List (String × J) × Bool :=
  match alGet dc "CacheBehaviors" with
  | some (J.arr cbs) =>
    let rs := cbs.map fixCacheBehavior
    (alSet dc "CacheBehaviors" (J.arr (rs.map Prod.fst)), rs.any Prod.snd)
  | _ => (dc, false)

/-- `AWS::CloudFront::Distribution`: hoist `Tags` out of
`DistributionConfig`, drop `ViewerProtocolPolicy`, fix `OriginId` in the
default cache behavior and in each entry of `CacheBehaviors`. -/
def fixCloudFront (props : List (String × J)) : List (String × J) × Bool :=
  match alGet props "DistributionConfig" with
  | some (J.obj dc) =>
    let tagsStep := cfTagsStep props dc
    let dc1 := tagsStep.1
    let props1 := tagsStep.2.1
    let c2 := alHas dc1 "ViewerProtocolPolicy"
    let dc2 := alErase dc1 "ViewerProtocolPolicy"
    let behStep := cfBehStep dc2
    let dc3 := behStep.1
    let cbStep := cfCbStep dc3
    let dc4 := cbStep.1
    (alSet props1 "DistributionConfig" (J.obj dc4),
      tagsStep.2.2 || c2 || behStep.2 || cbStep.2)
  | _ => (props, false)

/-- `AWS::EC2::Instance`: convert the first `TagSpecifications` entry's
`Tags` into a top-level `Tags` (if absent), then delete
`TagSpecifications`; `changed` is set by the deletion only. -/
def fixEc2Instance (props : List (String × J)) : List (String × J) × Bool :=
  let props1 : List (String × J) :=
    match alGet props "TagSpecifications" with
    | some (J.arr specs) =>
      if specs.isEmpty then props
      else
        match specs.findSome? (fun spec =>
          match spec with
          | J.obj kvs => alGet kvs "Tags"
          | _ => none) with
        | some tags => if alHas props "Tags" then props else alSet props "Tags" tags
        | none => props
    | _ => props
  if alHas props1 "TagSpecifications" then (alErase props1 "TagSpecifications", true)
  else (props1, false)

def allowedPathChar (c : Char) : Bool :=
  c.isAlpha || c.isDigit || c = '.' || c = '_' || c = '-' || c = ':'

/-- `inner = part[1:-1].strip().replace(' ', '').replace('-', '_')`. -/
def pathInner (mid : String) : String :=
  sReplace (sReplace (sTrim mid) " " "") "-" "_"

/-- Plain path parts: disallowed characters replaced with `_`. -/
def pathFixed (part : String) : String :=
  String.mk (part.data.map (fun c => if allowedPathChar c then c else '_'))

/-- `AWS::ApiGateway::Resource`: sanitise `PathPart` (path-parameter form
`\x7b…\x7d` gets spaces removed and dashes turned into underscores; plain
parts get disallowed characters replaced with `_`). -/
def fixPathPart (props : List (String × J)) : List (String × J) × Bool :=
  match alGet props "PathPart" with
  | some (J.str pp) =>
    let part := sTrim pp
    let pd := part.data
    if pd.head? = some '\x7b' ∧ pd.getLast? = some '\x7d' ∧ 2 ≤ pd.length then
      let mid := String.mk (pd.drop 1).dropLast
      let inner := pathInner mid
      if inner ≠ "" ∧ inner ≠ mid then
        (alSet props "PathPart" (J.str ("\x7b" ++ inner ++ "\x7d")), true)
      else (props, false)
    else
      let fixed := pathFixed part
      if fixed ≠ part then (alSet props "PathPart" (J.str fixed), true)
      else (props, false)
  | _ => (props, false)

/-- `AWS::Logs::LogGroup`: any non-blank string `LogGroupName` is replaced
with `\x7b"Fn::Sub": "/app/$\x7bAWS::StackName\x7d"\x7d`. -/
def fixLogGroup (props : List (String × J)) : List (String × J) × Bool :=
  match alGet props "LogGroupName" with
  | some (J.str s) =>
    if sTrim s ≠ "" then
      (alSet props "LogGroupName" (J.obj [("Fn::Sub", J.str "/app/$\x7bAWS::StackName\x7d")]), true)
    else (props, false)
  | _ => (props, false)

/-- `_s3_bucket_name_uses_suffix`: case-insensitive substring search for
`bucketnamesuffix` in the value (strings directly, anything else through
`json.dumps`). -/
def s3BucketNameUsesSuffix (v : J) : Bool :=
  let s := match v with
    | J.str s => s
    | other => J.dump other
  strContains (sLower s) "bucketnamesuffix"

def bucketSuffixParamSpec : J := J.obj [("Type", J.str "String"), ("Default", J.str "")]

/-- `AWS::S3::Bucket`: force `BucketName` to an `Fn::Sub` expression
embedding `$\x7bBucketNameSuffix\x7d` unless the current name already
references the suffix, and declare the `BucketNameSuffix` parameter. -/
def fixS3Bucket (lid : String) (props : List (String × J)) (params : List (String × J)) :
    List (String × J) × List (String × J) × Bool :=
  let rewrite : Bool :=
    match alGet props "BucketName" with
    | none => true
    | some J.null => true
    | some v => ! s3BucketNameUsesSuffix v
  if rewrite then
    let safeId := sTake (sReplace (sLower lid) "_" "-") 40
    let nameVal := J.obj
      [("Fn::Sub", J.str ("app-$\x7bAWS::AccountId\x7d-$\x7bBucketNameSuffix\x7d-" ++ safeId))]
    let params1 := if alHas params "BucketNameSuffix" then params
      else alSet params "BucketNameSuffix" bucketSuffixParamSpec
    (alSet props "BucketName" nameVal, params1, true)
  else (props, params, false)

/-- `AWS::S3::BucketPolicy`: `PolicyText` is popped unconditionally; it
becomes `PolicyDocument` (parsed when it is a parseable JSON string) only
when `PolicyDocument` is absent, and only then is `changed` set. -/
def fixBucketPolicy (props : List (String × J)) : List (String × J) × Bool :=
  match alGet props "PolicyText" with
  | none => (props, false)
  | some J.null => (alErase props "PolicyText", false)
  | some pt =>
    let pE := alErase props "PolicyText"
    if alHas pE "PolicyDocument" then (pE, false)
    else
      let pd : J :=
        match pt with
        | J.str s =>
          match jsonLoads s with
          | some d => d
          | none => J.str s
        | other => other
      (alSet pE "PolicyDocument" pd, true)

/-- Markers of the string-level S3 fallback at the top of
`_normalize_cfn_template_for_provision`. -/
def bucketMarkers : List String := ["media", "files", "content", "data", "bucket"]

/-- The string-level fallback: if the serialized document mentions
`S3::Bucket` but not `BucketNameSuffix`, rewrite the first matching
`$\x7bAWS::AccountId\x7d-<marker>` occurrence in every string atom and
declare the `BucketNameSuffix` parameter. -/
def s3Fallback (d : J) : J :=
  let text := J.dump d
  if strContains text "S3::Bucket" ∧ ¬ strContains text "BucketNameSuffix" then
    match bucketMarkers.find? (fun sfx => strContains text ("$\x7bAWS::AccountId\x7d-" ++ sfx)) with
    | some sfx =>
      let old := "$\x7bAWS::AccountId\x7d-" ++ sfx
      let new := "$\x7bAWS::AccountId\x7d-$\x7bBucketNameSuffix\x7d-" ++ sfx
      let d1 := jMapStrings (fun s => sReplace s old new) d
      match d1 with
      | .obj kvs =>
        let kvs1 := if alHas kvs "Parameters" then kvs else kvs ++ [("Parameters", J.obj [])]
        match alGet kvs1 "Parameters" with
        | some (.obj ps) =>
          if alHas ps "BucketNameSuffix" then d1
          else .obj (alSet kvs1 "Parameters" (.obj (alSet ps "BucketNameSuffix" bucketSuffixParamSpec)))
        | _ => d1
      | _ => d1
    | none => d
  else d

structure NormSt where
  params : List (String × J)
  changed : Bool

/-- One resource of the `for logical_id, rdef in resources.items()` loop.
`nested` is the recursive normalization applied to a nested stack's
`TemplateBody` string (tied at `normalizeNestedText`). -/
def normResourceWith (nested : String → String) (lid : String) (rdef : J) (st : NormSt) :
    J × NormSt :=
  match rdef with
    | .obj rkvs =>
      let rtype := alGet rkvs "Type"
      let pr := getProps rkvs
      let props := pr.1
      let shared := pr.2
      if rtype = some (J.str "AWS::AutoScaling::ScalingPolicy") then
        let r := fixScalingPolicy props
        (.obj (putProps rkvs shared r.1), { st with changed := st.changed || r.2 })
      else if rtype = some (J.str "AWS::ApiGateway::Stage") then
        let r := fixApiStage props
        (.obj (putProps rkvs shared r.1), { st with changed := st.changed || r.2 })
      else if rtype = some (J.str "AWS::CloudFront::Distribution") then
        let r := fixCloudFront props
        (.obj (putProps rkvs shared r.1), { st with changed := st.changed || r.2 })
      else if rtype = some (J.str "AWS::EC2::Instance") then
        let r := fixEc2Instance props
        (.obj (putProps rkvs shared r.1), { st with changed := st.changed || r.2 })
      else if rtype = some (J.str "AWS::ApiGateway::Resource") then
        let r := fixPathPart props
        (.obj (putProps rkvs shared r.1), { st with changed := st.changed || r.2 })
      else if rtype = some (J.str "AWS::Logs::LogGroup") then
        let r := fixLogGroup props
        (.obj (putProps rkvs shared r.1), { st with changed := st.changed || r.2 })
      else if rtype = some (J.str "AWS::S3::Bucket") then
        let r := fixS3Bucket lid props st.params
        (.obj (putProps rkvs shared r.1), ⟨r.2.1, st.changed || r.2.2⟩)
      else if rtype = some (J.str "AWS::S3::BucketPolicy") then
        let r := fixBucketPolicy props
        (.obj (putProps rkvs shared r.1), { st with changed := st.changed || r.2 })
      else if rtype = some (J.str "AWS::CloudFormation::Stack") then
        match alGet props "TemplateBody" with
        | some (J.str tb) =>
          if sTrim tb ≠ "" then
            let normalized := nested tb
            if normalized ≠ tb then
              (.obj (putProps rkvs shared (alSet props "TemplateBody" (J.str normalized))),
                { st with changed := true })
            else (.obj rkvs, st)
          else (.obj rkvs, st)
        | _ => (.obj rkvs, st)
      else (rdef, st)
    | other => (other, st)

def normResourcesWith (nested : String → String) :
    List (String × J) → NormSt → List (String × J) × NormSt
  | [], st => ([], st)
  | (lid, rdef) :: rest, st =>
    let r1 := normResourceWith nested lid rdef st
    let r2 := normResourcesWith nested rest r1.2
    ((lid, r1.1) :: r2.1, r2.2)

/-- The parsed-tree pass of the JSON path: iterate the rules over
`Resources`, materialising `setdefault('Parameters', \x7b\x7d)` and the
updated resources only when some rule reported a change (otherwise the
input text is returned unchanged). -/
def structuralPassWith (nested : String → String) (d : J) : J × Bool :=
  match d with
  | .obj kvs =>
    let resourcesOpt : Option (List (String × J)) :=
      match alGet kvs "Resources" with
      | some (.obj rs) => some rs
      | _ => none
    let params0 : List (String × J) :=
      match alGet kvs "Parameters" with
      | some (.obj ps) => ps
      | _ => []
    let r := normResourcesWith nested (resourcesOpt.getD []) ⟨params0, false⟩
    if r.2.changed then
      let kvs1 := if alHas kvs "Parameters" then kvs else kvs ++ [("Parameters", J.obj [])]
      let kvs2 := alSet kvs1 "Parameters" (.obj r.2.params)
      let kvs3 :=
        match resourcesOpt with
        | some _ => alSet kvs2 "Resources" (.obj r.1)
        | none => kvs2
      (.obj kvs3, true)
    else (d, false)
  | _ => (d, false)

/-- Recursive normalization of a nested stack's `TemplateBody` string:
the full `_normalize_cfn_template_for_provision` applied to the embedded
text.  Only JSON-formatted nested bodies are modelled; an
indentation-format (YAML) nested body is returned unchanged.  The fuel
bounds the template-nesting depth (a finite text always has finite
nesting, so any sufficiently large fuel is faithful). -/
def normalizeNestedText : Nat → String → String
  | 0, s => s
  | fuel + 1, s =>
    match (sTrim s).data with
    | c :: _ =>
      if c = '\x7b' then
        match jsonLoads s with
        | some d =>
          let d1 := s3Fallback d
          match structuralPassWith (fun t => normalizeNestedText fuel t) d1 with
          | (d2, true) => J.dump d2
          | (_, false) => if d1 = d then s else J.dump d1
        | none => s
      else s
    | [] => s

def structuralPass (fuel : Nat) (d : J) : J × Bool :=
  structuralPassWith (fun t => normalizeNestedText fuel t) d

/-- `_normalize_cfn_template_for_provision` on a JSON-format document given
as its parsed tree: the string-level S3 fallback, then the structural
pass. -/
def normalizeTemplateJson (fuel : Nat) (d : J) : J :=
  (structuralPass fuel (s3Fallback d)).1

/-! ## `_one_subnet_per_az` -/

def sJoin (sep : String) : List String → String
  | [] => ""
  | [x] => x
  | x :: xs => x ++ sep ++ sJoin sep xs

/-- One record of a `describe_subnets` response: subnet id and availability
zone (an empty string models a missing field). -/
structure SubnetRec where
  sid : String
  az : String
deriving DecidableEq

/-- The `by_az` accumulation loop of `_one_subnet_per_az`: an
insertion-ordered dict keyed by zone, first id per zone kept. -/
def onePerAzAcc : List (String × String) → List SubnetRec → List (String × String)
  | acc, [] => acc
  | acc, s :: rest =>
    if s.az ≠ "" ∧ s.sid ≠ "" ∧ ¬ alHas acc s.az then
      onePerAzAcc (acc ++ [(s.az, s.sid)]) rest
    else onePerAzAcc acc rest

/-- `_one_subnet_per_az` applied to a successful `describe_subnets`
response: `list(by_az.values())`. -/
def onePerAzIds (recs : List SubnetRec) : List String :=
  (onePerAzAcc [] recs).map (fun kv => kv.2)

/-- Specification-side description of zone dedup: zones in first-seen
order, skipping zones already seen. -/
def zonesAfter (seen : List String) : List SubnetRec → List String
  | [] => []
  | s :: rest =>
    if s.az ∈ seen then zonesAfter seen rest
    else s.az :: zonesAfter (seen ++ [s.az]) rest

/-- Specification-side: the id of the first record of zone `z`. -/
def firstIdInZone (recs : List SubnetRec) (z : String) : String :=
  match recs.find? (fun s => s.az = z) with
  | some s => s.sid
  | none => ""

/-! ## Cross-account credentials (`_get_cross_account_credentials`,
`get_cfn_client`) -/

structure Creds where
  accessKeyId : String
  secretAccessKey : String
  sessionToken : String
deriving DecidableEq

structure CredSt where
  cache : Option Creds
  expiry : Nat
deriving DecidableEq

/-- `_get_cross_account_credentials`.  `stsResult` is the outcome the
`sts.assume_role` call would have (`none` models an exception).  Returns
the credentials (or `none`), the new module-level cache state, and whether
an assume-role API call was issued. -/
def getCrossAccountCredentials (roleArn : Option String) (now : Nat)
    (stsResult : Option Creds) (st : CredSt) : Option Creds × CredSt × Bool :=
  match roleArn with
  | none => (none, st, false)
  | some _ =>
    if st.cache.isSome ∧ now < st.expiry then (st.cache, st, false)
    else
      match stsResult with
      | some c => (some c, ⟨some c, now + 300⟩, true)
      | none => (none, ⟨none, 0⟩, true)

/-- The identity a boto3 client ends up with. -/
inductive CfnClient where
  | assumed (c : Creds)
  | direct
deriving DecidableEq

/-- `get_cfn_client` (and `get_ec2_client`, which is identical in
credential behavior). -/
def getCfnClient (roleArn : Option String) (now : Nat) (stsResult : Option Creds)
    (st : CredSt) : CfnClient × CredSt × Bool :=
  let r := getCrossAccountCredentials roleArn now stsResult st
  match r.1 with
  | some c => (.assumed c, r.2.1, r.2.2)
  | none => (.direct, r.2.1, r.2.2)

/-! ## `provision_cfn_stack` pipeline model.

The pipeline works on parsed documents; the raw-text observations that the
Python makes on the (post-normalization) template string are supplied
through `BodyObs`, whose fields name the exact source expressions.
A consistent instantiation (the only realizable ones) has `paramsKeys` the
declared parameter names of the post-processed body when it parses, and the
substring flags true whenever the corresponding names occur in its text. -/

def hardcodedVpcId : String := "vpc-0ca2fc76"

structure SubmitReq where
  stackName : String
  /-- `params['Parameters']` — present only when `user_params` is non-empty. -/
  parameters : Option (List (String × String))
  /-- `params['Capabilities']` — present only when the caller's list is truthy. -/
  capabilities : Option (List String)
  /-- stack-creator tags, attached on creation only. -/
  tagged : Bool
deriving DecidableEq

inductive ExtCall where
  | assumeRole
  | describeStacks (name : String)
  | describeVpcs
  | describeSubnetsByVpc (vpc : String)
  | describeSubnetsByIds (ids : List String)
  | createStack (req : SubmitReq)
  | updateStack (req : SubmitReq)
deriving DecidableEq

def ExtCall.isSubmit : ExtCall → Bool
  | .createStack _ => true
  | .updateStack _ => true
  | _ => false

/-- Environment / external-world oracle for one `provision_cfn_stack`
invocation. -/
structure PEnv where
  readonly : Bool
  /-- `int(time.time())`. -/
  now : Nat
  roleArn : Option String
  stsCreds : Option Creds
  cacheCreds : Option Creds
  cacheExpiry : Nat
  /-- `describe_subnets` by VPC filter: vpc id to subnet ids (missing or
  exception models as absent, yielding `[]`). -/
  subnetsOf : List (String × List String)
  /-- `describe_vpcs(is-default)`: `none` = exception, `some none` = no
  default VPC, `some (some v)` = default VPC `v`. -/
  describeVpcsResult : Option (Option String)
  /-- `CFN_TARGET_DEFAULT_VPC_ID` (stripped; `none` when unset/empty). -/
  targetDefaultVpcId : Option String
  /-- subnet id to availability zone, for `describe_subnets(SubnetIds=…)`. -/
  azOf : List (String × String)
  /-- outcome of `describe_stacks(StackName=…)` (`false` = raised). -/
  stackExists : Bool
  /-- `create_stack`/`update_stack`: `some stackId` or `none` = raised. -/
  submitResult : Option String
  submitErrMsg : String

/-- Raw-text observations on the post-normalization template body. -/
structure BodyObs where
  /-- declared parameter names: `json.loads/yaml.safe_load(body).get('Parameters', \x7b\x7d).keys()`;
  `none` models a parse exception. -/
  paramsKeys : Option (List String)
  /-- `'Parameters' in template_body or '"Parameters"' in template_body`. -/
  hasParamsSubstr : Bool
  /-- names among VpcId/PublicSubnetIds/PrivateSubnetIds/SubnetId matching
  `re.search(r'…name…\s*[:\x7b]', template_body)`. -/
  vpcRegexNames : List String
  /-- names among the four that occur as substrings of the body. -/
  vpcSubstrNames : List String
  /-- `'DBInstanceIdentifierSuffix' in template_body or 'dbinstanceidentifiersuffix' in template_body.lower()`. -/
  dbSuffixSubstr : Bool
  /-- `'BucketNameSuffix' in template_body or 'bucketnamesuffix' in template_body.lower()`. -/
  bucketSuffixSubstr : Bool
deriving DecidableEq

structure PInput where
  stackName : String
  /-- parse of the ORIGINAL body for the policy gate (`none` = exception). -/
  bodyParsed : Option J
  postObs : BodyObs
  capabilities : Option (List String)
  /-- caller parameter dicts, as (ParameterKey, str(ParameterValue)). -/
  parameters : Option (List (String × String))

inductive PRes where
  | ok (action : String) (stackId : String) (stackName : Option String)
  | err (msg : String)
deriving DecidableEq

def readonlyProvisionMsg : String :=
  "Server is in read-only mode. Provisioning is disabled. Set MCP_READONLY=false to allow stack create/update."

def forbiddenResourceTypes : List String :=
  ["AWS::EC2::VPC", "AWS::EC2::Subnet", "AWS::EC2::InternetGateway",
   "AWS::EC2::VPCGatewayAttachment", "AWS::EC2::NATGateway", "AWS::EC2::EIP",
   "AWS::EC2::RouteTable", "AWS::EC2::Route", "AWS::EC2::SubnetRouteTableAssociation"]

def resourceTypeOf (rdef : J) : Option String :=
  match rdef with
  | .obj rkvs =>
    match alGet rkvs "Type" with
    | some (.str t) => some t
    | _ => none
  | _ => none

/-- Types (with repetition, resource order) of resources whose `Type` is in
the deny-set; empty when the document shape defeats the check (the Python
`except: pass`). -/
def forbiddenFoundTypes (d : J) : List String :=
  match d with
  | .obj kvs =>
    match alGet kvs "Resources" with
    | some (.obj rs) =>
      rs.filterMap (fun kv =>
        match resourceTypeOf kv.2 with
        | some t => if t ∈ forbiddenResourceTypes then some t else none
        | none => none)
    | _ => []
  | _ => []

/-- First-seen-order dedup (models the Python `set` of offending types;
set iteration order is unspecified, fixed here as first-seen). -/
def listDedupFirst (l : List String) : List String :=
  l.foldl (fun acc t => if t ∈ acc then acc else acc ++ [t]) []

def forbiddenGateMsg (types : List String) : String :=
  "Template must not create VPC resources (account limit). Found: " ++ sJoin ", " types ++
  ". Rebuild the template using Parameters VpcId, PublicSubnetIds, PrivateSubnetIds and references like !Ref VpcId (no AWS::EC2::VPC, Subnet, InternetGateway, NAT, Route)."

/-- The policy gate of `provision_cfn_stack` (lines 1353-1372). -/
def forbiddenCheck (parsed : Option J) : Option String :=
  match parsed with
  | some d =>
    let ts := forbiddenFoundTypes d
    if ts.isEmpty then none else some (forbiddenGateMsg (listDedupFirst ts))
  | none => none

def vpcParamNames : List String := ["VpcId", "PublicSubnetIds", "PrivateSubnetIds", "SubnetId"]

/-- `_is_vpc_param_key`. -/
def isVpcKey (k : String) : Bool :=
  sLower (sTrim k) ∈ ["vpcid", "publicsubnetids", "privatesubnetids", "subnetid"]

/-- `not val or val == 'default'` after `strip().lower()`. -/
def isDefaultish (v : String) : Bool :=
  let w := sLower (sTrim v)
  w = "" ∨ w = "default"

/-- `_use_default_vpc_value` (dict lookup, missing treated as `''`). -/
def useDefaultVpcValue (up : List (String × String)) (k : String) : Bool :=
  isDefaultish ((alGet up k).getD "")

/-- `user_params` construction: entries with a truthy `ParameterKey`,
later duplicates overwriting. -/
def buildUserParams (ps : List (String × String)) : List (String × String) :=
  ps.foldl (fun acc kv => if kv.1 ≠ "" then alSet acc kv.1 kv.2 else acc) []

def subnetsForVpc (e : PEnv) (v : String) : List String :=
  (alGet e.subnetsOf v).getD []

/-- `_get_default_vpc_and_subnets`, with its external calls. -/
def getDefaultVpcAndSubnets (e : PEnv) : Option String × List String × List ExtCall :=
  match e.describeVpcsResult with
  | none => (none, [], [.describeVpcs])
  | some (some v) => (some v, subnetsForVpc e v, [.describeVpcs, .describeSubnetsByVpc v])
  | some none =>
    match e.targetDefaultVpcId with
    | some tv =>
      let s := subnetsForVpc e tv
      if ¬ s.isEmpty then (some tv, s, [.describeVpcs, .describeSubnetsByVpc tv])
      else
        let s2 := subnetsForVpc e hardcodedVpcId
        if ¬ s2.isEmpty then
          (some hardcodedVpcId, s2,
            [.describeVpcs, .describeSubnetsByVpc tv, .describeSubnetsByVpc hardcodedVpcId])
        else (none, [], [.describeVpcs, .describeSubnetsByVpc tv, .describeSubnetsByVpc hardcodedVpcId])
    | none =>
      let s2 := subnetsForVpc e hardcodedVpcId
      if ¬ s2.isEmpty then
        (some hardcodedVpcId, s2, [.describeVpcs, .describeSubnetsByVpc hardcodedVpcId])
      else (none, [], [.describeVpcs, .describeSubnetsByVpc hardcodedVpcId])

def lookupAllAz (azOf : List (String × String)) : List String → Option (List SubnetRec)
  | [] => some []
  | i :: rest =>
    match alGet azOf i with
    | some az => (lookupAllAz azOf rest).map (fun rs => ⟨i, az⟩ :: rs)
    | none => none

/-- `_one_subnet_per_az(subnet_ids)` inside the pipeline: a failing
`describe_subnets` (some id unknown) returns the original list. -/
def onePerSubnetAz (e : PEnv) (ids : List String) : List String :=
  if ids.isEmpty then []
  else
    match lookupAllAz e.azOf ids with
    | some recs => onePerAzIds recs
    | none => ids

/-- The VPC/subnet discovery of the `need_vpc` block, with calls. -/
def resolveDefaultVpc (e : PEnv) : Option String × List String × List ExtCall :=
  let hardIds := subnetsForVpc e hardcodedVpcId
  let base : Option String × List String × List ExtCall :=
    if ¬ hardIds.isEmpty then (some hardcodedVpcId, hardIds, [.describeSubnetsByVpc hardcodedVpcId])
    else
      let r := getDefaultVpcAndSubnets e
      (r.1, r.2.1, .describeSubnetsByVpc hardcodedVpcId :: r.2.2)
  let ids0 := base.2.1
  if ¬ ids0.isEmpty then
    (base.1, onePerSubnetAz e ids0, base.2.2 ++ [.describeSubnetsByIds ids0])
  else (base.1, ids0, base.2.2)

def resolvedValueForKind (vpcId : String) (subnetIds : List String) (subnetVal : String)
    (kind : String) : String :=
  if kind = "vpcid" then vpcId
  else if kind = "subnetid" then subnetIds.headD ""
  else subnetVal

/-- First overwrite loop: defaultish user-supplied VPC params get the
resolved values (keys are unique by `buildUserParams` construction, so the
per-entry test equals the source's dict lookup). -/
def applyVpcOverwrites (vpcId : String) (subnetIds : List String)
    (up : List (String × String)) : List (String × String) :=
  let subnetVal := sJoin "," subnetIds
  up.map (fun kv =>
    if isVpcKey kv.1 ∧ isDefaultish kv.2 then
      (kv.1, resolvedValueForKind vpcId subnetIds subnetVal (sLower (sTrim kv.1)))
    else kv)

def applyVpcFillGo (vpcId : String) (subnetIds : List String) (subnetVal : String)
    (tpk : List String) : List String → List (String × String) → List (String × String)
  | [], up => up
  | ckey :: rest, up =>
    applyVpcFillGo vpcId subnetIds subnetVal tpk rest
      (if ckey ∈ tpk ∧ useDefaultVpcValue up ckey then
        alSet up ckey
          (if ckey = "VpcId" then vpcId
           else if ckey = "SubnetId" then subnetIds.headD ""
           else subnetVal)
      else up)

/-- Second loop: canonical VPC parameter names declared by the template and
still defaultish are filled in, in canonical order, each seeing the
previous updates. -/
def applyVpcTemplateFill (vpcId : String) (subnetIds : List String) (tpk : List String)
    (up : List (String × String)) : List (String × String) :=
  applyVpcFillGo vpcId subnetIds (sJoin "," subnetIds) tpk vpcParamNames up

/-- The failure scan after VPC resolution: first still-defaultish VPC
parameter. -/
def findUnresolvedVpcKey (up : List (String × String)) : Option String :=
  (up.find? (fun kv => isVpcKey kv.1 ∧ useDefaultVpcValue up kv.1)).map (fun kv => kv.1)

def unresolvedVpcMsg (key : String) (crossAccount : Bool) : String :=
  let base := "Pass explicit VpcId/PublicSubnetIds/PrivateSubnetIds, or ensure the target account has a default VPC."
  let hint :=
    if crossAccount then
      base ++ " For cross-account, you can set CFN_TARGET_DEFAULT_VPC_ID to a VPC ID in the target account."
    else base ++ " Or ensure vpc-0ca2fc76 exists in this region and has subnets."
  "Could not resolve default VPC/subnets for " ++ key ++ ". " ++ hint

/-- Python `set.add`: membership-guarded append on the key list. -/
def insertIfAbsent (tpk : List String) (k : String) : List String :=
  if k ∈ tpk then tpk else tpk ++ [k]

/-- One suffix-injection step of the creation path: find a declared key
whose `strip().lower()` equals `normName` (else use the canonical
`dflt` name), and when found-or-mentioned set it to `suffix` in
`user_params` and add it to `template_param_keys`.  The state is
(`user_params`, `template_param_keys`). -/
def injectOneSuffix (normName dflt : String) (mentioned : Bool) (suffix : String)
    (st : List (String × String) × List String) :
    List (String × String) × List String :=
  let key? := st.2.find? (fun k => sLower (sTrim k) = normName)
  if key?.isSome ∨ mentioned then
    let key := key?.getD dflt
    (alSet st.1 key suffix, insertIfAbsent st.2 key)
  else st

/-- Creation-only injection of `DBInstanceIdentifierSuffix` /
`BucketNameSuffix` (returns updated `user_params` and
`template_param_keys`); the bucket step sees the key set updated by the
database step, as in the source. -/
def injectCreateSuffixes (suffix : String) (dbSubstr bucketSubstr : Bool)
    (tpk : List String) (up : List (String × String)) :
    List (String × String) × List String :=
  injectOneSuffix "bucketnamesuffix" "BucketNameSuffix" bucketSubstr suffix
    (injectOneSuffix "dbinstanceidentifiersuffix" "DBInstanceIdentifierSuffix" dbSubstr suffix
      (up, tpk))

/-- Final safeguard and declared-set filter producing
`params['Parameters']` (absent when `user_params` is empty). -/
def finalParameterList (tpk : List String) (up : List (String × String)) :
    Option (List (String × String)) :=
  if up.isEmpty then none
  else some (up.filter (fun kv =>
    ¬ (isVpcKey kv.1 ∧ sLower (sTrim kv.2) = "default") ∧ (tpk.isEmpty ∨ kv.1 ∈ tpk)))

/-- The generated short stack name and the name actually used
(lines 1347-1351). -/
def effectiveStackName (now : Nat) (stackName : String) : String :=
  let sn0 := sTrim stackName
  if 50 < sn0.length then "AgenticArchitect-" ++ lastDigits now else sn0

/-- `user_params` after the initial build. -/
def pUp0 (inp : PInput) : List (String × String) :=
  buildUserParams (inp.parameters.getD [])

/-- `template_param_keys` after the parse and the regex-detection
fallback. -/
def pTpk1 (inp : PInput) : List String :=
  let tpk0 := inp.postObs.paramsKeys.getD []
  if tpk0.isEmpty ∧ inp.postObs.hasParamsSubstr then
    vpcParamNames.filter (fun n => n ∈ inp.postObs.vpcRegexNames)
  else tpk0

/-- `need_vpc`. -/
def pNeedVpc (inp : PInput) : Bool :=
  let up0 := pUp0 inp
  let hasVpcParams : Bool :=
    (pTpk1 inp).any (fun k => isVpcKey k ∧ k ≠ "") ||
    (inp.postObs.hasParamsSubstr && vpcParamNames.any (fun n => n ∈ inp.postObs.vpcSubstrNames))
  hasVpcParams || up0.any (fun kv => isVpcKey kv.1 ∧ useDefaultVpcValue up0 kv.1)

/-- The `need_vpc` block: resolved vpc (when usable), updated
`user_params`, calls. -/
def pVpcStep (e : PEnv) (inp : PInput) : Option String × List (String × String) × List ExtCall :=
  if pNeedVpc inp then
    let r := resolveDefaultVpc e
    match r.1, r.2.1 with
    | some v, ids =>
      if v ≠ "" ∧ ¬ ids.isEmpty then
        (some v, applyVpcTemplateFill v ids (pTpk1 inp) (applyVpcOverwrites v ids (pUp0 inp)), r.2.2)
      else (none, pUp0 inp, r.2.2)
    | none, _ => (none, pUp0 inp, r.2.2)
  else (none, pUp0 inp, [])

def pUp2 (e : PEnv) (inp : PInput) : List (String × String) :=
  (pVpcStep e inp).2.1

/-- The post-resolution failure scan (only inside the `need_vpc` block). -/
def pUnresolved (e : PEnv) (inp : PInput) : Option String :=
  if pNeedVpc inp then findUnresolvedVpcKey (pUp2 e inp) else none

/-- `user_params` and `template_param_keys` after creation-only suffix
injection. -/
def pInj (e : PEnv) (inp : PInput) : List (String × String) × List String :=
  if e.stackExists then (pUp2 e inp, pTpk1 inp)
  else
    injectCreateSuffixes (lastDigits e.now) inp.postObs.dbSuffixSubstr
      inp.postObs.bucketSuffixSubstr (pTpk1 inp) (pUp2 e inp)

/-- The create/update request finally submitted. -/
def pReq (e : PEnv) (inp : PInput) : SubmitReq :=
  { stackName := effectiveStackName e.now inp.stackName
    parameters := finalParameterList (pInj e inp).2 (pInj e inp).1
    capabilities :=
      match inp.capabilities with
      | some (c :: cs) => some (c :: cs)
      | _ => none
    tagged := ¬ e.stackExists }

/-- `provision_cfn_stack`: the full pipeline, returning the structured
result and the ordered external API calls issued.  (Credential refreshes
inside the EC2 helper clients are not re-counted; the submitted template
text itself is the post-processed body and is not carried in the request
record.) -/
def provisionModel (e : PEnv) (inp : PInput) : PRes × List ExtCall :=
  if e.readonly then (.err readonlyProvisionMsg, [])
  else
    let stackName := effectiveStackName e.now inp.stackName
    match forbiddenCheck inp.bodyParsed with
    | some msg => (.err msg, [])
    | none =>
      let cl := getCfnClient e.roleArn e.now e.stsCreds ⟨e.cacheCreds, e.cacheExpiry⟩
      let calls1 : List ExtCall :=
        (if cl.2.2 then [.assumeRole] else []) ++ [.describeStacks stackName]
      let calls2 := calls1 ++ (pVpcStep e inp).2.2
      match pUnresolved e inp with
      | some key => (.err (unresolvedVpcMsg key e.roleArn.isSome), calls2)
      | none =>
        let req := pReq e inp
        let submitCall : ExtCall :=
          if e.stackExists then .updateStack req else .createStack req
        match e.submitResult with
        | some sid =>
          (.ok (if e.stackExists then "updated" else "created") sid
            (if stackName ≠ "" then some stackName else none),
            calls2 ++ [submitCall])
        | none => (.err e.submitErrMsg, calls2 ++ [submitCall])

/-! ## Helper lemmas about the call trace -/

def noSubmitCalls (l : List ExtCall) : Bool := l.all (fun c => ! c.isSubmit)

theorem isSubmit_false_of_mem : ∀ (l : List ExtCall) (c : ExtCall),
    c ∈ l → noSubmitCalls l = true → c.isSubmit = false
  | [], _, hc, _ => absurd hc (List.not_mem_nil _)
  | a :: rest, c, hc, hl => by
    have hl2 : (! a.isSubmit) = true ∧ noSubmitCalls rest = true := by
      simpa [noSubmitCalls, List.all_cons, Bool.and_eq_true] using hl
    rcases List.mem_cons.mp hc with rfl | hm
    · simpa using hl2.1
    · exact isSubmit_false_of_mem rest c hm hl2.2

theorem getDefaultVpcAndSubnets_no_submit (e : PEnv) :
    ∀ c ∈ (getDefaultVpcAndSubnets e).2.2, c.isSubmit = false := by
  intro c hc
  unfold getDefaultVpcAndSubnets at hc
  dsimp only at hc
  split at hc <;> (try split at hc) <;> (try split at hc) <;> (try split at hc) <;>
    exact isSubmit_false_of_mem _ _ hc rfl

theorem resolveDefaultVpc_no_submit (e : PEnv) :
    ∀ c ∈ (resolveDefaultVpc e).2.2, c.isSubmit = false := by
  intro c hc
  unfold resolveDefaultVpc at hc
  dsimp only at hc
  split at hc
  · -- hardcoded VPC had subnets: literal call lists
    simp only [List.mem_append, List.mem_cons, List.mem_singleton, List.not_mem_nil,
      or_false, false_or] at hc
    rcases hc with rfl | rfl <;> rfl
  · -- fell through to _get_default_vpc_and_subnets
    split at hc
    · simp only [List.mem_append, List.mem_cons, List.mem_singleton, List.not_mem_nil,
        or_false, false_or] at hc
      rcases hc with (rfl | hm) | rfl
      · rfl
      · exact getDefaultVpcAndSubnets_no_submit e c hm
      · rfl
    · simp only [List.mem_cons] at hc
      rcases hc with rfl | hm
      · rfl
      · exact getDefaultVpcAndSubnets_no_submit e c hm

theorem pVpcStep_no_submit (e : PEnv) (inp : PInput) :
    ∀ c ∈ (pVpcStep e inp).2.2, c.isSubmit = false := by
  intro c hc
  unfold pVpcStep at hc
  split at hc
  · dsimp only at hc
    split at hc
    · split at hc <;> exact resolveDefaultVpc_no_submit e c hc
    · exact resolveDefaultVpc_no_submit e c hc
  · simp at hc

theorem submit_tail_eq (e : PEnv) (inp : PInput) (req : SubmitReq)
    (h : ExtCall.createStack req ∈
          [if e.stackExists = true then ExtCall.updateStack (pReq e inp)
           else ExtCall.createStack (pReq e inp)] ∨
         ExtCall.updateStack req ∈
          [if e.stackExists = true then ExtCall.updateStack (pReq e inp)
           else ExtCall.createStack (pReq e inp)]) :
    req = pReq e inp := by
  rcases h with h | h
  · have h2 := List.mem_singleton.mp h
    by_cases hse : e.stackExists = true
    · rw [if_pos hse] at h2
      exact absurd h2 (by simp)
    · rw [if_neg hse] at h2
      exact ExtCall.createStack.inj h2
  · have h2 := List.mem_singleton.mp h
    by_cases hse : e.stackExists = true
    · rw [if_pos hse] at h2
      exact ExtCall.updateStack.inj h2
    · rw [if_neg hse] at h2
      exact absurd h2 (by simp)

/-- Every create/update call issued by the pipeline carries exactly the
request assembled by `pReq`. -/
theorem provisionModel_submit_eq_pReq (e : PEnv) (inp : PInput) (req : SubmitReq)
    (h : ExtCall.createStack req ∈ (provisionModel e inp).2 ∨
         ExtCall.updateStack req ∈ (provisionModel e inp).2) :
    req = pReq e inp := by
  have hpre : ∀ c ∈ ((if (getCfnClient e.roleArn e.now e.stsCreds
        ⟨e.cacheCreds, e.cacheExpiry⟩).2.2 = true then [ExtCall.assumeRole] else []) ++
        [ExtCall.describeStacks (effectiveStackName e.now inp.stackName)]) ++
        (pVpcStep e inp).2.2, c.isSubmit = false := by
    intro c hc
    rcases List.mem_append.mp hc with hc | hc
    · rcases List.mem_append.mp hc with hc | hc
      · split at hc
        · rcases List.mem_singleton.mp hc with rfl; rfl
        · cases hc
      · rcases List.mem_singleton.mp hc with rfl; rfl
    · exact pVpcStep_no_submit e inp c hc
  unfold provisionModel at h
  dsimp only at h
  split at h
  · simp at h
  · split at h
    · simp at h
    · split at h
      · -- unresolved-parameter failure: only discovery calls
        rcases h with h | h <;> exact absurd (hpre _ h) (by simp [ExtCall.isSubmit])
      · -- submitted (success or submission failure): both branches share the trace
        rcases hsr : e.submitResult with _ | sid <;> rw [hsr] at h <;> dsimp only at h <;>
          rcases h with h | h <;> rcases List.mem_append.mp h with h | h <;>
          first
            | exact absurd (hpre _ h) (by simp [ExtCall.isSubmit])
            | exact submit_tail_eq e inp req (Or.inl h)
            | exact submit_tail_eq e inp req (Or.inr h)

/-! ## C1: the policy gate -/

/-- C1: for every template document that parses to an object containing at
least one resource whose `Type` is in the fixed deny-set,
`provision_cfn_stack` (outside read-only mode) returns the failure result
naming the distinct offending types, and its external-call trace is empty:
no credential acquisition, no network discovery, no describe/create/update
is issued. -/
theorem policy_gate_rejects_without_external_calls (e : PEnv) (inp : PInput) (d : J)
    (hro : e.readonly = false)
    (hparse : inp.bodyParsed = some d)
    (hforb : forbiddenFoundTypes d ≠ []) :
    provisionModel e inp =
      (.err (forbiddenGateMsg (listDedupFirst (forbiddenFoundTypes d))), []) := by
  have hfc : forbiddenCheck inp.bodyParsed =
      some (forbiddenGateMsg (listDedupFirst (forbiddenFoundTypes d))) := by
    rw [hparse]
    unfold forbiddenCheck
    simp only [List.isEmpty_iff]
    rw [if_neg hforb]
  unfold provisionModel
  rw [hro, hfc]
  simp

theorem policy_gate_rejects_without_external_calls_witness :
    (({ readonly := false, now := 1700000000, roleArn := none, stsCreds := none,
        cacheCreds := none, cacheExpiry := 0, subnetsOf := [], describeVpcsResult := some none,
        targetDefaultVpcId := none, azOf := [], stackExists := false,
        submitResult := some "sid", submitErrMsg := "x" } : PEnv).readonly = false) ∧
    forbiddenFoundTypes (J.obj [("Resources", J.obj
      [("V", J.obj [("Type", J.str "AWS::EC2::VPC")]),
       ("S", J.obj [("Type", J.str "AWS::EC2::Subnet")]),
       ("V2", J.obj [("Type", J.str "AWS::EC2::VPC")])])]) ≠ [] ∧
    provisionModel
      { readonly := false, now := 1700000000, roleArn := none, stsCreds := none,
        cacheCreds := none, cacheExpiry := 0, subnetsOf := [], describeVpcsResult := some none,
        targetDefaultVpcId := none, azOf := [], stackExists := false,
        submitResult := some "sid", submitErrMsg := "x" }
      { stackName := "my-stack",
        bodyParsed := some (J.obj [("Resources", J.obj
          [("V", J.obj [("Type", J.str "AWS::EC2::VPC")]),
           ("S", J.obj [("Type", J.str "AWS::EC2::Subnet")]),
           ("V2", J.obj [("Type", J.str "AWS::EC2::VPC")])])]),
        postObs := { paramsKeys := some [], hasParamsSubstr := false, vpcRegexNames := [],
                     vpcSubstrNames := [], dbSuffixSubstr := false, bucketSuffixSubstr := false },
        capabilities := none, parameters := none } =
      (.err (forbiddenGateMsg (listDedupFirst (forbiddenFoundTypes (J.obj [("Resources", J.obj
        [("V", J.obj [("Type", J.str "AWS::EC2::VPC")]),
         ("S", J.obj [("Type", J.str "AWS::EC2::Subnet")]),
         ("V2", J.obj [("Type", J.str "AWS::EC2::VPC")])])])))), []) :=
  ⟨rfl, by decide,
    policy_gate_rejects_without_external_calls _ _ _ rfl rfl (by decide)⟩

/-! ## C8: structured results -/

/-- C8: every invocation of the pipeline terminates with a structured
result: either a failure whose error field is a string, or a success whose
action is exactly `"created"` or `"updated"` (the model is a total
function, reflecting that the source wraps the submission in a catch-all
`except` returning `\x7b'success': False, 'error': str(e)\x7d`). -/
theorem provision_always_structured_result (e : PEnv) (inp : PInput) :
    (∃ msg, (provisionModel e inp).1 = .err msg) ∨
    (∃ sid sn, (provisionModel e inp).1 = .ok "created" sid sn ∨
               (provisionModel e inp).1 = .ok "updated" sid sn) := by
  unfold provisionModel
  split
  · exact Or.inl ⟨_, rfl⟩
  · split
    · exact Or.inl ⟨_, rfl⟩
    · split
      · exact Or.inl ⟨_, rfl⟩
      · rcases hsr : e.submitResult with _ | sid <;> rcases hse : e.stackExists with _ | _ <;>
          simp only [hsr, hse] <;>
          first
            | exact Or.inl ⟨_, rfl⟩
            | exact Or.inr ⟨_, _, Or.inl rfl⟩
            | exact Or.inr ⟨_, _, Or.inr rfl⟩

/-! ## C10: stack-name shortening -/

theorem effectiveStackName_ne_empty (now : Nat) (s : String) (h : sTrim s ≠ "") :
    effectiveStackName now s ≠ "" := by
  unfold effectiveStackName
  dsimp only
  split
  · intro he
    have := congrArg String.data he
    simp [String.data_append] at this
  · exact h

/-- C10: a stack name whose stripped form exceeds 50 characters is
replaced by `"AgenticArchitect-" ++ last 8 digits of the timestamp`; a
stripped name of 50 characters or less is used as given; and the name
actually used is the one in every issued call's request and in the success
result's `stack_name` field. -/
theorem long_stack_name_replaced (e : PEnv) (inp : PInput)
    (hsn : sTrim inp.stackName ≠ "") :
    (50 < (sTrim inp.stackName).length →
      effectiveStackName e.now inp.stackName = "AgenticArchitect-" ++ lastDigits e.now) ∧
    ((sTrim inp.stackName).length ≤ 50 →
      effectiveStackName e.now inp.stackName = sTrim inp.stackName) ∧
    (∀ a sid sn, (provisionModel e inp).1 = .ok a sid sn →
      sn = some (effectiveStackName e.now inp.stackName)) ∧
    (∀ req, (ExtCall.createStack req ∈ (provisionModel e inp).2 ∨
             ExtCall.updateStack req ∈ (provisionModel e inp).2) →
      req.stackName = effectiveStackName e.now inp.stackName) := by
  refine ⟨?_, ?_, ?_, ?_⟩
  · intro hlen
    unfold effectiveStackName
    rw [if_pos hlen]
  · intro hlen
    unfold effectiveStackName
    rw [if_neg (by omega)]
  · intro a sid sn hok
    have hne := effectiveStackName_ne_empty e.now inp.stackName hsn
    unfold provisionModel at hok
    split at hok
    · simp at hok
    · split at hok
      · simp at hok
      · rcases hun : pUnresolved e inp with _ | key <;> rw [hun] at hok <;> dsimp only at hok
        · rcases hsr : e.submitResult with _ | sid2 <;> rw [hsr] at hok <;> dsimp only at hok
          · simp at hok
          · have h3 := (PRes.ok.inj hok).2.2
            rw [if_pos hne] at h3
            exact h3.symm
        · simp at hok
  · intro req hmem
    rw [provisionModel_submit_eq_pReq e inp req hmem]
    rfl

theorem long_stack_name_replaced_witness :
    sTrim "abcdefghijklmnopqrstuvwxyzabcdefghijklmnopqrstuvwxyzabc" ≠ "" ∧
    (50 < (sTrim "abcdefghijklmnopqrstuvwxyzabcdefghijklmnopqrstuvwxyzabc").length →
      effectiveStackName 1700000000 "abcdefghijklmnopqrstuvwxyzabcdefghijklmnopqrstuvwxyzabc" =
        "AgenticArchitect-" ++ lastDigits 1700000000) := by
  refine ⟨by decide, ?_⟩
  have h := long_stack_name_replaced
    { readonly := false, now := 1700000000, roleArn := none, stsCreds := none,
      cacheCreds := none, cacheExpiry := 0, subnetsOf := [], describeVpcsResult := some none,
      targetDefaultVpcId := none, azOf := [], stackExists := false,
      submitResult := some "sid", submitErrMsg := "x" }
    { stackName := "abcdefghijklmnopqrstuvwxyzabcdefghijklmnopqrstuvwxyzabc",
      bodyParsed := none,
      postObs := { paramsKeys := some [], hasParamsSubstr := false, vpcRegexNames := [],
                   vpcSubstrNames := [], dbSuffixSubstr := false, bucketSuffixSubstr := false },
      capabilities := none, parameters := none }
    (by decide)
  exact h.1

/-! ## C7: cross-account credential behavior -/

/-- C7 counterexample: with a cross-account role configured
(`CFN_TARGET_ROLE_ARN` set) and role assumption failing, the engine does
NOT treat the call as fatal: `get_cfn_client` silently falls back to the
caller's own (direct) identity, and a provisioning call completes
successfully under it. -/
theorem credential_fatality_cex :
    getCfnClient (some "arn:aws:iam::471112858498:role/AgentCoreProvisionRole")
      1700000000 none ⟨none, 0⟩ = (.direct, ⟨none, 0⟩, true) ∧
    (provisionModel
      { readonly := false, now := 1700000000,
        roleArn := some "arn:aws:iam::471112858498:role/AgentCoreProvisionRole",
        stsCreds := none, cacheCreds := none, cacheExpiry := 0,
        subnetsOf := [], describeVpcsResult := some none, targetDefaultVpcId := none,
        azOf := [], stackExists := false, submitResult := some "sid", submitErrMsg := "x" }
      { stackName := "s", bodyParsed := none,
        postObs := { paramsKeys := some [], hasParamsSubstr := false, vpcRegexNames := [],
                     vpcSubstrNames := [], dbSuffixSubstr := false, bucketSuffixSubstr := false },
        capabilities := none, parameters := none }).1 =
      .ok "created" "sid" (some "s") := by
  exact ⟨rfl, rfl⟩

/-- C7 amended: role-assumption failure always degrades to the caller's
own identity, whether or not a cross-account target is configured (the
code's `get_cfn_client` returns a plain client whenever
`_get_cross_account_credentials` returns `None`); a successful assumption
yields an assumed-role client and caches the credentials; with no role
configured no assume-role call is made. -/
theorem credential_fallback_behavior (arn : String) (now : Nat) (st : CredSt)
    (hstale : st.cache = none ∨ st.expiry ≤ now) :
    getCfnClient (some arn) now none st = (.direct, ⟨none, 0⟩, true) ∧
    (∀ c : Creds, getCfnClient (some arn) now (some c) st = (.assumed c, ⟨some c, now + 300⟩, true)) ∧
    (∀ sts st2, getCfnClient none now sts st2 = (.direct, st2, false)) := by
  have hcond : ¬ (st.cache.isSome = true ∧ now < st.expiry) := by
    rcases hstale with h | h
    · rintro ⟨h1, -⟩
      rw [h] at h1
      simp at h1
    · rintro ⟨-, h2⟩
      omega
  refine ⟨?_, ?_, ?_⟩
  · unfold getCfnClient getCrossAccountCredentials
    rw [if_neg hcond]
  · intro c
    unfold getCfnClient getCrossAccountCredentials
    rw [if_neg hcond]
  · intro sts st2
    rfl

theorem credential_fallback_behavior_witness :
    ((⟨none, 0⟩ : CredSt).cache = none ∨ (⟨none, 0⟩ : CredSt).expiry ≤ 7) ∧
    getCfnClient (some "arn:x") 7 none ⟨none, 0⟩ = (.direct, ⟨none, 0⟩, true) :=
  ⟨Or.inl rfl, (credential_fallback_behavior "arn:x" 7 ⟨none, 0⟩ (Or.inl rfl)).1⟩

/-! ## C5: zone dedup -/

theorem alHas_iff_mem_keys {α : Type} (l : List (String × α)) (z : String) :
    alHas l z = true ↔ z ∈ l.map Prod.fst := by
  induction l with
  | nil => simp [alHas, alGet]
  | cons kv rest ih =>
    obtain ⟨k, v⟩ := kv
    by_cases hk : k = z
    · subst hk
      simp [alHas, alGet]
    · have hzk : z ≠ k := fun he => hk he.symm
      have h1 : alHas ((k, v) :: rest) z = alHas rest z := by simp [alHas, alGet, hk]
      rw [h1, ih, List.map_cons, List.mem_cons]
      simp [hzk]

theorem zonesAfter_not_mem_seen : ∀ (l : List SubnetRec) (seen : List String) (z : String),
    z ∈ zonesAfter seen l → z ∉ seen
  | [], _, z, h => by simp [zonesAfter] at h
  | s :: rest, seen, z, h => by
    by_cases haz : s.az ∈ seen
    · simp only [zonesAfter] at h
      rw [if_pos haz] at h
      exact zonesAfter_not_mem_seen rest seen z h
    · simp only [zonesAfter] at h
      rw [if_neg haz] at h
      rcases List.mem_cons.mp h with rfl | hm
      · exact haz
      · intro hz
        exact zonesAfter_not_mem_seen rest (seen ++ [s.az]) z hm
          (List.mem_append.mpr (Or.inl hz))

theorem zonesAfter_nodup : ∀ (l : List SubnetRec) (seen : List String),
    (zonesAfter seen l).Nodup
  | [], _ => by simp [zonesAfter]
  | s :: rest, seen => by
    by_cases haz : s.az ∈ seen
    · simp only [zonesAfter]
      rw [if_pos haz]
      exact zonesAfter_nodup rest seen
    · simp only [zonesAfter]
      rw [if_neg haz]
      refine List.nodup_cons.mpr ⟨?_, zonesAfter_nodup rest (seen ++ [s.az])⟩
      intro hm
      exact zonesAfter_not_mem_seen rest (seen ++ [s.az]) s.az hm
        (List.mem_append.mpr (Or.inr (List.mem_singleton.mpr rfl)))

theorem onePerAzAcc_spec : ∀ (recs : List SubnetRec) (acc : List (String × String)),
    (∀ s ∈ recs, s.az ≠ "" ∧ s.sid ≠ "") →
    onePerAzAcc acc recs =
      acc ++ (zonesAfter (acc.map Prod.fst) recs).map (fun z => (z, firstIdInZone recs z))
  | [], acc, _ => by simp [onePerAzAcc, zonesAfter]
  | s :: rest, acc, h => by
    have hs := h s (List.mem_cons_self _ _)
    have hrest : ∀ t ∈ rest, t.az ≠ "" ∧ t.sid ≠ "" :=
      fun t ht => h t (List.mem_cons_of_mem _ ht)
    by_cases haz : s.az ∈ acc.map Prod.fst
    · have hhas : alHas acc s.az = true := (alHas_iff_mem_keys _ _).mpr haz
      simp only [onePerAzAcc]
      rw [if_neg (by simp [hhas])]
      rw [onePerAzAcc_spec rest acc hrest]
      simp only [zonesAfter]
      rw [if_pos haz]
      congr 1
      apply List.map_congr_left
      intro z hz
      have hzs : z ∉ acc.map Prod.fst := zonesAfter_not_mem_seen rest _ z hz
      have hne : z ≠ s.az := fun he => hzs (he ▸ haz)
      unfold firstIdInZone
      rw [List.find?_cons_of_neg _ (by simp [Ne.symm hne])]
    · have hhas : ¬ alHas acc s.az = true :=
        fun hby => haz ((alHas_iff_mem_keys _ _).mp hby)
      simp only [onePerAzAcc]
      rw [if_pos ⟨hs.1, hs.2, hhas⟩]
      rw [onePerAzAcc_spec rest (acc ++ [(s.az, s.sid)]) hrest]
      simp only [zonesAfter]
      rw [if_neg haz]
      have hmapkeys : (acc ++ [(s.az, s.sid)]).map Prod.fst = acc.map Prod.fst ++ [s.az] := by
        simp
      rw [hmapkeys, List.append_assoc]
      congr 1
      simp only [List.singleton_append, List.map_cons]
      congr 1
      · unfold firstIdInZone
        rw [List.find?_cons_of_pos _ (by simp)]
      · apply List.map_congr_left
        intro z hz
        have hzs := zonesAfter_not_mem_seen rest _ z hz
        have hne : z ≠ s.az := fun he => hzs
          (by rw [he]; exact List.mem_append.mpr (Or.inr (by simp)))
        unfold firstIdInZone
        rw [List.find?_cons_of_neg _ (by simp [Ne.symm hne])]

/-- C5: for a `describe_subnets` response in which every record carries a
zone and an id, `_one_subnet_per_az` returns exactly one subnet id per
availability zone: the first-seen id of each zone, in first-seen zone
order (`zonesAfter [] recs` is the first-seen zone list, pairwise
distinct). -/
theorem one_subnet_per_az_zone_dedup (recs : List SubnetRec)
    (h : ∀ s ∈ recs, s.az ≠ "" ∧ s.sid ≠ "") :
    onePerAzIds recs = (zonesAfter [] recs).map (firstIdInZone recs) ∧
    (zonesAfter [] recs).Nodup := by
  constructor
  · unfold onePerAzIds
    rw [onePerAzAcc_spec recs [] h]
    simp [List.map_map, Function.comp]
  · exact zonesAfter_nodup recs []

theorem one_subnet_per_az_zone_dedup_witness :
    (∀ s ∈ [SubnetRec.mk "s1" "A", SubnetRec.mk "s2" "A",
            SubnetRec.mk "s3" "B", SubnetRec.mk "s4" "C"], s.az ≠ "" ∧ s.sid ≠ "") ∧
    (onePerAzIds [SubnetRec.mk "s1" "A", SubnetRec.mk "s2" "A",
                  SubnetRec.mk "s3" "B", SubnetRec.mk "s4" "C"] =
      (zonesAfter [] [SubnetRec.mk "s1" "A", SubnetRec.mk "s2" "A",
                      SubnetRec.mk "s3" "B", SubnetRec.mk "s4" "C"]).map
        (firstIdInZone [SubnetRec.mk "s1" "A", SubnetRec.mk "s2" "A",
                        SubnetRec.mk "s3" "B", SubnetRec.mk "s4" "C"]) ∧
     (zonesAfter [] [SubnetRec.mk "s1" "A", SubnetRec.mk "s2" "A",
                     SubnetRec.mk "s3" "B", SubnetRec.mk "s4" "C"]).Nodup) ∧
    onePerAzIds [SubnetRec.mk "s1" "A", SubnetRec.mk "s2" "A",
                 SubnetRec.mk "s3" "B", SubnetRec.mk "s4" "C"] = ["s1", "s3", "s4"] :=
  ⟨by decide,
   one_subnet_per_az_zone_dedup _ (by decide),
   by decide⟩

/-! ## Parameter-pipeline lemmas -/

theorem alGet_mem {α : Type} : ∀ (l : List (String × α)) (k : String) (v : α),
    alGet l k = some v → (k, v) ∈ l
  | [], _, _, h => by simp [alGet] at h
  | (k0, v0) :: rest, k, v, h => by
    by_cases hk : k0 = k
    · subst hk
      have hv : v0 = v := by simpa [alGet] using h
      subst hv
      exact List.mem_cons_self _ _
    · simp only [alGet, if_neg hk] at h
      exact List.mem_cons_of_mem _ (alGet_mem rest k v h)

theorem mem_alSet {α : Type} : ∀ (l : List (String × α)) (key : String) (v : α)
    (kv : String × α), kv ∈ alSet l key v → kv = (key, v) ∨ kv ∈ l
  | [], key, v, kv, h => by
    simp only [alSet, List.mem_singleton] at h
    exact Or.inl h
  | (k0, v0) :: rest, key, v, kv, h => by
    by_cases hk : k0 = key
    · subst hk
      rw [show alSet ((k0, v0) :: rest) k0 v = (k0, v) :: rest from by simp [alSet]] at h
      rcases List.mem_cons.mp h with rfl | h
      · exact Or.inl rfl
      · exact Or.inr (List.mem_cons_of_mem _ h)
    · rw [show alSet ((k0, v0) :: rest) key v = (k0, v0) :: alSet rest key v from by
        simp [alSet, hk]] at h
      rcases List.mem_cons.mp h with rfl | h
      · exact Or.inr (List.mem_cons_self _ _)
      · rcases mem_alSet rest key v kv h with h2 | h2
        · exact Or.inl h2
        · exact Or.inr (List.mem_cons_of_mem _ h2)

theorem finalParameterList_mem (tpk : List String) (up : List (String × String))
    (l : List (String × String)) (hl : finalParameterList tpk up = some l)
    (kv : String × String) (hm : kv ∈ l) :
    kv ∈ up ∧
    ¬ (isVpcKey kv.1 = true ∧ sLower (sTrim kv.2) = "default") ∧
    (tpk.isEmpty = true ∨ kv.1 ∈ tpk) := by
  unfold finalParameterList at hl
  split at hl
  · cases hl
  · rw [Option.some.injEq] at hl
    subst hl
    have h2 := List.mem_filter.mp hm
    refine ⟨h2.1, ?_, ?_⟩
    · have := of_decide_eq_true h2.2
      exact this.1
    · have := of_decide_eq_true h2.2
      exact this.2

theorem finalParameterList_mem_mpr (tpk : List String) (up : List (String × String))
    (kv : String × String) (hm : kv ∈ up)
    (h1 : ¬ (isVpcKey kv.1 = true ∧ sLower (sTrim kv.2) = "default"))
    (h2 : tpk.isEmpty = true ∨ kv.1 ∈ tpk) :
    ∃ l, finalParameterList tpk up = some l ∧ kv ∈ l := by
  unfold finalParameterList
  have hne : up.isEmpty = false := by
    cases up with
    | nil => cases hm
    | cons a rest => rfl
  rw [hne]
  simp only [Bool.false_eq_true, if_false]
  exact ⟨_, rfl, List.mem_filter.mpr ⟨hm, decide_eq_true ⟨h1, h2⟩⟩⟩

theorem mem_insertIfAbsent (tpk : List String) (k x : String)
    (hx : x ∈ insertIfAbsent tpk k) : x ∈ tpk ∨ x = k := by
  unfold insertIfAbsent at hx
  split at hx
  · exact Or.inl hx
  · rcases List.mem_append.mp hx with h | h
    · exact Or.inl h
    · exact Or.inr (List.mem_singleton.mp h)

theorem self_mem_insertIfAbsent (tpk : List String) (k : String) :
    k ∈ insertIfAbsent tpk k := by
  unfold insertIfAbsent
  split
  · assumption
  · exact List.mem_append.mpr (Or.inr (List.mem_singleton.mpr rfl))

theorem insertIfAbsent_superset (tpk : List String) (k x : String) (hx : x ∈ tpk) :
    x ∈ insertIfAbsent tpk k := by
  unfold insertIfAbsent
  split
  · exact hx
  · exact List.mem_append.mpr (Or.inl hx)

theorem insertIfAbsent_ne_nil (tpk : List String) (k : String) (h : tpk ≠ []) :
    insertIfAbsent tpk k ≠ [] := by
  unfold insertIfAbsent
  split
  · exact h
  · cases tpk with
    | nil => simp
    | cons a rest => simp

theorem findD_norm (tpk : List String) (n d : String) (hd : sLower (sTrim d) = n) :
    sLower (sTrim ((tpk.find? (fun k => sLower (sTrim k) = n)).getD d)) = n := by
  rcases hf : tpk.find? (fun k => sLower (sTrim k) = n) with _ | k0
  · simpa using hd
  · have := List.find?_some hf
    simpa using this

theorem injectOneSuffix_tpk_mem (n d : String) (p : Bool) (s : String)
    (st : List (String × String) × List String) (x : String)
    (hx : x ∈ (injectOneSuffix n d p s st).2) : x ∈ st.2 ∨ x = d := by
  unfold injectOneSuffix at hx
  dsimp only at hx
  split at hx
  · rcases mem_insertIfAbsent _ _ _ hx with h | h
    · exact Or.inl h
    · subst h
      rcases hf : st.2.find? (fun k => sLower (sTrim k) = n) with _ | k0
      · exact Or.inr rfl
      · exact Or.inl (List.mem_of_find?_eq_some hf)
  · exact Or.inl hx

theorem injectOneSuffix_tpk_superset (n d : String) (p : Bool) (s : String)
    (st : List (String × String) × List String) (x : String) (hx : x ∈ st.2) :
    x ∈ (injectOneSuffix n d p s st).2 := by
  unfold injectOneSuffix
  dsimp only
  split
  · exact insertIfAbsent_superset _ _ _ hx
  · exact hx

theorem injectOneSuffix_tpk_ne_nil (n d : String) (p : Bool) (s : String)
    (st : List (String × String) × List String) (h : st.2 ≠ []) :
    (injectOneSuffix n d p s st).2 ≠ [] := by
  unfold injectOneSuffix
  dsimp only
  split
  · exact insertIfAbsent_ne_nil _ _ h
  · exact h

/-- When the step fires, some key normalizing to `normName` gets the
suffix value and lands in the key set. -/
theorem injectOneSuffix_fires (n d : String) (p : Bool) (s : String)
    (st : List (String × String) × List String)
    (hd : sLower (sTrim d) = n)
    (hc : (st.2.find? (fun k => sLower (sTrim k) = n)).isSome = true ∨ p = true) :
    ∃ k, sLower (sTrim k) = n ∧
      alGet (injectOneSuffix n d p s st).1 k = some s ∧
      k ∈ (injectOneSuffix n d p s st).2 := by
  unfold injectOneSuffix
  dsimp only
  rw [if_pos (by rcases hc with h | h <;> [exact Or.inl h; exact Or.inr h])]
  exact ⟨_, findD_norm st.2 n d hd, alGet_alSet_self _ _ _, self_mem_insertIfAbsent _ _⟩

/-- Keys normalizing differently are untouched by the step. -/
theorem injectOneSuffix_preserve_get (n d : String) (p : Bool) (s : String)
    (st : List (String × String) × List String) (k : String)
    (hd : sLower (sTrim d) = n) (hk : sLower (sTrim k) ≠ n) :
    alGet (injectOneSuffix n d p s st).1 k = alGet st.1 k := by
  unfold injectOneSuffix
  dsimp only
  split
  · have hkey := findD_norm st.2 n d hd
    exact alGet_alSet_ne _ _ _ _ (fun he => hk (he ▸ hkey))
  · rfl

theorem mem_applyVpcOverwrites (v : String) (ids : List String)
    (up : List (String × String)) (kv : String × String)
    (h : kv ∈ applyVpcOverwrites v ids up) (hvpc : isVpcKey kv.1 = false) : kv ∈ up := by
  unfold applyVpcOverwrites at h
  rcases List.mem_map.mp h with ⟨kv0, hkv0, heq⟩
  by_cases hc : isVpcKey kv0.1 = true ∧ isDefaultish kv0.2 = true
  · rw [if_pos hc] at heq
    subst heq
    exact absurd hc.1 (by simp [hvpc])
  · rw [if_neg hc] at heq
    subst heq
    exact hkv0

theorem mem_applyVpcFillGo : ∀ (v : String) (ids : List String) (sv : String)
    (tpk names : List String) (up : List (String × String)) (kv : String × String),
    kv ∈ applyVpcFillGo v ids sv tpk names up →
    (∀ n ∈ names, isVpcKey n = true) → isVpcKey kv.1 = false → kv ∈ up
  | _, _, _, _, [], _, _, h, _, _ => h
  | v, ids, sv, tpk, ckey :: rest, up, kv, h, hnames, hvpc => by
    have h2 := mem_applyVpcFillGo v ids sv tpk rest _ kv h
      (fun n hn => hnames n (List.mem_cons_of_mem _ hn)) hvpc
    split at h2
    · rcases mem_alSet _ _ _ _ h2 with h3 | h3
      · exfalso
        have hck := hnames ckey (List.mem_cons_self _ _)
        rw [h3] at hvpc
        simp [hck] at hvpc
      · exact h3
    · exact h2

theorem mem_applyVpcTemplateFill (v : String) (ids : List String) (tpk : List String)
    (up : List (String × String)) (kv : String × String)
    (h : kv ∈ applyVpcTemplateFill v ids tpk up) (hvpc : isVpcKey kv.1 = false) : kv ∈ up :=
  mem_applyVpcFillGo _ _ _ _ _ _ kv h (by decide) hvpc

theorem mem_pUp2_nonvpc (e : PEnv) (inp : PInput) (kv : String × String)
    (h : kv ∈ pUp2 e inp) (hvpc : isVpcKey kv.1 = false) : kv ∈ pUp0 inp := by
  unfold pUp2 pVpcStep at h
  split at h
  · dsimp only at h
    split at h
    · split at h
      · exact mem_applyVpcOverwrites _ _ _ kv
          (mem_applyVpcTemplateFill _ _ _ _ kv h hvpc) hvpc
      · exact h
    · exact h
  · exact h

theorem pTpk1_of_declared (inp : PInput) (ks : List String)
    (hks : inp.postObs.paramsKeys = some ks) (hne : ks ≠ []) : pTpk1 inp = ks := by
  unfold pTpk1
  rw [hks]
  simp only [Option.getD_some]
  rw [if_neg]
  rintro ⟨h1, -⟩
  exact hne (List.isEmpty_iff.mp h1)

theorem provision_prefix_no_submit (e : PEnv) (inp : PInput) :
    ∀ c ∈ ((if (getCfnClient e.roleArn e.now e.stsCreds
        ⟨e.cacheCreds, e.cacheExpiry⟩).2.2 = true then [ExtCall.assumeRole] else []) ++
        [ExtCall.describeStacks (effectiveStackName e.now inp.stackName)]) ++
        (pVpcStep e inp).2.2, c.isSubmit = false := by
  intro c hc
  rcases List.mem_append.mp hc with hc | hc
  · rcases List.mem_append.mp hc with hc | hc
    · split at hc
      · rcases List.mem_singleton.mp hc with rfl
        rfl
      · cases hc
    · rcases List.mem_singleton.mp hc with rfl
      rfl
  · exact pVpcStep_no_submit e inp c hc

/-! ## C3: no literal "default" network parameter is ever submitted -/

/-- C3: (a) in every create/update request actually issued, no parameter
whose key is one of the network-identifying names (case-insensitively)
carries a value whose `strip().lower()` is the literal `"default"` — the
final safeguard filter guarantees it; and (b) whenever the post-resolution
scan finds a still-unresolved network parameter, the call returns the
failure result naming that parameter (with the remediation hint) and no
create/update request is issued. -/
theorem no_default_literal_submitted (e : PEnv) (inp : PInput)
    (hro : e.readonly = false) (hforb : forbiddenCheck inp.bodyParsed = none) :
    (∀ req, (ExtCall.createStack req ∈ (provisionModel e inp).2 ∨
             ExtCall.updateStack req ∈ (provisionModel e inp).2) →
       ∀ l, req.parameters = some l →
       ∀ kv ∈ l, ¬ (isVpcKey kv.1 = true ∧ sLower (sTrim kv.2) = "default")) ∧
    (∀ key, pUnresolved e inp = some key →
       (provisionModel e inp).1 = .err (unresolvedVpcMsg key e.roleArn.isSome) ∧
       ∀ c ∈ (provisionModel e inp).2, c.isSubmit = false) := by
  constructor
  · intro req hmem l hl kv hkv
    rw [provisionModel_submit_eq_pReq e inp req hmem] at hl
    exact (finalParameterList_mem _ _ _ hl kv hkv).2.1
  · intro key hkey
    have hres : provisionModel e inp =
        (.err (unresolvedVpcMsg key e.roleArn.isSome),
         ((if (getCfnClient e.roleArn e.now e.stsCreds ⟨e.cacheCreds, e.cacheExpiry⟩).2.2 = true
            then [ExtCall.assumeRole] else []) ++
          [ExtCall.describeStacks (effectiveStackName e.now inp.stackName)]) ++
         (pVpcStep e inp).2.2) := by
      unfold provisionModel
      simp only [hro, Bool.false_eq_true, if_false, hforb, hkey]
    rw [hres]
    exact ⟨rfl, provision_prefix_no_submit e inp⟩

def c3WEnv : PEnv :=
  { readonly := false, now := 1700000001, roleArn := none, stsCreds := none,
    cacheCreds := none, cacheExpiry := 0,
    subnetsOf := [("vpc-0ca2fc76", ["subnet-1", "subnet-3"])],
    describeVpcsResult := some none, targetDefaultVpcId := none,
    azOf := [("subnet-1", "a"), ("subnet-3", "b")], stackExists := false,
    submitResult := some "sid", submitErrMsg := "x" }

def c3WInp : PInput :=
  { stackName := "w3", bodyParsed := some (J.obj [("Resources", J.obj [])]),
    postObs := { paramsKeys := some ["VpcId"], hasParamsSubstr := true,
                 vpcRegexNames := [], vpcSubstrNames := ["VpcId"],
                 dbSuffixSubstr := false, bucketSuffixSubstr := false },
    capabilities := none, parameters := some [("VpcId", "default")] }

theorem no_default_literal_submitted_witness :
    c3WEnv.readonly = false ∧ forbiddenCheck c3WInp.bodyParsed = none ∧
    (∀ req, (ExtCall.createStack req ∈ (provisionModel c3WEnv c3WInp).2 ∨
             ExtCall.updateStack req ∈ (provisionModel c3WEnv c3WInp).2) →
       ∀ l, req.parameters = some l →
       ∀ kv ∈ l, ¬ (isVpcKey kv.1 = true ∧ sLower (sTrim kv.2) = "default")) :=
  ⟨rfl, rfl, (no_default_literal_submitted c3WEnv c3WInp rfl rfl).1⟩

/-! ## C4: declared-parameter filtering -/

def c4CexEnv : PEnv :=
  { readonly := false, now := 1700000000, roleArn := none, stsCreds := none,
    cacheCreds := none, cacheExpiry := 0, subnetsOf := [], describeVpcsResult := some none,
    targetDefaultVpcId := none, azOf := [], stackExists := true,
    submitResult := some "sid", submitErrMsg := "x" }

def c4CexInp : PInput :=
  { stackName := "s", bodyParsed := some (J.obj [("Resources", J.obj [])]),
    postObs := { paramsKeys := some [], hasParamsSubstr := false, vpcRegexNames := [],
                 vpcSubstrNames := [], dbSuffixSubstr := false, bucketSuffixSubstr := false },
    capabilities := none, parameters := some [("Z", "zv")] }

/-- C4 counterexample: for the template text `\x7b"Resources": \x7b\x7d\x7d`
the parse succeeds and the declared parameter set is determined and EMPTY,
yet a caller-supplied parameter `Z` is submitted: the empty set is falsy in
Python, so `if template_param_keys and k not in template_param_keys` skips
the filter entirely — refuting the claim that whenever the declared set
could be determined only declared keys are sent. -/
theorem declared_set_filter_cex :
    c4CexInp.postObs.paramsKeys = some [] ∧
    provisionModel c4CexEnv c4CexInp =
      (.ok "updated" "sid" (some "s"),
       [.describeStacks "s",
        .updateStack { stackName := "s", parameters := some [("Z", "zv")],
                       capabilities := none, tagged := false }]) :=
  ⟨rfl, by decide⟩

/-- C4 amended: when the declared parameter set could be determined AND is
non-empty, every submitted parameter key is either declared or one of the
two creation-time injected suffix keys (`DBInstanceIdentifierSuffix`,
`BucketNameSuffix`); in particular a caller-supplied undeclared `Z` is
dropped. -/
theorem declared_set_filter_amended (e : PEnv) (inp : PInput) (ks : List String)
    (hks : inp.postObs.paramsKeys = some ks) (hne : ks ≠ []) :
    ∀ req, (ExtCall.createStack req ∈ (provisionModel e inp).2 ∨
            ExtCall.updateStack req ∈ (provisionModel e inp).2) →
    ∀ l, req.parameters = some l →
    ∀ kv ∈ l, kv.1 ∈ ks ∨ kv.1 = "DBInstanceIdentifierSuffix" ∨ kv.1 = "BucketNameSuffix" := by
  intro req hmem l hl kv hkv
  rw [provisionModel_submit_eq_pReq e inp req hmem] at hl
  have htpk1 : pTpk1 inp = ks := pTpk1_of_declared inp ks hks hne
  have hl2 : finalParameterList (pInj e inp).2 (pInj e inp).1 = some l := hl
  have hmf := finalParameterList_mem _ _ _ hl2 kv hkv
  have htpk2ne : (pInj e inp).2 ≠ [] := by
    unfold pInj
    split
    · dsimp only
      rw [htpk1]
      exact hne
    · unfold injectCreateSuffixes
      apply injectOneSuffix_tpk_ne_nil
      apply injectOneSuffix_tpk_ne_nil
      dsimp only
      rw [htpk1]
      exact hne
  rcases hmf.2.2 with hemp | hmemk
  · exact absurd (List.isEmpty_iff.mp hemp) htpk2ne
  · revert hmemk
    unfold pInj
    split
    · intro hmemk
      dsimp only at hmemk
      rw [htpk1] at hmemk
      exact Or.inl hmemk
    · intro hmemk
      unfold injectCreateSuffixes at hmemk
      rcases injectOneSuffix_tpk_mem _ _ _ _ _ _ hmemk with h2 | h2
      · rcases injectOneSuffix_tpk_mem _ _ _ _ _ _ h2 with h3 | h3
        · dsimp only at h3
          rw [htpk1] at h3
          exact Or.inl h3
        · exact Or.inr (Or.inl h3)
      · exact Or.inr (Or.inr h2)

def c4WEnv : PEnv :=
  { readonly := false, now := 1700000002, roleArn := none, stsCreds := none,
    cacheCreds := none, cacheExpiry := 0, subnetsOf := [], describeVpcsResult := some none,
    targetDefaultVpcId := none, azOf := [], stackExists := true,
    submitResult := some "sid", submitErrMsg := "x" }

def c4WInp : PInput :=
  { stackName := "w4", bodyParsed := some (J.obj [("Resources", J.obj [])]),
    postObs := { paramsKeys := some ["X"], hasParamsSubstr := true, vpcRegexNames := [],
                 vpcSubstrNames := [], dbSuffixSubstr := false, bucketSuffixSubstr := false },
    capabilities := none, parameters := some [("X", "xv"), ("Z", "zv")] }

theorem declared_set_filter_amended_witness :
    c4WInp.postObs.paramsKeys = some ["X"] ∧ (["X"] : List String) ≠ [] ∧
    (∀ req, (ExtCall.createStack req ∈ (provisionModel c4WEnv c4WInp).2 ∨
             ExtCall.updateStack req ∈ (provisionModel c4WEnv c4WInp).2) →
      ∀ l, req.parameters = some l →
      ∀ kv ∈ l, kv.1 ∈ ["X"] ∨ kv.1 = "DBInstanceIdentifierSuffix" ∨
        kv.1 = "BucketNameSuffix") ∧
    provisionModel c4WEnv c4WInp =
      (.ok "updated" "sid" (some "w4"),
       [.describeStacks "w4",
        .updateStack { stackName := "w4", parameters := some [("X", "xv")],
                       capabilities := none, tagged := false }]) :=
  ⟨rfl, by decide, declared_set_filter_amended c4WEnv c4WInp ["X"] rfl (by decide), by decide⟩

/-! ## C6: creation-only suffix injection from the clock -/

def c6CexEnv (t : Nat) : PEnv :=
  { readonly := false, now := t, roleArn := none, stsCreds := none,
    cacheCreds := none, cacheExpiry := 0, subnetsOf := [], describeVpcsResult := some none,
    targetDefaultVpcId := none, azOf := [], stackExists := false,
    submitResult := some "sid", submitErrMsg := "x" }

def c6CexInp : PInput :=
  { stackName := "s", bodyParsed := some (J.obj [("Resources", J.obj [])]),
    postObs := { paramsKeys := some ["DBInstanceIdentifierSuffix"], hasParamsSubstr := true,
                 vpcRegexNames := [], vpcSubstrNames := [],
                 dbSuffixSubstr := true, bucketSuffixSubstr := false },
    capabilities := none, parameters := none }

/-- C6 counterexample: two creation calls whose integer timestamps are 10^8
seconds apart (well over one second) inject the SAME suffix value
`"00000000"`, because only the last 8 decimal digits of the timestamp are
used — refuting "clock times at least one second apart produce different
suffix values" as stated. -/
theorem suffix_clock_cex :
    1600000000 + 1 ≤ 1700000000 ∧
    provisionModel (c6CexEnv 1600000000) c6CexInp =
      (.ok "created" "sid" (some "s"),
       [.describeStacks "s",
        .createStack { stackName := "s",
                       parameters := some [("DBInstanceIdentifierSuffix", "00000000")],
                       capabilities := none, tagged := true }]) ∧
    provisionModel (c6CexEnv 1700000000) c6CexInp =
      (.ok "created" "sid" (some "s"),
       [.describeStacks "s",
        .createStack { stackName := "s",
                       parameters := some [("DBInstanceIdentifierSuffix", "00000000")],
                       capabilities := none, tagged := true }]) :=
  ⟨by decide, by decide, by decide⟩

/-- C6 amended: the injected suffix value is exactly the last 8 decimal
digits of the creation-time integer timestamp, so two creation calls
differ in suffix exactly when those last 8 digits differ (any two calls
between 1 second and about 3 years apart; calls congruent modulo 10^8
seconds collide); and update calls (stack exists) never inject or modify a
suffix parameter — every submitted suffix-named entry is literally a
caller-supplied one. -/
theorem suffix_injection_amended (e : PEnv) (inp : PInput)
    (hcreate : e.stackExists = false)
    (hdb : ((pTpk1 inp).find?
        (fun k => sLower (sTrim k) = "dbinstanceidentifiersuffix")).isSome = true ∨
      inp.postObs.dbSuffixSubstr = true) :
    (∃ k, sLower (sTrim k) = "dbinstanceidentifiersuffix" ∧
       alGet (pInj e inp).1 k = some (lastDigits e.now) ∧
       ∃ l, (pReq e inp).parameters = some l ∧ (k, lastDigits e.now) ∈ l) ∧
    (∀ e2 : PEnv, e2.stackExists = true →
       ∀ l, (pReq e2 inp).parameters = some l →
       ∀ kv ∈ l, (sLower (sTrim kv.1) = "dbinstanceidentifiersuffix" ∨
                  sLower (sTrim kv.1) = "bucketnamesuffix") →
         kv ∈ pUp0 inp) := by
  constructor
  · have hinj : pInj e inp = injectCreateSuffixes (lastDigits e.now)
        inp.postObs.dbSuffixSubstr inp.postObs.bucketSuffixSubstr
        (pTpk1 inp) (pUp2 e inp) := by
      unfold pInj
      rw [if_neg (by simp [hcreate])]
    obtain ⟨k, hknorm, hget1, hmem1⟩ :=
      injectOneSuffix_fires "dbinstanceidentifiersuffix" "DBInstanceIdentifierSuffix"
        inp.postObs.dbSuffixSubstr (lastDigits e.now) (pUp2 e inp, pTpk1 inp)
        (by decide) hdb
    have hknb : sLower (sTrim k) ≠ "bucketnamesuffix" := by
      rw [hknorm]
      decide
    have hget2 : alGet (injectCreateSuffixes (lastDigits e.now)
        inp.postObs.dbSuffixSubstr inp.postObs.bucketSuffixSubstr
        (pTpk1 inp) (pUp2 e inp)).1 k = some (lastDigits e.now) := by
      unfold injectCreateSuffixes
      rw [injectOneSuffix_preserve_get _ _ _ _ _ _ (by decide) hknb]
      exact hget1
    have hmem2 : k ∈ (injectCreateSuffixes (lastDigits e.now)
        inp.postObs.dbSuffixSubstr inp.postObs.bucketSuffixSubstr
        (pTpk1 inp) (pUp2 e inp)).2 := by
      unfold injectCreateSuffixes
      exact injectOneSuffix_tpk_superset _ _ _ _ _ _ hmem1
    have hvpc : isVpcKey k = false := by
      unfold isVpcKey
      rw [hknorm]
      decide
    have hmemup : (k, lastDigits e.now) ∈ (pInj e inp).1 := by
      rw [hinj]
      exact alGet_mem _ _ _ hget2
    have hd1 : ¬ (isVpcKey k = true ∧ sLower (sTrim (lastDigits e.now)) = "default") := by
      rintro ⟨h1, -⟩
      rw [hvpc] at h1
      cases h1
    have hd2 : (pInj e inp).2.isEmpty = true ∨ k ∈ (pInj e inp).2 := by
      right
      rw [hinj]
      exact hmem2
    obtain ⟨l, hleq, hlmem⟩ := finalParameterList_mem_mpr (pInj e inp).2 (pInj e inp).1
      (k, lastDigits e.now) hmemup hd1 hd2
    refine ⟨k, hknorm, ?_, l, hleq, hlmem⟩
    rw [hinj]
    exact hget2
  · intro e2 he2 l hl kv hkv hsuf
    have hl2 : finalParameterList (pInj e2 inp).2 (pInj e2 inp).1 = some l := hl
    have hmf := finalParameterList_mem _ _ _ hl2 kv hkv
    have hvpc : isVpcKey kv.1 = false := by
      unfold isVpcKey
      rcases hsuf with h | h <;> rw [h] <;> decide
    have hpinj : pInj e2 inp = (pUp2 e2 inp, pTpk1 inp) := by
      unfold pInj
      rw [if_pos he2]
    have hup2 : kv ∈ pUp2 e2 inp := by
      have := hmf.1
      rw [hpinj] at this
      exact this
    exact mem_pUp2_nonvpc e2 inp kv hup2 hvpc

def c6WEnv : PEnv :=
  { readonly := false, now := 1699999999, roleArn := none, stsCreds := none,
    cacheCreds := none, cacheExpiry := 0, subnetsOf := [], describeVpcsResult := some none,
    targetDefaultVpcId := none, azOf := [], stackExists := false,
    submitResult := some "sid", submitErrMsg := "x" }

theorem suffix_injection_amended_witness :
    c6WEnv.stackExists = false ∧
    (((pTpk1 c6CexInp).find?
        (fun k => sLower (sTrim k) = "dbinstanceidentifiersuffix")).isSome = true ∨
      c6CexInp.postObs.dbSuffixSubstr = true) ∧
    ((∃ k, sLower (sTrim k) = "dbinstanceidentifiersuffix" ∧
       alGet (pInj c6WEnv c6CexInp).1 k = some (lastDigits c6WEnv.now) ∧
       ∃ l, (pReq c6WEnv c6CexInp).parameters = some l ∧
         (k, lastDigits c6WEnv.now) ∈ l) ∧
     (∀ e2 : PEnv, e2.stackExists = true →
       ∀ l, (pReq e2 c6CexInp).parameters = some l →
       ∀ kv ∈ l, (sLower (sTrim kv.1) = "dbinstanceidentifiersuffix" ∨
                  sLower (sTrim kv.1) = "bucketnamesuffix") →
         kv ∈ pUp0 c6CexInp)) :=
  ⟨rfl, by decide, suffix_injection_amended c6WEnv c6CexInp rfl (by decide)⟩

/-! ## Structural lemmas about the normalization pass -/

/-- Domain guard for faithfulness: a resource whose `Properties` is a
truthy non-object would raise inside a rule branch in Python (the
outermost `except` then returns the input text); the model instead treats
it as absent.  Theorems about the normalizer restrict to documents where
this cannot happen. -/
def propertiesOkB (rkvs : List (String × J)) : Bool :=
  match alGet rkvs "Properties" with
  | some (J.obj _) => true
  | some v => ! jTruthy v
  | none => true

def docShapeOkB (kvs : List (String × J)) : Bool :=
  (match alGet kvs "Parameters" with
   | some (J.obj _) => true
   | none => true
   | some _ => false) &&
  (match alGet kvs "Resources" with
   | some (J.obj rs) => rs.all (fun p =>
      match p.2 with
      | J.obj rk => propertiesOkB rk
      | _ => true)
   | some v => ! jTruthy v
   | none => true)

theorem fixS3Bucket_fst (lid : String) (props params params2 : List (String × J)) :
    (fixS3Bucket lid props params).1 = (fixS3Bucket lid props params2).1 := by
  unfold fixS3Bucket
  dsimp only
  split <;> rfl

/-- The transformed resource does not depend on the threaded state. -/
theorem normResourceWith_fst_const (nested : String → String) (lid : String) (rdef : J)
    (st st2 : NormSt) :
    (normResourceWith nested lid rdef st).1 = (normResourceWith nested lid rdef st2).1 := by
  cases rdef with
  | obj rkvs =>
    unfold normResourceWith
    dsimp only
    by_cases h1 : alGet rkvs "Type" = some (J.str "AWS::AutoScaling::ScalingPolicy")
    · simp only [if_pos h1]
    simp only [if_neg h1]
    by_cases h2 : alGet rkvs "Type" = some (J.str "AWS::ApiGateway::Stage")
    · simp only [if_pos h2]
    simp only [if_neg h2]
    by_cases h3 : alGet rkvs "Type" = some (J.str "AWS::CloudFront::Distribution")
    · simp only [if_pos h3]
    simp only [if_neg h3]
    by_cases h4 : alGet rkvs "Type" = some (J.str "AWS::EC2::Instance")
    · simp only [if_pos h4]
    simp only [if_neg h4]
    by_cases h5 : alGet rkvs "Type" = some (J.str "AWS::ApiGateway::Resource")
    · simp only [if_pos h5]
    simp only [if_neg h5]
    by_cases h6 : alGet rkvs "Type" = some (J.str "AWS::Logs::LogGroup")
    · simp only [if_pos h6]
    simp only [if_neg h6]
    by_cases h7 : alGet rkvs "Type" = some (J.str "AWS::S3::Bucket")
    · simp only [if_pos h7]
      exact congrArg (fun p => J.obj (putProps rkvs (getProps rkvs).2 p))
        (fixS3Bucket_fst lid _ st.params st2.params)
    simp only [if_neg h7]
    by_cases h8 : alGet rkvs "Type" = some (J.str "AWS::S3::BucketPolicy")
    · simp only [if_pos h8]
    simp only [if_neg h8]
    by_cases h9 : alGet rkvs "Type" = some (J.str "AWS::CloudFormation::Stack")
    · simp only [if_pos h9]
      split
      · split
        · split <;> rfl
        · rfl
      · rfl
    simp only [if_neg h9]
  | null => rfl
  | bool b => rfl
  | num n => rfl
  | str s => rfl
  | arr xs => rfl

/-- The resource list is transformed pointwise (the state feeds only the
parameter/changed bookkeeping). -/
theorem normResourcesWith_fst (nested : String → String) :
    ∀ (l : List (String × J)) (st : NormSt),
    (normResourcesWith nested l st).1 =
      l.map (fun kv => (kv.1, (normResourceWith nested kv.1 kv.2 ⟨[], false⟩).1))
  | [], _ => rfl
  | (lid, rdef) :: rest, st => by
    simp only [normResourcesWith, List.map_cons]
    refine congrArg₂ _ ?_ (normResourcesWith_fst nested rest _)
    exact congrArg _ (normResourceWith_fst_const nested lid rdef st ⟨[], false⟩)

theorem alGet_map_val {α β : Type} (f : String × α → β) :
    ∀ (l : List (String × α)) (k : String),
    alGet (l.map (fun kv => (kv.1, f kv))) k = (alGet l k).map (fun v => f (k, v))
  | [], _ => rfl
  | (k0, v0) :: rest, k => by
    by_cases hk : k0 = k
    · subst hk
      simp [alGet]
    · simp only [List.map_cons, alGet, if_neg hk]
      exact alGet_map_val f rest k

theorem alHas_alSet_self {α : Type} (l : List (String × α)) (k : String) (v : α) :
    alHas (alSet l k v) k = true := by
  unfold alHas
  rw [alGet_alSet_self]
  rfl

theorem fixS3Bucket_params_has (lid : String) (props params : List (String × J))
    (h : alHas params "BucketNameSuffix" = true) :
    alHas (fixS3Bucket lid props params).2.1 "BucketNameSuffix" = true := by
  unfold fixS3Bucket
  dsimp only
  split
  · exact h
  · exact h

theorem normResourceWith_params_has (nested : String → String) (lid : String) (rdef : J)
    (st : NormSt) (h : alHas st.params "BucketNameSuffix" = true) :
    alHas (normResourceWith nested lid rdef st).2.params "BucketNameSuffix" = true := by
  cases rdef with
  | obj rkvs =>
    unfold normResourceWith
    dsimp only
    by_cases h1 : alGet rkvs "Type" = some (J.str "AWS::AutoScaling::ScalingPolicy")
    · rw [if_pos h1]; exact h
    rw [if_neg h1]
    by_cases h2 : alGet rkvs "Type" = some (J.str "AWS::ApiGateway::Stage")
    · rw [if_pos h2]; exact h
    rw [if_neg h2]
    by_cases h3 : alGet rkvs "Type" = some (J.str "AWS::CloudFront::Distribution")
    · rw [if_pos h3]; exact h
    rw [if_neg h3]
    by_cases h4 : alGet rkvs "Type" = some (J.str "AWS::EC2::Instance")
    · rw [if_pos h4]; exact h
    rw [if_neg h4]
    by_cases h5 : alGet rkvs "Type" = some (J.str "AWS::ApiGateway::Resource")
    · rw [if_pos h5]; exact h
    rw [if_neg h5]
    by_cases h6 : alGet rkvs "Type" = some (J.str "AWS::Logs::LogGroup")
    · rw [if_pos h6]; exact h
    rw [if_neg h6]
    by_cases h7 : alGet rkvs "Type" = some (J.str "AWS::S3::Bucket")
    · rw [if_pos h7]; exact fixS3Bucket_params_has lid _ st.params h
    rw [if_neg h7]
    by_cases h8 : alGet rkvs "Type" = some (J.str "AWS::S3::BucketPolicy")
    · rw [if_pos h8]; exact h
    rw [if_neg h8]
    by_cases h9 : alGet rkvs "Type" = some (J.str "AWS::CloudFormation::Stack")
    · rw [if_pos h9]
      split
      · split
        · split
          · exact h
          · exact h
        · exact h
      · exact h
    rw [if_neg h9]
    exact h
  | null => exact h
  | bool b => exact h
  | num n => exact h
  | str s => exact h
  | arr xs => exact h

theorem normResourcesWith_params_has (nested : String → String) :
    ∀ (l : List (String × J)) (st : NormSt),
    alHas st.params "BucketNameSuffix" = true →
    alHas (normResourcesWith nested l st).2.params "BucketNameSuffix" = true
  | [], _, h => h
  | (lid, rdef) :: rest, st, h => by
    simp only [normResourcesWith]
    exact normResourcesWith_params_has nested rest _
      (normResourceWith_params_has nested lid rdef st h)

theorem normResourceWith_changed_mono (nested : String → String) (lid : String) (rdef : J)
    (st : NormSt) (h : st.changed = true) :
    (normResourceWith nested lid rdef st).2.changed = true := by
  cases rdef with
  | obj rkvs =>
    unfold normResourceWith
    dsimp only
    by_cases h1 : alGet rkvs "Type" = some (J.str "AWS::AutoScaling::ScalingPolicy")
    · rw [if_pos h1, h]; rfl
    rw [if_neg h1]
    by_cases h2 : alGet rkvs "Type" = some (J.str "AWS::ApiGateway::Stage")
    · rw [if_pos h2, h]; rfl
    rw [if_neg h2]
    by_cases h3 : alGet rkvs "Type" = some (J.str "AWS::CloudFront::Distribution")
    · rw [if_pos h3, h]; rfl
    rw [if_neg h3]
    by_cases h4 : alGet rkvs "Type" = some (J.str "AWS::EC2::Instance")
    · rw [if_pos h4, h]; rfl
    rw [if_neg h4]
    by_cases h5 : alGet rkvs "Type" = some (J.str "AWS::ApiGateway::Resource")
    · rw [if_pos h5, h]; rfl
    rw [if_neg h5]
    by_cases h6 : alGet rkvs "Type" = some (J.str "AWS::Logs::LogGroup")
    · rw [if_pos h6, h]; rfl
    rw [if_neg h6]
    by_cases h7 : alGet rkvs "Type" = some (J.str "AWS::S3::Bucket")
    · rw [if_pos h7, h]; rfl
    rw [if_neg h7]
    by_cases h8 : alGet rkvs "Type" = some (J.str "AWS::S3::BucketPolicy")
    · rw [if_pos h8, h]; rfl
    rw [if_neg h8]
    by_cases h9 : alGet rkvs "Type" = some (J.str "AWS::CloudFormation::Stack")
    · rw [if_pos h9]
      split
      · split
        · split
          · rfl
          · exact h
        · exact h
      · exact h
    rw [if_neg h9]
    exact h
  | null => exact h
  | bool b => exact h
  | num n => exact h
  | str s => exact h
  | arr xs => exact h

theorem normResourcesWith_changed_mono (nested : String → String) :
    ∀ (l : List (String × J)) (st : NormSt),
    st.changed = true →
    (normResourcesWith nested l st).2.changed = true
  | [], _, h => h
  | (lid, rdef) :: rest, st, h => by
    simp only [normResourcesWith]
    exact normResourcesWith_changed_mono nested rest _
      (normResourceWith_changed_mono nested lid rdef st h)

theorem normResourcesWith_append (nested : String → String) :
    ∀ (l1 l2 : List (String × J)) (st : NormSt),
    normResourcesWith nested (l1 ++ l2) st =
      ((normResourcesWith nested l1 st).1 ++
        (normResourcesWith nested l2 (normResourcesWith nested l1 st).2).1,
       (normResourcesWith nested l2 (normResourcesWith nested l1 st).2).2)
  | [], l2, st => by simp [normResourcesWith]
  | (lid, rdef) :: rest, l2, st => by
    simp only [List.cons_append, normResourcesWith, List.append_eq]
    rw [normResourcesWith_append nested rest l2 _]

/-- The S3 bucket rule fires on a bucket with a materialized non-empty
`Properties` object and no suffix reference in `BucketName`. -/
theorem bucket_rule_fires (nested : String → String) (lid : String)
    (rkvs props : List (String × J)) (st : NormSt)
    (htype : alGet rkvs "Type" = some (J.str "AWS::S3::Bucket"))
    (hprops : alGet rkvs "Properties" = some (J.obj props))
    (hpne : props ≠ [])
    (hbn : ∀ v, alGet props "BucketName" = some v → s3BucketNameUsesSuffix v = false) :
    normResourceWith nested lid (J.obj rkvs) st =
      (J.obj (alSet rkvs "Properties" (J.obj (alSet props "BucketName"
        (J.obj [("Fn::Sub", J.str ("app-$\x7bAWS::AccountId\x7d-$\x7bBucketNameSuffix\x7d-" ++
          sTake (sReplace (sLower lid) "_" "-") 40))])))),
       ⟨if alHas st.params "BucketNameSuffix" = true then st.params
        else alSet st.params "BucketNameSuffix" bucketSuffixParamSpec,
        st.changed || true⟩) := by
  have hget : getProps rkvs = (props, true) := by
    unfold getProps
    rw [hprops]
    dsimp only
    rw [if_neg (by simpa [List.isEmpty_iff] using hpne)]
  have hrw : (match alGet props "BucketName" with
      | none => true
      | some J.null => true
      | some v => ! s3BucketNameUsesSuffix v) = true := by
    rcases hb : alGet props "BucketName" with _ | v
    · rfl
    · cases v <;> simp [hbn _ hb]
  unfold normResourceWith
  dsimp only
  rw [htype, hget]
  rw [if_neg (by decide), if_neg (by decide), if_neg (by decide), if_neg (by decide),
    if_neg (by decide), if_neg (by decide), if_pos (by decide)]
  dsimp only
  unfold fixS3Bucket
  dsimp only
  rw [if_pos hrw]
  rfl

theorem alHas_suffix_params1 (params : List (String × J)) :
    alHas (if alHas params "BucketNameSuffix" = true then params
           else alSet params "BucketNameSuffix" bucketSuffixParamSpec)
      "BucketNameSuffix" = true := by
  by_cases hb : alHas params "BucketNameSuffix" = true
  · rw [if_pos hb]; exact hb
  · rw [if_neg hb]; exact alHas_alSet_self _ _ _

/-- Whenever the resource list holds an S3 bucket with a materialized
`Properties` object and a `BucketName` lacking the suffix reference, the
resource loop ends with `BucketNameSuffix` declared and the changed flag
set, from any starting state. -/
theorem normResourcesWith_bucket_state (nested : String → String) (rs : List (String × J))
    (lid : String) (rkvs props : List (String × J)) (st : NormSt)
    (hrd : alGet rs lid = some (J.obj rkvs))
    (htype : alGet rkvs "Type" = some (J.str "AWS::S3::Bucket"))
    (hprops : alGet rkvs "Properties" = some (J.obj props))
    (hpne : props ≠ [])
    (hbn : ∀ v, alGet props "BucketName" = some v → s3BucketNameUsesSuffix v = false) :
    alHas (normResourcesWith nested rs st).2.params "BucketNameSuffix" = true ∧
    (normResourcesWith nested rs st).2.changed = true := by
  obtain ⟨s1, s2, hsplit⟩ := List.append_of_mem (alGet_mem rs lid (J.obj rkvs) hrd)
  subst hsplit
  rw [normResourcesWith_append]
  dsimp only
  simp only [normResourcesWith]
  rw [bucket_rule_fires nested lid rkvs props _ htype hprops hpne hbn]
  constructor
  · exact normResourcesWith_params_has nested s2 _ (alHas_suffix_params1 _)
  · exact normResourcesWith_changed_mono nested s2 _ (Bool.or_true _)

/-- Full characterization of the structural pass on a document whose
`Resources` hold such a bucket: the pass reports a change, the bucket's
`Properties` gain the rewritten `Fn::Sub` name, and the document's
`Parameters` declare `BucketNameSuffix`. -/
theorem structuralPassWith_bucket (nested : String → String)
    (kvs rs rkvs props : List (String × J)) (lid : String)
    (hres : alGet kvs "Resources" = some (J.obj rs))
    (hrd : alGet rs lid = some (J.obj rkvs))
    (htype : alGet rkvs "Type" = some (J.str "AWS::S3::Bucket"))
    (hprops : alGet rkvs "Properties" = some (J.obj props))
    (hpne : props ≠ [])
    (hbn : ∀ v, alGet props "BucketName" = some v → s3BucketNameUsesSuffix v = false) :
    ∃ kvsOut rsOut psOut,
      structuralPassWith nested (J.obj kvs) = (J.obj kvsOut, true) ∧
      alGet kvsOut "Resources" = some (J.obj rsOut) ∧
      alGet rsOut lid = some (J.obj (alSet rkvs "Properties" (J.obj (alSet props "BucketName"
        (J.obj [("Fn::Sub", J.str ("app-$\x7bAWS::AccountId\x7d-$\x7bBucketNameSuffix\x7d-" ++
          sTake (sReplace (sLower lid) "_" "-") 40))]))))) ∧
      alGet kvsOut "Parameters" = some (J.obj psOut) ∧
      alHas psOut "BucketNameSuffix" = true := by
  have hstate := fun (st0 : NormSt) =>
    normResourcesWith_bucket_state nested rs lid rkvs props st0 hrd htype hprops hpne hbn
  unfold structuralPassWith
  dsimp only
  rw [hres]
  simp only [Option.getD_some]
  rw [if_pos (hstate _).2]
  have hpar : ∀ (l ps : List (String × J)) (rsv : J),
      alGet (alSet (alSet l "Parameters" (J.obj ps)) "Resources" rsv) "Parameters" =
        some (J.obj ps) := by
    intro l ps rsv
    rw [alGet_alSet_ne _ "Resources" "Parameters" _ (by decide)]
    exact alGet_alSet_self _ _ _
  have hC : ∀ st0 : NormSt,
      alGet (normResourcesWith nested rs st0).1 lid =
        some (J.obj (alSet rkvs "Properties" (J.obj (alSet props "BucketName"
          (J.obj [("Fn::Sub", J.str ("app-$\x7bAWS::AccountId\x7d-$\x7bBucketNameSuffix\x7d-" ++
            sTake (sReplace (sLower lid) "_" "-") 40))]))))) := by
    intro st0
    rw [normResourcesWith_fst, alGet_map_val, hrd]
    simp only [Option.map_some']
    rw [bucket_rule_fires nested lid rkvs props ⟨[], false⟩ htype hprops hpne hbn]
  exact ⟨_, _, _, rfl, alGet_alSet_self _ _ _, hC _, hpar _ _ _, (hstate _).1⟩

/-! ## C9: forced S3 bucket renaming -/

def c9CexDoc : J :=
  J.obj [("Resources", J.obj [("MyBucket", J.obj [("Type", J.str "AWS::S3::Bucket")])])]

/-- C9 counterexample: a parseable document with an `AWS::S3::Bucket`
resource carrying no `Properties` (hence no `BucketName`, so no suffix
placeholder anywhere in its serialized form).  `props = rdef.get('Properties')
or \x7b\x7d` binds a fresh dict, so the rule's `props['BucketName'] = ...`
write is lost: after normalization the bucket still has no `BucketName` at
all — its value does not contain `$\x7bBucketNameSuffix\x7d` — even though
the `BucketNameSuffix` parameter does get declared and the document is
re-serialized (`changed` was set). -/
theorem bucket_suffix_cex :
    normalizeTemplateJson 9 c9CexDoc =
      J.obj [("Resources", J.obj [("MyBucket", J.obj [("Type", J.str "AWS::S3::Bucket")])]),
             ("Parameters", J.obj [("BucketNameSuffix", bucketSuffixParamSpec)])] ∧
    alGet [("Type", J.str "AWS::S3::Bucket")] "BucketName" = none ∧
    strContains (sLower (J.dump c9CexDoc)) "bucketnamesuffix" = false := by decide

/-- C9 amended: for a parseable document whose `AWS::S3::Bucket` resource
has a materialized non-empty `Properties` object and whose `BucketName`
does not reference the suffix (case-insensitive substring check on the
value, through `json.dumps` for intrinsics), normalization rewrites that
resource's `BucketName` to the `Fn::Sub` expression embedding
`$\x7bBucketNameSuffix\x7d` and declares the `BucketNameSuffix` parameter.
The claim as stated fails when `Properties` is absent or empty: the
rewrite is lost on the detached dict (see the counterexample).
`docShapeOkB` restricts to documents on which the Python pass cannot
raise mid-loop, and the `s3Fallback` hypothesis scopes to documents the
textual pre-pass leaves unchanged (no `$\x7bAWS::AccountId\x7d-<marker>`
occurrence). -/
theorem bucket_suffix_amended (fuel : Nat) (kvs rs rkvs props : List (String × J))
    (lid : String)
    (_hshape : docShapeOkB kvs = true)
    (hres : alGet kvs "Resources" = some (J.obj rs))
    (hrd : alGet rs lid = some (J.obj rkvs))
    (htype : alGet rkvs "Type" = some (J.str "AWS::S3::Bucket"))
    (hprops : alGet rkvs "Properties" = some (J.obj props))
    (hpne : props ≠ [])
    (hbn : ∀ v, alGet props "BucketName" = some v → s3BucketNameUsesSuffix v = false)
    (hfb : s3Fallback (J.obj kvs) = J.obj kvs) :
    ∃ kvsOut rsOut psOut,
      normalizeTemplateJson fuel (J.obj kvs) = J.obj kvsOut ∧
      alGet kvsOut "Resources" = some (J.obj rsOut) ∧
      alGet rsOut lid = some (J.obj (alSet rkvs "Properties" (J.obj (alSet props "BucketName"
        (J.obj [("Fn::Sub", J.str ("app-$\x7bAWS::AccountId\x7d-$\x7bBucketNameSuffix\x7d-" ++
          sTake (sReplace (sLower lid) "_" "-") 40))]))))) ∧
      alGet kvsOut "Parameters" = some (J.obj psOut) ∧
      alHas psOut "BucketNameSuffix" = true := by
  obtain ⟨kvsOut, rsOut, psOut, h1, h2, h3, h4, h5⟩ :=
    structuralPassWith_bucket (fun t => normalizeNestedText fuel t) kvs rs rkvs props lid
      hres hrd htype hprops hpne hbn
  refine ⟨kvsOut, rsOut, psOut, ?_, h2, h3, h4, h5⟩
  unfold normalizeTemplateJson
  rw [hfb]
  unfold structuralPass
  rw [h1]

def c9WProps : List (String × J) := [("BucketName", J.str "my-bucket")]

def c9WRkvs : List (String × J) :=
  [("Type", J.str "AWS::S3::Bucket"), ("Properties", J.obj c9WProps)]

def c9WRs : List (String × J) := [("MyBucket", J.obj c9WRkvs)]

def c9WKvs : List (String × J) := [("Resources", J.obj c9WRs)]

/-! ## Assoc-list and string lemmas for the idempotence analysis -/

theorem alSet_self_get {α : Type} :
    ∀ (l : List (String × α)) (k : String) (v : α),
    alGet l k = some v → alSet l k v = l
  | [], _, _, h => by simp [alGet] at h
  | (k0, v0) :: rest, k, v, h => by
    by_cases hk : k0 = k
    · subst hk
      have h2 : some v0 = some v := by simpa [alGet] using h
      injection h2 with h3
      subst h3
      simp [alSet]
    · simp only [alGet, if_neg hk] at h
      simp [alSet, hk, alSet_self_get rest k v h]

theorem alErase_noop {α : Type} :
    ∀ (l : List (String × α)) (k : String),
    alGet l k = none → alErase l k = l
  | [], _, _ => rfl
  | (k0, v0) :: rest, k, h => by
    by_cases hk : k0 = k
    · subst hk
      simp [alGet] at h
    · simp only [alGet, if_neg hk] at h
      simp [alErase, hk, alErase_noop rest k h]

theorem alErase_noop_of_not_has {α : Type} (l : List (String × α)) (k : String)
    (h : alHas l k = false) : alErase l k = l := by
  refine alErase_noop l k ?_
  unfold alHas at h
  rcases hg : alGet l k with _ | v
  · rfl
  · rw [hg] at h
    simp at h

theorem alGet_none_of_not_has {α : Type} (l : List (String × α)) (k : String)
    (h : alHas l k = false) : alGet l k = none := by
  unfold alHas at h
  rcases hg : alGet l k with _ | v
  · rfl
  · rw [hg] at h
    simp at h

theorem alHas_of_get_none {α : Type} (l : List (String × α)) (k : String)
    (h : alGet l k = none) : alHas l k = false := by
  unfold alHas
  rw [h]
  rfl

theorem mem_alErase {α : Type} :
    ∀ (l : List (String × α)) (k : String) (kv : String × α),
    kv ∈ alErase l k → kv ∈ l ∧ kv.1 ≠ k
  | [], _, _, h => by simp [alErase] at h
  | (k0, v0) :: rest, k, kv, h => by
    by_cases hk : k0 = k
    · subst hk
      simp only [alErase, if_pos rfl] at h
      obtain ⟨h1, h2⟩ := mem_alErase rest k0 kv h
      exact ⟨List.mem_cons_of_mem _ h1, h2⟩
    · simp only [alErase, if_neg hk] at h
      rcases List.mem_cons.mp h with h1 | h1
      · exact ⟨List.mem_cons.mpr (Or.inl h1), by rw [h1]; exact hk⟩
      · obtain ⟨h2, h3⟩ := mem_alErase rest k kv h1
        exact ⟨List.mem_cons_of_mem _ h2, h3⟩

/-- Prefixes stay prefixes under extension on the right. -/
theorem lcIsPre_append :
    ∀ (n l m : List Char), lcIsPre n l = true → lcIsPre n (l ++ m) = true
  | [], _, _, _ => rfl
  | _ :: _, [], _, h => by simp [lcIsPre] at h
  | a :: as, b :: bs, m, h => by
    simp only [lcIsPre, Bool.and_eq_true, decide_eq_true_eq] at h
    simp only [List.cons_append, lcIsPre, Bool.and_eq_true, decide_eq_true_eq]
    exact ⟨h.1, lcIsPre_append as bs m h.2⟩

theorem lcInfix_nil (n : List Char) (h : n = []) : ∀ l, lcInfix n l = true := by
  intro l
  subst h
  cases l with
  | nil => rfl
  | cons c rest => simp [lcInfix, lcIsPre]

theorem lcInfix_append_left :
    ∀ (n a b : List Char), lcInfix n a = true → lcInfix n (a ++ b) = true
  | n, [], b, h => by
    simp only [lcInfix, List.isEmpty_iff] at h
    exact lcInfix_nil n h b
  | n, c :: rest, b, h => by
    simp only [lcInfix, Bool.or_eq_true] at h
    simp only [List.cons_append, lcInfix, Bool.or_eq_true]
    rcases h with h | h
    · exact Or.inl (lcIsPre_append n (c :: rest) b h)
    · exact Or.inr (lcInfix_append_left n rest b h)

theorem lcInfix_append_right :
    ∀ (n a b : List Char), lcInfix n b = true → lcInfix n (a ++ b) = true
  | _, [], _, h => h
  | n, c :: rest, b, h => by
    simp only [List.cons_append, lcInfix, Bool.or_eq_true]
    exact Or.inr (lcInfix_append_right n rest b h)

/-- Removing a single character is `List.filter`. -/
theorem lcReplaceGo_filter (o : Char) :
    ∀ (fuel : Nat) (l : List Char), l.length ≤ fuel →
    lcReplaceGo [o] [] fuel l = l.filter (fun c => decide ¬(c = o))
  | 0, l, h => by
    rw [Nat.le_zero, List.length_eq_zero] at h
    subst h
    rfl
  | fuel + 1, [], _ => rfl
  | fuel + 1, c :: rest, h => by
    have hr : rest.length ≤ fuel := Nat.le_of_succ_le_succ h
    by_cases hc : o = c
    · subst hc
      unfold lcReplaceGo
      rw [if_pos ⟨by simp, by simp [lcIsPre]⟩]
      simp only [List.nil_append, List.length_singleton, Nat.sub_self, List.drop_zero]
      rw [lcReplaceGo_filter o fuel rest hr]
      simp [List.filter]
    · unfold lcReplaceGo
      rw [if_neg (by simp [lcIsPre, hc])]
      rw [lcReplaceGo_filter o fuel rest hr]
      have hcv : (decide ¬(c = o)) = true := by
        simp only [decide_eq_true_eq]
        exact fun he => hc he.symm
      simp [List.filter, hcv]

/-- Replacing one character by one character is `List.map`. -/
theorem lcReplaceGo_map (o n : Char) :
    ∀ (fuel : Nat) (l : List Char), l.length ≤ fuel →
    lcReplaceGo [o] [n] fuel l = l.map (fun c => if c = o then n else c)
  | 0, l, h => by
    rw [Nat.le_zero, List.length_eq_zero] at h
    subst h
    rfl
  | fuel + 1, [], _ => rfl
  | fuel + 1, c :: rest, h => by
    have hr : rest.length ≤ fuel := Nat.le_of_succ_le_succ h
    by_cases hc : o = c
    · subst hc
      unfold lcReplaceGo
      rw [if_pos ⟨by simp, by simp [lcIsPre]⟩]
      simp only [List.singleton_append, List.length_singleton, Nat.sub_self, List.drop_zero]
      rw [lcReplaceGo_map o n fuel rest hr]
      simp
    · unfold lcReplaceGo
      rw [if_neg (by simp [lcIsPre, hc])]
      rw [lcReplaceGo_map o n fuel rest hr]
      simp only [List.map]
      rw [if_neg (fun he => hc he.symm)]

theorem lcDropWs_noop (l : List Char)
    (h : ∀ c, l.head? = some c → isWsChar c = false) : lcDropWs l = l := by
  cases l with
  | nil => rfl
  | cons c rest =>
    simp only [lcDropWs]
    rw [if_neg (by rw [h c rfl]; simp)]

theorem lcDropWs_head :
    ∀ (l : List Char) (c : Char), (lcDropWs l).head? = some c → isWsChar c = false
  | [], c, h => by simp [lcDropWs] at h
  | c0 :: rest, c, h => by
    by_cases hw : isWsChar c0
    · simp only [lcDropWs, if_pos hw] at h
      exact lcDropWs_head rest c h
    · simp only [lcDropWs, if_neg hw] at h
      simp only [List.head?_cons, Option.some.injEq] at h
      subst h
      simpa using hw

theorem lcDropWs_suffix : ∀ l : List Char, ∃ p, l = p ++ lcDropWs l
  | [] => ⟨[], rfl⟩
  | c :: rest => by
    by_cases hw : isWsChar c
    · obtain ⟨p, hp⟩ := lcDropWs_suffix rest
      exact ⟨c :: p, by simp [lcDropWs, if_pos hw]; exact hp⟩
    · exact ⟨[], by simp [lcDropWs, if_neg hw]⟩

theorem sTrim_noop (s : String)
    (h1 : ∀ c, s.data.head? = some c → isWsChar c = false)
    (h2 : ∀ c, s.data.getLast? = some c → isWsChar c = false) : sTrim s = s := by
  unfold sTrim
  rw [lcDropWs_noop s.data.reverse (by
    intro c hc
    rw [List.head?_reverse] at hc
    exact h2 c hc)]
  rw [List.reverse_reverse, lcDropWs_noop s.data h1]

/-- The head of the trimmed string is not whitespace. -/
theorem sTrim_head (s : String) :
    ∀ c, (sTrim s).data.head? = some c → isWsChar c = false := by
  intro c hc
  exact lcDropWs_head _ c hc

/-- The last character of the trimmed string is not whitespace. -/
theorem sTrim_last (s : String) :
    ∀ c, (sTrim s).data.getLast? = some c → isWsChar c = false := by
  intro c hc
  rw [← List.head?_reverse] at hc
  obtain ⟨p, hp⟩ := lcDropWs_suffix ((lcDropWs s.data.reverse).reverse)
  have hdata : (sTrim s).data = lcDropWs ((lcDropWs s.data.reverse).reverse) := rfl
  rw [hdata] at hc
  have hrev : (lcDropWs ((lcDropWs s.data.reverse).reverse)).reverse.head? = some c := hc
  rcases he : (lcDropWs ((lcDropWs s.data.reverse).reverse)).reverse with _ | ⟨c0, rest0⟩
  · rw [he] at hrev
    simp at hrev
  · rw [he] at hrev
    simp only [List.head?_cons, Option.some.injEq] at hrev
    subst hrev
    have hz : lcDropWs s.data.reverse = (lcDropWs ((lcDropWs s.data.reverse).reverse)).reverse ++ p.reverse := by
      have := congrArg List.reverse hp
      simpa [List.reverse_append] using this
    have : (lcDropWs s.data.reverse).head? = some c0 := by
      rw [hz, he]
      rfl
    exact lcDropWs_head _ c0 this

/-! ## Per-rule idempotence -/

theorem ruleIdem_of_noop {α : Type} (f : α → α × Bool) (x : α) (h : f x = (x, false)) :
    f (f x).1 = ((f x).1, false) := by
  rw [h]
  exact h

theorem fixApiStage_idem (props : List (String × J)) :
    fixApiStage (fixApiStage props).1 = ((fixApiStage props).1, false) := by
  have hL : alGet (alErase (alErase props "LoggingLevel") "DataTraceEnabled")
      "LoggingLevel" = none := by
    rw [alGet_alErase_ne _ "DataTraceEnabled" "LoggingLevel" (by decide)]
    exact alGet_alErase_self _ _
  have hD : alGet (alErase (alErase props "LoggingLevel") "DataTraceEnabled")
      "DataTraceEnabled" = none := alGet_alErase_self _ _
  show fixApiStage (alErase (alErase props "LoggingLevel") "DataTraceEnabled") = _
  unfold fixApiStage
  rw [alErase_noop _ _ hL, alErase_noop _ _ hD,
    alHas_of_get_none _ _ hL, alHas_of_get_none _ _ hD]
  rfl

theorem fixLogGroup_idem (props : List (String × J)) :
    fixLogGroup (fixLogGroup props).1 = ((fixLogGroup props).1, false) := by
  rcases hg : alGet props "LogGroupName" with _ | v
  · refine ruleIdem_of_noop _ _ ?_
    unfold fixLogGroup
    rw [hg]
  · cases v with
    | str s =>
      by_cases ht : sTrim s ≠ ""
      · have h1 : fixLogGroup props =
            (alSet props "LogGroupName"
              (J.obj [("Fn::Sub", J.str "/app/$\x7bAWS::StackName\x7d")]), true) := by
          unfold fixLogGroup
          rw [hg]
          dsimp only
          rw [if_pos ht]
        rw [h1]
        unfold fixLogGroup
        rw [alGet_alSet_self]
      · refine ruleIdem_of_noop _ _ ?_
        unfold fixLogGroup
        rw [hg]
        dsimp only
        rw [if_neg ht]
    | null =>
      refine ruleIdem_of_noop _ _ ?_
      unfold fixLogGroup
      rw [hg]
    | bool b =>
      refine ruleIdem_of_noop _ _ ?_
      unfold fixLogGroup
      rw [hg]
    | num n =>
      refine ruleIdem_of_noop _ _ ?_
      unfold fixLogGroup
      rw [hg]
    | arr xs =>
      refine ruleIdem_of_noop _ _ ?_
      unfold fixLogGroup
      rw [hg]
    | obj kvs =>
      refine ruleIdem_of_noop _ _ ?_
      unfold fixLogGroup
      rw [hg]

theorem fixBucketPolicy_idem (props : List (String × J)) :
    fixBucketPolicy (fixBucketPolicy props).1 = ((fixBucketPolicy props).1, false) := by
  have herase : ∀ (p : List (String × J)), alGet p "PolicyText" = none →
      fixBucketPolicy p = (p, false) := by
    intro p hp
    unfold fixBucketPolicy
    rw [hp]
  rcases hg : alGet props "PolicyText" with _ | v
  · refine ruleIdem_of_noop _ _ ?_
    exact herase props hg
  · cases v with
    | null =>
      have h1 : fixBucketPolicy props = (alErase props "PolicyText", false) := by
        unfold fixBucketPolicy
        rw [hg]
      rw [h1]
      exact herase _ (alGet_alErase_self _ _)
    | str s =>
      have hpe : alGet (alErase props "PolicyText") "PolicyText" = none :=
        alGet_alErase_self _ _
      by_cases hh : alHas (alErase props "PolicyText") "PolicyDocument" = true
      · have h1 : fixBucketPolicy props = (alErase props "PolicyText", false) := by
          unfold fixBucketPolicy
          rw [hg]
          dsimp only
          rw [if_pos hh]
        rw [h1]
        exact herase _ hpe
      · have h1 : fixBucketPolicy props =
            (alSet (alErase props "PolicyText") "PolicyDocument"
              (match jsonLoads s with
               | some d => d
               | none => J.str s), true) := by
          unfold fixBucketPolicy
          rw [hg]
          dsimp only
          rw [if_neg hh]
        rw [h1]
        refine herase _ ?_
        rw [alGet_alSet_ne _ "PolicyDocument" "PolicyText" _ (by decide)]
        exact hpe
    | bool b =>
      have hpe : alGet (alErase props "PolicyText") "PolicyText" = none :=
        alGet_alErase_self _ _
      by_cases hh : alHas (alErase props "PolicyText") "PolicyDocument" = true
      · have h1 : fixBucketPolicy props = (alErase props "PolicyText", false) := by
          unfold fixBucketPolicy
          rw [hg]
          dsimp only
          rw [if_pos hh]
        rw [h1]
        exact herase _ hpe
      · have h1 : fixBucketPolicy props =
            (alSet (alErase props "PolicyText") "PolicyDocument" (J.bool b), true) := by
          unfold fixBucketPolicy
          rw [hg]
          dsimp only
          rw [if_neg hh]
        rw [h1]
        refine herase _ ?_
        rw [alGet_alSet_ne _ "PolicyDocument" "PolicyText" _ (by decide)]
        exact hpe
    | num n =>
      have hpe : alGet (alErase props "PolicyText") "PolicyText" = none :=
        alGet_alErase_self _ _
      by_cases hh : alHas (alErase props "PolicyText") "PolicyDocument" = true
      · have h1 : fixBucketPolicy props = (alErase props "PolicyText", false) := by
          unfold fixBucketPolicy
          rw [hg]
          dsimp only
          rw [if_pos hh]
        rw [h1]
        exact herase _ hpe
      · have h1 : fixBucketPolicy props =
            (alSet (alErase props "PolicyText") "PolicyDocument" (J.num n), true) := by
          unfold fixBucketPolicy
          rw [hg]
          dsimp only
          rw [if_neg hh]
        rw [h1]
        refine herase _ ?_
        rw [alGet_alSet_ne _ "PolicyDocument" "PolicyText" _ (by decide)]
        exact hpe
    | arr xs =>
      have hpe : alGet (alErase props "PolicyText") "PolicyText" = none :=
        alGet_alErase_self _ _
      by_cases hh : alHas (alErase props "PolicyText") "PolicyDocument" = true
      · have h1 : fixBucketPolicy props = (alErase props "PolicyText", false) := by
          unfold fixBucketPolicy
          rw [hg]
          dsimp only
          rw [if_pos hh]
        rw [h1]
        exact herase _ hpe
      · have h1 : fixBucketPolicy props =
            (alSet (alErase props "PolicyText") "PolicyDocument" (J.arr xs), true) := by
          unfold fixBucketPolicy
          rw [hg]
          dsimp only
          rw [if_neg hh]
        rw [h1]
        refine herase _ ?_
        rw [alGet_alSet_ne _ "PolicyDocument" "PolicyText" _ (by decide)]
        exact hpe
    | obj kvs =>
      have hpe : alGet (alErase props "PolicyText") "PolicyText" = none :=
        alGet_alErase_self _ _
      by_cases hh : alHas (alErase props "PolicyText") "PolicyDocument" = true
      · have h1 : fixBucketPolicy props = (alErase props "PolicyText", false) := by
          unfold fixBucketPolicy
          rw [hg]
          dsimp only
          rw [if_pos hh]
        rw [h1]
        exact herase _ hpe
      · have h1 : fixBucketPolicy props =
            (alSet (alErase props "PolicyText") "PolicyDocument" (J.obj kvs), true) := by
          unfold fixBucketPolicy
          rw [hg]
          dsimp only
          rw [if_neg hh]
        rw [h1]
        refine herase _ ?_
        rw [alGet_alSet_ne _ "PolicyDocument" "PolicyText" _ (by decide)]
        exact hpe

theorem fixCacheBehavior_noOrigin (kvs : List (String × J))
    (h : alGet kvs "OriginId" = none) :
    fixCacheBehavior (J.obj kvs) = (J.obj kvs, false) := by
  unfold fixCacheBehavior
  dsimp only
  rw [h]

theorem fixCacheBehavior_idem (cb : J) :
    fixCacheBehavior ((fixCacheBehavior cb).1) = ((fixCacheBehavior cb).1, false) := by
  cases cb with
  | obj kvs =>
    rcases ho : alGet kvs "OriginId" with _ | v
    · exact ruleIdem_of_noop _ _ (fixCacheBehavior_noOrigin kvs ho)
    · by_cases hh : alHas kvs "TargetOriginId" = true
      · have h1 : fixCacheBehavior (J.obj kvs) = (J.obj (alErase kvs "OriginId"), true) := by
          unfold fixCacheBehavior
          dsimp only
          rw [ho]
          dsimp only
          rw [if_pos hh]
        rw [h1]
        exact fixCacheBehavior_noOrigin _ (alGet_alErase_self _ _)
      · have h1 : fixCacheBehavior (J.obj kvs) =
            (J.obj (alSet (alErase kvs "OriginId") "TargetOriginId" v), true) := by
          unfold fixCacheBehavior
          dsimp only
          rw [ho]
          dsimp only
          rw [if_neg hh]
        rw [h1]
        refine fixCacheBehavior_noOrigin _ ?_
        rw [alGet_alSet_ne _ "TargetOriginId" "OriginId" _ (by decide)]
        exact alGet_alErase_self _ _
  | null => exact ruleIdem_of_noop _ _ rfl
  | bool b => exact ruleIdem_of_noop _ _ rfl
  | num n => exact ruleIdem_of_noop _ _ rfl
  | str s => exact ruleIdem_of_noop _ _ rfl
  | arr xs => exact ruleIdem_of_noop _ _ rfl

theorem fixEc2Instance_none (p : List (String × J))
    (h : alGet p "TagSpecifications" = none) :
    fixEc2Instance p = (p, false) := by
  unfold fixEc2Instance
  rw [h]
  dsimp only
  rw [alHas_of_get_none _ _ h]
  rw [if_neg (by simp)]

theorem fixEc2Instance_idem (props : List (String × J)) :
    fixEc2Instance (fixEc2Instance props).1 = ((fixEc2Instance props).1, false) := by
  rcases hg : alGet props "TagSpecifications" with _ | v
  · exact ruleIdem_of_noop _ _ (fixEc2Instance_none props hg)
  · have hhas : alHas props "TagSpecifications" = true := by
      unfold alHas
      rw [hg]
      rfl
    cases v with
    | arr specs =>
      by_cases he : specs.isEmpty = true
      · have h1 : fixEc2Instance props = (alErase props "TagSpecifications", true) := by
          unfold fixEc2Instance
          rw [hg]
          dsimp only
          rw [if_pos he, hhas]
          rw [if_pos rfl]
        rw [h1]
        exact fixEc2Instance_none _ (alGet_alErase_self _ _)
      · rcases hf : specs.findSome? (fun spec =>
            match spec with
            | J.obj kvs => alGet kvs "Tags"
            | _ => none) with _ | tags
        · have h1 : fixEc2Instance props = (alErase props "TagSpecifications", true) := by
            unfold fixEc2Instance
            rw [hg]
            dsimp only
            rw [if_neg he, hf]
            dsimp only
            rw [hhas]
            rw [if_pos rfl]
          rw [h1]
          exact fixEc2Instance_none _ (alGet_alErase_self _ _)
        · by_cases hht : alHas props "Tags" = true
          · have h1 : fixEc2Instance props = (alErase props "TagSpecifications", true) := by
              unfold fixEc2Instance
              rw [hg]
              dsimp only
              rw [if_neg he, hf]
              dsimp only
              rw [if_pos hht, hhas]
              rw [if_pos rfl]
            rw [h1]
            exact fixEc2Instance_none _ (alGet_alErase_self _ _)
          · have hts : alHas (alSet props "Tags" tags) "TagSpecifications" = true := by
              unfold alHas
              rw [alGet_alSet_ne _ "Tags" "TagSpecifications" _ (by decide), hg]
              rfl
            have h1 : fixEc2Instance props =
                (alErase (alSet props "Tags" tags) "TagSpecifications", true) := by
              unfold fixEc2Instance
              rw [hg]
              dsimp only
              rw [if_neg he, hf]
              dsimp only
              rw [if_neg hht, hts]
              rw [if_pos rfl]
            rw [h1]
            exact fixEc2Instance_none _ (alGet_alErase_self _ _)
    | null =>
      have h1 : fixEc2Instance props = (alErase props "TagSpecifications", true) := by
        unfold fixEc2Instance
        rw [hg]
        dsimp only
        rw [hhas]
        rw [if_pos rfl]
      rw [h1]
      exact fixEc2Instance_none _ (alGet_alErase_self _ _)
    | bool b =>
      have h1 : fixEc2Instance props = (alErase props "TagSpecifications", true) := by
        unfold fixEc2Instance
        rw [hg]
        dsimp only
        rw [hhas]
        rw [if_pos rfl]
      rw [h1]
      exact fixEc2Instance_none _ (alGet_alErase_self _ _)
    | num n =>
      have h1 : fixEc2Instance props = (alErase props "TagSpecifications", true) := by
        unfold fixEc2Instance
        rw [hg]
        dsimp only
        rw [hhas]
        rw [if_pos rfl]
      rw [h1]
      exact fixEc2Instance_none _ (alGet_alErase_self _ _)
    | str s =>
      have h1 : fixEc2Instance props = (alErase props "TagSpecifications", true) := by
        unfold fixEc2Instance
        rw [hg]
        dsimp only
        rw [hhas]
        rw [if_pos rfl]
      rw [h1]
      exact fixEc2Instance_none _ (alGet_alErase_self _ _)
    | obj kvs =>
      have h1 : fixEc2Instance props = (alErase props "TagSpecifications", true) := by
        unfold fixEc2Instance
        rw [hg]
        dsimp only
        rw [hhas]
        rw [if_pos rfl]
      rw [h1]
      exact fixEc2Instance_none _ (alGet_alErase_self _ _)

/-- At most one (distinct) key of the properties aliases
`EstimatedWarmupSeconds`: any two aliasing entries share the same key.
Two distinct alias spellings make the rename re-fire on the second pass
(see the counterexample). -/
def scalingAliasOkB (props : List (String × J)) : Bool :=
  props.all (fun kv => !(decide (normKey kv.1 = "estimatedwarmupseconds")) ||
    props.all (fun kv2 =>
      !(decide (normKey kv2.1 = "estimatedwarmupseconds")) || decide (kv2.1 = kv.1)))

theorem fixScalingPolicy_noop (p : List (String × J))
    (hfind : p.find? (fun kv => normKey kv.1 = "estimatedwarmupseconds") = none)
    (htt : ∀ tt, alGet p "TargetTrackingConfiguration" = some (J.obj tt) →
      alGet tt "ScaleInCooldown" = none ∧ alGet tt "ScaleOutCooldown" = none) :
    fixScalingPolicy p = (p, false) := by
  unfold fixScalingPolicy
  rw [hfind]
  dsimp only
  rcases hg : alGet p "TargetTrackingConfiguration" with _ | v
  · rfl
  · cases v with
    | obj tt =>
      obtain ⟨hin, hout⟩ := htt tt hg
      dsimp only
      rw [alErase_noop _ _ hin, alErase_noop _ _ hout,
        alHas_of_get_none _ _ hin, alHas_of_get_none _ _ hout,
        alSet_self_get _ _ _ hg]
      rfl
    | null => rfl
    | bool b => rfl
    | num n => rfl
    | str s => rfl
    | arr xs => rfl

theorem fixScalingPolicy_idem (props : List (String × J))
    (hok : scalingAliasOkB props = true) :
    fixScalingPolicy (fixScalingPolicy props).1 = ((fixScalingPolicy props).1, false) := by
  have hokP : ∀ kv ∈ props, normKey kv.1 = "estimatedwarmupseconds" →
      ∀ kv2 ∈ props, normKey kv2.1 = "estimatedwarmupseconds" → kv2.1 = kv.1 := by
    intro kv hkv h1 kv2 hkv2 h2
    have ha := List.all_eq_true.mp hok kv hkv
    simp only [Bool.or_eq_true, Bool.not_eq_true', decide_eq_false_iff_not] at ha
    rcases ha with ha | ha
    · exact absurd h1 ha
    · have hb := List.all_eq_true.mp ha kv2 hkv2
      simp only [Bool.or_eq_true, Bool.not_eq_true', decide_eq_false_iff_not,
        decide_eq_true_eq] at hb
      rcases hb with hb | hb
      · exact absurd h2 hb
      · exact hb
  have httclean : ∀ (tt : List (String × J)),
      alGet (alErase (alErase tt "ScaleInCooldown") "ScaleOutCooldown")
          "ScaleInCooldown" = none ∧
      alGet (alErase (alErase tt "ScaleInCooldown") "ScaleOutCooldown")
          "ScaleOutCooldown" = none := by
    intro tt
    constructor
    · rw [alGet_alErase_ne _ "ScaleOutCooldown" "ScaleInCooldown" (by decide)]
      exact alGet_alErase_self _ _
    · exact alGet_alErase_self _ _
  rcases hfind : props.find? (fun kv => normKey kv.1 = "estimatedwarmupseconds") with _ | kv0
  · have hstep1 : ∀ kv ∈ props, ¬(normKey kv.1 = "estimatedwarmupseconds") := by
      intro kv hkv
      have := List.find?_eq_none.mp hfind kv hkv
      simpa using this
    rcases htt : alGet props "TargetTrackingConfiguration" with _ | w
    · refine ruleIdem_of_noop _ _ ?_
      unfold fixScalingPolicy
      rw [hfind]
      dsimp only
      rw [htt]
    · cases w with
      | obj tt =>
        have h1 : fixScalingPolicy props =
            (alSet props "TargetTrackingConfiguration"
              (J.obj (alErase (alErase tt "ScaleInCooldown") "ScaleOutCooldown")),
             false || (alHas tt "ScaleInCooldown" || alHas tt "ScaleOutCooldown")) := by
          unfold fixScalingPolicy
          rw [hfind]
          dsimp only
          rw [htt]
        rw [h1]
        refine fixScalingPolicy_noop _ ?_ ?_
        · rw [List.find?_eq_none]
          intro kv hkv
          rcases mem_alSet _ _ _ _ hkv with he | he
          · rw [he]
            simp only [decide_eq_true_eq]
            decide
          · have := hstep1 kv he
            simpa using this
        · intro tt2 hg2
          rw [alGet_alSet_self] at hg2
          injection hg2 with hg3
          have hg4 := J.obj.inj hg3
          rw [← hg4]
          exact httclean tt
      | null =>
        refine ruleIdem_of_noop _ _ ?_
        unfold fixScalingPolicy
        rw [hfind]
        dsimp only
        rw [htt]
      | bool b =>
        refine ruleIdem_of_noop _ _ ?_
        unfold fixScalingPolicy
        rw [hfind]
        dsimp only
        rw [htt]
      | num n =>
        refine ruleIdem_of_noop _ _ ?_
        unfold fixScalingPolicy
        rw [hfind]
        dsimp only
        rw [htt]
      | str s =>
        refine ruleIdem_of_noop _ _ ?_
        unfold fixScalingPolicy
        rw [hfind]
        dsimp only
        rw [htt]
      | arr xs =>
        refine ruleIdem_of_noop _ _ ?_
        unfold fixScalingPolicy
        rw [hfind]
        dsimp only
        rw [htt]
  · have hm0 : normKey kv0.1 = "estimatedwarmupseconds" := by
      have := List.find?_some hfind
      simpa using this
    have hmem0 : kv0 ∈ props := List.mem_of_find?_eq_some hfind
    have hcl : ∀ kv, kv ∈ alSet (alErase props kv0.1)
        "EstimatedInstanceWarmupSeconds" kv0.2 →
        ¬(normKey kv.1 = "estimatedwarmupseconds") := by
      intro kv hkv hmk
      rcases mem_alSet _ _ _ _ hkv with he | he
      · rw [he] at hmk
        have h5 : normKey "EstimatedInstanceWarmupSeconds" =
            "estimatedwarmupseconds" := hmk
        exact absurd h5 (by decide)
      · obtain ⟨hin, hne⟩ := mem_alErase _ _ _ he
        exact hne (hokP kv0 hmem0 hm0 kv hin hmk)
    rcases htt : alGet (alSet (alErase props kv0.1)
        "EstimatedInstanceWarmupSeconds" kv0.2) "TargetTrackingConfiguration" with _ | w
    · have h1 : fixScalingPolicy props =
          (alSet (alErase props kv0.1) "EstimatedInstanceWarmupSeconds" kv0.2, true) := by
        unfold fixScalingPolicy
        rw [hfind]
        dsimp only
        rw [htt]
      rw [h1]
      refine fixScalingPolicy_noop _ ?_ ?_
      · rw [List.find?_eq_none]
        intro kv hkv
        have := hcl kv hkv
        simpa using this
      · intro tt hg
        rw [htt] at hg
        cases hg
    · cases w with
      | obj tt =>
        have h1 : fixScalingPolicy props =
            (alSet (alSet (alErase props kv0.1) "EstimatedInstanceWarmupSeconds" kv0.2)
              "TargetTrackingConfiguration"
              (J.obj (alErase (alErase tt "ScaleInCooldown") "ScaleOutCooldown")),
             true || (alHas tt "ScaleInCooldown" || alHas tt "ScaleOutCooldown")) := by
          unfold fixScalingPolicy
          rw [hfind]
          dsimp only
          rw [htt]
        rw [h1]
        refine fixScalingPolicy_noop _ ?_ ?_
        · rw [List.find?_eq_none]
          intro kv hkv
          rcases mem_alSet _ _ _ _ hkv with he | he
          · rw [he]
            simp only [decide_eq_true_eq]
            decide
          · have := hcl kv he
            simpa using this
        · intro tt2 hg2
          rw [alGet_alSet_self] at hg2
          injection hg2 with hg3
          have hg4 := J.obj.inj hg3
          rw [← hg4]
          exact httclean tt
      | null =>
        have h1 : fixScalingPolicy props =
            (alSet (alErase props kv0.1) "EstimatedInstanceWarmupSeconds" kv0.2, true) := by
          unfold fixScalingPolicy
          rw [hfind]
          dsimp only
          rw [htt]
        rw [h1]
        refine fixScalingPolicy_noop _ ?_ ?_
        · rw [List.find?_eq_none]
          intro kv hkv
          have := hcl kv hkv
          simpa using this
        · intro tt hg
          rw [htt] at hg
          cases hg
      | bool b =>
        have h1 : fixScalingPolicy props =
            (alSet (alErase props kv0.1) "EstimatedInstanceWarmupSeconds" kv0.2, true) := by
          unfold fixScalingPolicy
          rw [hfind]
          dsimp only
          rw [htt]
        rw [h1]
        refine fixScalingPolicy_noop _ ?_ ?_
        · rw [List.find?_eq_none]
          intro kv hkv
          have := hcl kv hkv
          simpa using this
        · intro tt hg
          rw [htt] at hg
          cases hg
      | num n =>
        have h1 : fixScalingPolicy props =
            (alSet (alErase props kv0.1) "EstimatedInstanceWarmupSeconds" kv0.2, true) := by
          unfold fixScalingPolicy
          rw [hfind]
          dsimp only
          rw [htt]
        rw [h1]
        refine fixScalingPolicy_noop _ ?_ ?_
        · rw [List.find?_eq_none]
          intro kv hkv
          have := hcl kv hkv
          simpa using this
        · intro tt hg
          rw [htt] at hg
          cases hg
      | str s =>
        have h1 : fixScalingPolicy props =
            (alSet (alErase props kv0.1) "EstimatedInstanceWarmupSeconds" kv0.2, true) := by
          unfold fixScalingPolicy
          rw [hfind]
          dsimp only
          rw [htt]
        rw [h1]
        refine fixScalingPolicy_noop _ ?_ ?_
        · rw [List.find?_eq_none]
          intro kv hkv
          have := hcl kv hkv
          simpa using this
        · intro tt hg
          rw [htt] at hg
          cases hg
      | arr xs =>
        have h1 : fixScalingPolicy props =
            (alSet (alErase props kv0.1) "EstimatedInstanceWarmupSeconds" kv0.2, true) := by
          unfold fixScalingPolicy
          rw [hfind]
          dsimp only
          rw [htt]
        rw [h1]
        refine fixScalingPolicy_noop _ ?_ ?_
        · rw [List.find?_eq_none]
          intro kv hkv
          have := hcl kv hkv
          simpa using this
        · intro tt hg
          rw [htt] at hg
          cases hg

theorem fixCacheBehavior_out_noOrigin (kvs db : List (String × J))
    (h : (fixCacheBehavior (J.obj kvs)).1 = J.obj db) :
    alGet db "OriginId" = none := by
  rcases hg : alGet kvs "OriginId" with _ | v
  · rw [fixCacheBehavior_noOrigin kvs hg] at h
    dsimp only at h
    rw [← J.obj.inj h]
    exact hg
  · by_cases hh : alHas kvs "TargetOriginId" = true
    · have h2 : fixCacheBehavior (J.obj kvs) = (J.obj (alErase kvs "OriginId"), true) := by
        unfold fixCacheBehavior
        dsimp only
        rw [hg]
        dsimp only
        rw [if_pos hh]
      rw [h2] at h
      dsimp only at h
      rw [← J.obj.inj h]
      exact alGet_alErase_self _ _
    · have h2 : fixCacheBehavior (J.obj kvs) =
          (J.obj (alSet (alErase kvs "OriginId") "TargetOriginId" v), true) := by
        unfold fixCacheBehavior
        dsimp only
        rw [hg]
        dsimp only
        rw [if_neg hh]
      rw [h2] at h
      dsimp only at h
      rw [← J.obj.inj h]
      rw [alGet_alSet_ne _ "TargetOriginId" "OriginId" _ (by decide)]
      exact alGet_alErase_self _ _

theorem cfBehStep_noop (dc : List (String × J))
    (h : ∀ db, alGet dc "DefaultCacheBehavior" = some (J.obj db) →
      alGet db "OriginId" = none) :
    cfBehStep dc = (dc, false) := by
  unfold cfBehStep
  rcases hg : alGet dc "DefaultCacheBehavior" with _ | w
  · rfl
  · cases w with
    | obj db =>
      dsimp only
      rw [fixCacheBehavior_noOrigin db (h db hg)]
      dsimp only
      rw [alSet_self_get _ _ _ hg]
    | null => rfl
    | bool b => rfl
    | num n => rfl
    | str s => rfl
    | arr xs => rfl

theorem cfCbStep_noop (dc : List (String × J))
    (h : ∀ cbs, alGet dc "CacheBehaviors" = some (J.arr cbs) →
      ∀ cb ∈ cbs, fixCacheBehavior cb = (cb, false)) :
    cfCbStep dc = (dc, false) := by
  unfold cfCbStep
  rcases hg : alGet dc "CacheBehaviors" with _ | w
  · rfl
  · cases w with
    | arr cbs =>
      have hmap : (cbs.map fixCacheBehavior).map Prod.fst = cbs := by
        rw [List.map_map]
        have : ∀ cb ∈ cbs, (Prod.fst ∘ fixCacheBehavior) cb = cb := by
          intro cb hcb
          show (fixCacheBehavior cb).1 = cb
          rw [h cbs hg cb hcb]
        rw [List.map_congr_left this]
        exact List.map_id cbs
      have hany : (cbs.map fixCacheBehavior).any Prod.snd = false := by
        refine List.any_eq_false.mpr ?_
        intro x hx
        obtain ⟨cb, hcb, hxe⟩ := List.mem_map.mp hx
        rw [← hxe]
        show ¬((fixCacheBehavior cb).2 = true)
        rw [h cbs hg cb hcb]
        simp
      dsimp only
      rw [hmap, hany, alSet_self_get _ _ _ hg]
    | null => rfl
    | bool b => rfl
    | num n => rfl
    | str s => rfl
    | obj kvs => rfl

theorem cfTagsStep_tags (props dc : List (String × J)) :
    alGet (cfTagsStep props dc).1 "Tags" = none := by
  unfold cfTagsStep
  rcases hg : alGet dc "Tags" with _ | tags
  · exact hg
  · dsimp only
    split
    · exact alGet_alErase_self _ _
    · exact alGet_alErase_self _ _

theorem cfBehStep_get_ne (dc : List (String × J)) (k : String)
    (hk : k ≠ "DefaultCacheBehavior") :
    alGet (cfBehStep dc).1 k = alGet dc k := by
  unfold cfBehStep
  rcases hg : alGet dc "DefaultCacheBehavior" with _ | w
  · rfl
  · cases w with
    | obj db =>
      dsimp only
      exact alGet_alSet_ne _ _ _ _ hk
    | null => rfl
    | bool b => rfl
    | num n => rfl
    | str s => rfl
    | arr xs => rfl

theorem cfCbStep_get_ne (dc : List (String × J)) (k : String)
    (hk : k ≠ "CacheBehaviors") :
    alGet (cfCbStep dc).1 k = alGet dc k := by
  unfold cfCbStep
  rcases hg : alGet dc "CacheBehaviors" with _ | w
  · rfl
  · cases w with
    | arr cbs =>
      dsimp only
      exact alGet_alSet_ne _ _ _ _ hk
    | null => rfl
    | bool b => rfl
    | num n => rfl
    | str s => rfl
    | obj kvs => rfl

theorem cfBehStep_dcb (dc : List (String × J)) :
    ∀ db, alGet (cfBehStep dc).1 "DefaultCacheBehavior" = some (J.obj db) →
      alGet db "OriginId" = none := by
  intro db hdb
  unfold cfBehStep at hdb
  rcases hg : alGet dc "DefaultCacheBehavior" with _ | w
  · rw [hg] at hdb
    dsimp only at hdb
    rw [hdb] at hg
    cases hg
  · rw [hg] at hdb
    cases w with
    | obj db0 =>
      dsimp only at hdb
      rw [alGet_alSet_self] at hdb
      injection hdb with hdb2
      exact fixCacheBehavior_out_noOrigin db0 db hdb2
    | null =>
      dsimp only at hdb
      rw [hdb] at hg
      simp at hg
    | bool b =>
      dsimp only at hdb
      rw [hdb] at hg
      simp at hg
    | num n =>
      dsimp only at hdb
      rw [hdb] at hg
      simp at hg
    | str s =>
      dsimp only at hdb
      rw [hdb] at hg
      simp at hg
    | arr xs =>
      dsimp only at hdb
      rw [hdb] at hg
      simp at hg

theorem cfCbStep_cb (dc : List (String × J)) :
    ∀ cbs, alGet (cfCbStep dc).1 "CacheBehaviors" = some (J.arr cbs) →
      ∀ cb ∈ cbs, fixCacheBehavior cb = (cb, false) := by
  intro cbs hcb cb hmem
  unfold cfCbStep at hcb
  rcases hg : alGet dc "CacheBehaviors" with _ | w
  · rw [hg] at hcb
    dsimp only at hcb
    rw [hcb] at hg
    cases hg
  · rw [hg] at hcb
    cases w with
    | arr cbs0 =>
      dsimp only at hcb
      rw [alGet_alSet_self] at hcb
      injection hcb with hcb2
      have hcb3 := J.arr.inj hcb2
      rw [← hcb3] at hmem
      rw [List.map_map] at hmem
      obtain ⟨cb0, _, hcb0⟩ := List.mem_map.mp hmem
      rw [← hcb0]
      exact fixCacheBehavior_idem cb0
    | null =>
      dsimp only at hcb
      rw [hcb] at hg
      simp at hg
    | bool b =>
      dsimp only at hcb
      rw [hcb] at hg
      simp at hg
    | num n =>
      dsimp only at hcb
      rw [hcb] at hg
      simp at hg
    | str s =>
      dsimp only at hcb
      rw [hcb] at hg
      simp at hg
    | obj kvs =>
      dsimp only at hcb
      rw [hcb] at hg
      simp at hg

theorem fixCloudFront_noop (props dc : List (String × J))
    (hdc : alGet props "DistributionConfig" = some (J.obj dc))
    (htags : alGet dc "Tags" = none)
    (hvpp : alGet dc "ViewerProtocolPolicy" = none)
    (hbeh : ∀ db, alGet dc "DefaultCacheBehavior" = some (J.obj db) →
      alGet db "OriginId" = none)
    (hcbs : ∀ cbs, alGet dc "CacheBehaviors" = some (J.arr cbs) →
      ∀ cb ∈ cbs, fixCacheBehavior cb = (cb, false)) :
    fixCloudFront props = (props, false) := by
  have hts : cfTagsStep props dc = (dc, props, false) := by
    unfold cfTagsStep
    rw [htags]
  unfold fixCloudFront
  rw [hdc]
  dsimp only
  rw [hts]
  dsimp only
  rw [alHas_of_get_none _ _ hvpp, alErase_noop _ _ hvpp,
    cfBehStep_noop dc hbeh]
  dsimp only
  rw [cfCbStep_noop dc hcbs]
  dsimp only
  rw [alSet_self_get _ _ _ hdc]
  rfl

theorem fixCloudFront_idem (props : List (String × J)) :
    fixCloudFront (fixCloudFront props).1 = ((fixCloudFront props).1, false) := by
  rcases hdc : alGet props "DistributionConfig" with _ | w
  · refine ruleIdem_of_noop _ _ ?_
    unfold fixCloudFront
    rw [hdc]
  · cases w with
    | obj dc =>
      have h1 : fixCloudFront props =
          (alSet (cfTagsStep props dc).2.1 "DistributionConfig"
            (J.obj (cfCbStep (cfBehStep
              (alErase (cfTagsStep props dc).1 "ViewerProtocolPolicy")).1).1),
           (cfTagsStep props dc).2.2 ||
             alHas (cfTagsStep props dc).1 "ViewerProtocolPolicy" ||
             (cfBehStep (alErase (cfTagsStep props dc).1 "ViewerProtocolPolicy")).2 ||
             (cfCbStep (cfBehStep
               (alErase (cfTagsStep props dc).1 "ViewerProtocolPolicy")).1).2) := by
        unfold fixCloudFront
        rw [hdc]
      rw [h1]
      refine fixCloudFront_noop _
        (cfCbStep (cfBehStep
          (alErase (cfTagsStep props dc).1 "ViewerProtocolPolicy")).1).1
        (alGet_alSet_self _ _ _) ?_ ?_ ?_ ?_
      · rw [cfCbStep_get_ne _ _ (by decide), cfBehStep_get_ne _ _ (by decide),
          alGet_alErase_ne _ _ _ (by decide)]
        exact cfTagsStep_tags props dc
      · rw [cfCbStep_get_ne _ _ (by decide), cfBehStep_get_ne _ _ (by decide)]
        exact alGet_alErase_self _ _
      · intro db hdb
        rw [cfCbStep_get_ne _ _ (by decide)] at hdb
        exact cfBehStep_dcb _ db hdb
      · exact cfCbStep_cb _
    | null =>
      refine ruleIdem_of_noop _ _ ?_
      unfold fixCloudFront
      rw [hdc]
    | bool b =>
      refine ruleIdem_of_noop _ _ ?_
      unfold fixCloudFront
      rw [hdc]
    | num n =>
      refine ruleIdem_of_noop _ _ ?_
      unfold fixCloudFront
      rw [hdc]
    | str s =>
      refine ruleIdem_of_noop _ _ ?_
      unfold fixCloudFront
      rw [hdc]
    | arr xs =>
      refine ruleIdem_of_noop _ _ ?_
      unfold fixCloudFront
      rw [hdc]

/-- The generated `Fn::Sub` bucket name always reads as using the suffix:
the serialized value contains `bucketnamesuffix` case-insensitively. -/
theorem s3_nameVal_uses (tail : String) :
    s3BucketNameUsesSuffix (J.obj [("Fn::Sub",
      J.str ("app-$\x7bAWS::AccountId\x7d-$\x7bBucketNameSuffix\x7d-" ++ tail))]) = true := by
  unfold s3BucketNameUsesSuffix strContains sLower
  dsimp only
  simp only [J.dump, dumpObj, String.data_append, List.append_assoc, List.map_append]
  refine lcInfix_append_right _ _ _ ?_
  refine lcInfix_append_right _ _ _ ?_
  refine lcInfix_append_right _ _ _ ?_
  refine lcInfix_append_right _ _ _ ?_
  refine lcInfix_append_right _ _ _ ?_
  exact lcInfix_append_left _ _ _ (by decide)

theorem fixS3Bucket_idem (lid : String) (props p0 params : List (String × J)) :
    fixS3Bucket lid (fixS3Bucket lid props p0).1 params =
      ((fixS3Bucket lid props p0).1, params, false) := by
  by_cases hc : (match alGet props "BucketName" with
      | none => true
      | some J.null => true
      | some v => ! s3BucketNameUsesSuffix v) = true
  · have h1 : (fixS3Bucket lid props p0).1 = alSet props "BucketName"
        (J.obj [("Fn::Sub", J.str ("app-$\x7bAWS::AccountId\x7d-$\x7bBucketNameSuffix\x7d-" ++
          sTake (sReplace (sLower lid) "_" "-") 40))]) := by
      unfold fixS3Bucket
      dsimp only
      rw [if_pos hc]
    rw [h1]
    unfold fixS3Bucket
    dsimp only
    rw [alGet_alSet_self]
    dsimp only
    rw [if_neg (by rw [s3_nameVal_uses]; decide)]
  · have h1 : (fixS3Bucket lid props p0).1 = props := by
      unfold fixS3Bucket
      dsimp only
      rw [if_neg hc]
    rw [h1]
    unfold fixS3Bucket
    dsimp only
    rw [if_neg hc]

theorem str_ext (a b : String) (h : a.data = b.data) : a = b := by
  cases a with
  | mk la =>
    cases b with
    | mk lb => exact congrArg String.mk h

theorem mem_of_headW {α : Type} (l : List α) (a : α) (h : l.head? = some a) : a ∈ l :=
  List.mem_of_mem_head? (by rw [h]; rfl)

theorem mem_of_getLastW {α : Type} (l : List α) (a : α) (h : l.getLast? = some a) :
    a ∈ l := by
  rw [← List.head?_reverse] at h
  exact List.mem_reverse.mp (List.mem_of_mem_head? (by rw [h]; rfl))

theorem getLast?_mapW {α β : Type} (l : List α) (f : α → β) :
    (l.map f).getLast? = (l.getLast?).map f := by
  rw [← List.head?_reverse, ← List.head?_reverse, ← List.map_reverse, List.head?_map]

theorem getLast?_filter_pos {α : Type} (l : List α) (p : α → Bool) (a : α)
    (h : l.getLast? = some a) (hp : p a = true) :
    (l.filter p).getLast? = some a := by
  rw [← List.head?_reverse] at h
  rw [← List.head?_reverse, ← List.filter_reverse]
  rcases he : l.reverse with _ | ⟨c, r⟩
  · rw [he] at h
    cases h
  · rw [he] at h
    simp only [List.head?_cons, Option.some.injEq] at h
    subst h
    rw [List.filter_cons, if_pos hp]
    rfl

theorem sTrim_noop_all (t : String) (h : ∀ c ∈ t.data, isWsChar c = false) :
    sTrim t = t :=
  sTrim_noop t (fun c hc => h c (mem_of_headW _ _ hc))
    (fun c hc => h c (mem_of_getLastW _ _ hc))

theorem allowed_not_ws (c : Char) (h : allowedPathChar c = true) : isWsChar c = false := by
  by_cases hw : isWsChar c = true
  · unfold isWsChar at hw
    simp only [Bool.or_eq_true, decide_eq_true_eq] at hw
    rcases hw with ((((h1 | h1) | h1) | h1) | h1) | h1 <;>
      (subst h1; exact absurd h (by decide))
  · simpa using hw

theorem dashFix_not_ws (c : Char) (h : isWsChar c = false) :
    isWsChar (if c = '-' then '_' else c) = false := by
  by_cases hc : c = '-'
  · rw [if_pos hc]
    decide
  · rw [if_neg hc]
    exact h

theorem pathFix_not_ws (c : Char) :
    isWsChar (if allowedPathChar c then c else '_') = false := by
  by_cases hc : allowedPathChar c = true
  · rw [if_pos hc]
    exact allowed_not_ws c hc
  · rw [if_neg hc]
    decide

theorem not_space_of_not_ws (c : Char) (h : isWsChar c = false) :
    (decide ¬(c = ' ')) = true := by
  simp only [decide_eq_true_eq]
  intro he
  subst he
  exact absurd h (by decide)

theorem pathInner_data (m : String) :
    (pathInner m).data =
      ((sTrim m).data.filter (fun c => decide ¬(c = ' '))).map
        (fun c => if c = '-' then '_' else c) := by
  unfold pathInner sReplace
  have h1 : (" " : String).data = [' '] := rfl
  have h2 : ("" : String).data = ([] : List Char) := rfl
  have h3 : ("-" : String).data = ['-'] := rfl
  have h4 : ("_" : String).data = ['_'] := rfl
  rw [h1, h2, h3, h4]
  dsimp only
  rw [lcReplaceGo_filter ' ' _ _ (le_refl _)]
  rw [lcReplaceGo_map '-' '_' _ _ (le_refl _)]

theorem pathInner_head_ws (m : String) :
    ∀ c, (pathInner m).data.head? = some c → isWsChar c = false := by
  intro c hc
  rw [pathInner_data] at hc
  rcases hT : (sTrim m).data with _ | ⟨c0, T2⟩
  · rw [hT] at hc
    cases hc
  · rw [hT] at hc
    have hc0 : isWsChar c0 = false := sTrim_head m c0 (by rw [hT]; rfl)
    rw [List.filter_cons, if_pos (not_space_of_not_ws c0 hc0), List.map_cons] at hc
    simp only [List.head?_cons, Option.some.injEq] at hc
    subst hc
    exact dashFix_not_ws c0 hc0

theorem pathInner_last_ws (m : String) :
    ∀ c, (pathInner m).data.getLast? = some c → isWsChar c = false := by
  intro c hc
  rw [pathInner_data, getLast?_mapW] at hc
  rcases hgl : (sTrim m).data.getLast? with _ | c2
  · have hTnil : (sTrim m).data = [] := by
      rcases he : (sTrim m).data with _ | ⟨x, xs⟩
      · rfl
      · rw [he] at hgl
        rcases hrev : (x :: xs).reverse with _ | ⟨y, ys⟩
        · exact absurd hrev (by simp)
        · rw [← List.head?_reverse, hrev] at hgl
          cases hgl
    rw [hTnil] at hc
    cases hc
  · have hc2 : isWsChar c2 = false := sTrim_last m c2 hgl
    rw [getLast?_filter_pos _ _ _ hgl (not_space_of_not_ws c2 hc2)] at hc
    simp only [Option.map_some', Option.some.injEq] at hc
    subst hc
    exact dashFix_not_ws c2 hc2

theorem pathInner_no_space (m : String) :
    ∀ c ∈ (pathInner m).data, (decide ¬(c = ' ')) = true := by
  intro c hc
  rw [pathInner_data] at hc
  obtain ⟨c0, hc0mem, hf⟩ := List.mem_map.mp hc
  have hg0 := List.of_mem_filter hc0mem
  rw [← hf]
  by_cases hd : c0 = '-'
  · rw [if_pos hd]
    decide
  · rw [if_neg hd]
    exact hg0

theorem pathInner_fix (m : String) : pathInner (pathInner m) = pathInner m := by
  have htr : sTrim (pathInner m) = pathInner m :=
    sTrim_noop _ (pathInner_head_ws m) (pathInner_last_ws m)
  refine str_ext _ _ ?_
  rw [pathInner_data (pathInner m), htr]
  rw [List.filter_eq_self.mpr (pathInner_no_space m)]
  rw [pathInner_data m, List.map_map]
  refine List.map_congr_left ?_
  intro c _
  show (if (if c = '-' then '_' else c) = '-' then '_' else (if c = '-' then '_' else c)) =
    (if c = '-' then '_' else c)
  by_cases hd : c = '-'
  · subst hd
    decide
  · simp only [if_neg hd]

theorem pathFixed_not_ws (p : String) :
    ∀ c ∈ (pathFixed p).data, isWsChar c = false := by
  intro c hc
  obtain ⟨c0, _, hf⟩ := List.mem_map.mp hc
  rw [← hf]
  exact pathFix_not_ws c0

theorem pathFixed_head_not_brace (p : String) :
    ¬((pathFixed p).data.head? = some '\x7b') := by
  intro hh
  unfold pathFixed at hh
  dsimp only at hh
  rw [List.head?_map] at hh
  rcases hp : p.data.head? with _ | c0
  · rw [hp] at hh
    cases hh
  · rw [hp] at hh
    simp only [Option.map_some', Option.some.injEq] at hh
    by_cases ha : allowedPathChar c0 = true
    · rw [if_pos ha] at hh
      subst hh
      exact absurd ha (by decide)
    · rw [if_neg ha] at hh
      exact absurd hh (by decide)

theorem pathFixed_fix (p : String) : pathFixed (pathFixed p) = pathFixed p := by
  refine str_ext _ _ ?_
  show (pathFixed p).data.map _ = _
  unfold pathFixed
  dsimp only
  rw [List.map_map]
  refine List.map_congr_left ?_
  intro c _
  show (if allowedPathChar (if allowedPathChar c then c else '_') = true then
      (if allowedPathChar c then c else '_') else '_') = (if allowedPathChar c then c else '_')
  by_cases ha : allowedPathChar c = true
  · simp only [if_pos ha]
  · simp only [if_neg ha]
    decide

theorem fixPathPart_idem (props : List (String × J)) :
    fixPathPart (fixPathPart props).1 = ((fixPathPart props).1, false) := by
  rcases hpp : alGet props "PathPart" with _ | v
  · refine ruleIdem_of_noop _ _ ?_
    unfold fixPathPart
    rw [hpp]
  · cases v with
    | str s =>
      by_cases hA : ((sTrim s).data.head? = some '\x7b' ∧
          (sTrim s).data.getLast? = some '\x7d' ∧ 2 ≤ (sTrim s).data.length)
      · by_cases hf : (pathInner (String.mk (((sTrim s).data.drop 1).dropLast)) ≠ "" ∧
            pathInner (String.mk (((sTrim s).data.drop 1).dropLast)) ≠
              String.mk (((sTrim s).data.drop 1).dropLast))
        · have h1 : fixPathPart props =
              (alSet props "PathPart" (J.str ("\x7b" ++
                pathInner (String.mk (((sTrim s).data.drop 1).dropLast)) ++ "\x7d")), true) := by
            unfold fixPathPart
            rw [hpp]
            try dsimp only
            rw [if_pos hA]
            try dsimp only
            rw [if_pos hf]
          rw [h1]
          unfold fixPathPart
          rw [alGet_alSet_self]
          try dsimp only
          have hdata : ("\x7b" ++
              pathInner (String.mk (((sTrim s).data.drop 1).dropLast)) ++ "\x7d").data =
              '\x7b' :: ((pathInner (String.mk (((sTrim s).data.drop 1).dropLast))).data ++
                ['\x7d']) := by
            simp [String.data_append]
          have htr2 : sTrim ("\x7b" ++
              pathInner (String.mk (((sTrim s).data.drop 1).dropLast)) ++ "\x7d") =
              "\x7b" ++ pathInner (String.mk (((sTrim s).data.drop 1).dropLast)) ++ "\x7d" := by
            refine sTrim_noop _ ?_ ?_
            · intro c hc
              rw [hdata] at hc
              simp only [List.head?_cons, Option.some.injEq] at hc
              subst hc
              decide
            · intro c hc
              rw [hdata, show '\x7b' ::
                  ((pathInner (String.mk (((sTrim s).data.drop 1).dropLast))).data ++ ['\x7d']) =
                  ('\x7b' :: (pathInner (String.mk (((sTrim s).data.drop 1).dropLast))).data) ++
                  ['\x7d'] from rfl, List.getLast?_concat] at hc
              injection hc with hc2
              rw [← hc2]
              decide
          rw [htr2]
          have hcond : (("\x7b" ++
              pathInner (String.mk (((sTrim s).data.drop 1).dropLast)) ++ "\x7d").data.head? =
                some '\x7b' ∧
              ("\x7b" ++ pathInner (String.mk (((sTrim s).data.drop 1).dropLast)) ++
                "\x7d").data.getLast? = some '\x7d' ∧
              2 ≤ ("\x7b" ++ pathInner (String.mk (((sTrim s).data.drop 1).dropLast)) ++
                "\x7d").data.length) := by
            refine ⟨?_, ?_, ?_⟩
            · rw [hdata]
              rfl
            · rw [hdata, show '\x7b' ::
                  ((pathInner (String.mk (((sTrim s).data.drop 1).dropLast))).data ++ ['\x7d']) =
                  ('\x7b' :: (pathInner (String.mk (((sTrim s).data.drop 1).dropLast))).data) ++
                  ['\x7d'] from rfl, List.getLast?_concat]
            · rw [hdata]
              simp [List.length_append]
          rw [if_pos hcond]
          try dsimp only
          have hmid2 : String.mk ((("\x7b" ++
              pathInner (String.mk (((sTrim s).data.drop 1).dropLast)) ++
              "\x7d").data.drop 1).dropLast) =
              pathInner (String.mk (((sTrim s).data.drop 1).dropLast)) := by
            rw [hdata]
            show String.mk (((pathInner (String.mk (((sTrim s).data.drop 1).dropLast))).data ++
              ['\x7d']).dropLast) = _
            rw [List.dropLast_concat]
          rw [hmid2]
          rw [if_neg (fun hcon => hcon.2 (pathInner_fix _))]
        · refine ruleIdem_of_noop _ _ ?_
          unfold fixPathPart
          rw [hpp]
          try dsimp only
          rw [if_pos hA]
          try dsimp only
          rw [if_neg hf]
      · by_cases hf : (pathFixed (sTrim s) ≠ sTrim s)
        · have h1 : fixPathPart props =
              (alSet props "PathPart" (J.str (pathFixed (sTrim s))), true) := by
            unfold fixPathPart
            rw [hpp]
            try dsimp only
            rw [if_neg hA]
            try dsimp only
            rw [if_pos hf]
          rw [h1]
          unfold fixPathPart
          rw [alGet_alSet_self]
          try dsimp only
          have htr2 : sTrim (pathFixed (sTrim s)) = pathFixed (sTrim s) :=
            sTrim_noop_all _ (pathFixed_not_ws _)
          rw [htr2]
          rw [if_neg (fun hcon => pathFixed_head_not_brace _ hcon.1)]
          try dsimp only
          rw [if_neg (fun hne2 => hne2 (pathFixed_fix _))]
        · refine ruleIdem_of_noop _ _ ?_
          unfold fixPathPart
          rw [hpp]
          try dsimp only
          rw [if_neg hA]
          try dsimp only
          rw [if_neg hf]
    | null =>
      refine ruleIdem_of_noop _ _ ?_
      unfold fixPathPart
      rw [hpp]
    | bool b =>
      refine ruleIdem_of_noop _ _ ?_
      unfold fixPathPart
      rw [hpp]
    | num n =>
      refine ruleIdem_of_noop _ _ ?_
      unfold fixPathPart
      rw [hpp]
    | arr xs =>
      refine ruleIdem_of_noop _ _ ?_
      unfold fixPathPart
      rw [hpp]
    | obj kvs =>
      refine ruleIdem_of_noop _ _ ?_
      unfold fixPathPart
      rw [hpp]

/-! ## Resource-level idempotence -/

/-- The document component of one resource-rule application (the state
only feeds parameter bookkeeping, see `normResourceWith_fst_const`). -/
def normResourceDoc (nested : String → String) (lid : String) (rdef : J) : J :=
  (normResourceWith nested lid rdef ⟨[], false⟩).1

/-- Input conditions under which one resource's rule is idempotent: the
resource is not a nested stack (whose recursive normalization is out of
scope here), and a scaling policy carries at most one spelling of the
warmup alias. -/
def resourceOkB (rdef : J) : Bool :=
  match rdef with
  | J.obj rkvs =>
    decide (¬(alGet rkvs "Type" = some (J.str "AWS::CloudFormation::Stack"))) &&
    (if alGet rkvs "Type" = some (J.str "AWS::AutoScaling::ScalingPolicy") then
       scalingAliasOkB (getProps rkvs).1
     else true)
  | _ => true

theorem getProps_cases (rkvs : List (String × J)) :
    getProps rkvs = ([], false) ∨
    ∃ props, getProps rkvs = (props, true) ∧
      alGet rkvs "Properties" = some (J.obj props) ∧ props ≠ [] := by
  unfold getProps
  rcases hg : alGet rkvs "Properties" with _ | v
  · exact Or.inl rfl
  · cases v with
    | obj kvs2 =>
      by_cases he : kvs2.isEmpty = true
      · exact Or.inl (by dsimp only; rw [if_pos he])
      · exact Or.inr ⟨kvs2, by dsimp only; rw [if_neg he], rfl,
          by simpa [List.isEmpty_iff] using he⟩
    | null => exact Or.inl rfl
    | bool b => exact Or.inl rfl
    | num n => exact Or.inl rfl
    | str s => exact Or.inl rfl
    | arr xs => exact Or.inl rfl

theorem doc_eval_scaling (nested : String → String) (lid : String)
    (rkvs : List (String × J))
    (hT : alGet rkvs "Type" = some (J.str "AWS::AutoScaling::ScalingPolicy")) :
    normResourceDoc nested lid (J.obj rkvs) =
      J.obj (putProps rkvs (getProps rkvs).2 (fixScalingPolicy (getProps rkvs).1).1) := by
  unfold normResourceDoc normResourceWith
  dsimp only
  rw [hT, if_pos rfl]

theorem doc_eval_stage (nested : String → String) (lid : String)
    (rkvs : List (String × J))
    (hT : alGet rkvs "Type" = some (J.str "AWS::ApiGateway::Stage")) :
    normResourceDoc nested lid (J.obj rkvs) =
      J.obj (putProps rkvs (getProps rkvs).2 (fixApiStage (getProps rkvs).1).1) := by
  unfold normResourceDoc normResourceWith
  dsimp only
  rw [hT, if_neg (by decide), if_pos rfl]

theorem doc_eval_cf (nested : String → String) (lid : String)
    (rkvs : List (String × J))
    (hT : alGet rkvs "Type" = some (J.str "AWS::CloudFront::Distribution")) :
    normResourceDoc nested lid (J.obj rkvs) =
      J.obj (putProps rkvs (getProps rkvs).2 (fixCloudFront (getProps rkvs).1).1) := by
  unfold normResourceDoc normResourceWith
  dsimp only
  rw [hT, if_neg (by decide), if_neg (by decide), if_pos rfl]

theorem doc_eval_ec2 (nested : String → String) (lid : String)
    (rkvs : List (String × J))
    (hT : alGet rkvs "Type" = some (J.str "AWS::EC2::Instance")) :
    normResourceDoc nested lid (J.obj rkvs) =
      J.obj (putProps rkvs (getProps rkvs).2 (fixEc2Instance (getProps rkvs).1).1) := by
  unfold normResourceDoc normResourceWith
  dsimp only
  rw [hT, if_neg (by decide), if_neg (by decide), if_neg (by decide), if_pos rfl]

theorem doc_eval_path (nested : String → String) (lid : String)
    (rkvs : List (String × J))
    (hT : alGet rkvs "Type" = some (J.str "AWS::ApiGateway::Resource")) :
    normResourceDoc nested lid (J.obj rkvs) =
      J.obj (putProps rkvs (getProps rkvs).2 (fixPathPart (getProps rkvs).1).1) := by
  unfold normResourceDoc normResourceWith
  dsimp only
  rw [hT, if_neg (by decide), if_neg (by decide), if_neg (by decide), if_neg (by decide),
    if_pos rfl]

theorem doc_eval_log (nested : String → String) (lid : String)
    (rkvs : List (String × J))
    (hT : alGet rkvs "Type" = some (J.str "AWS::Logs::LogGroup")) :
    normResourceDoc nested lid (J.obj rkvs) =
      J.obj (putProps rkvs (getProps rkvs).2 (fixLogGroup (getProps rkvs).1).1) := by
  unfold normResourceDoc normResourceWith
  dsimp only
  rw [hT, if_neg (by decide), if_neg (by decide), if_neg (by decide), if_neg (by decide),
    if_neg (by decide), if_pos rfl]

theorem doc_eval_s3 (nested : String → String) (lid : String)
    (rkvs : List (String × J))
    (hT : alGet rkvs "Type" = some (J.str "AWS::S3::Bucket")) :
    normResourceDoc nested lid (J.obj rkvs) =
      J.obj (putProps rkvs (getProps rkvs).2 (fixS3Bucket lid (getProps rkvs).1 []).1) := by
  unfold normResourceDoc normResourceWith
  dsimp only
  rw [hT, if_neg (by decide), if_neg (by decide), if_neg (by decide), if_neg (by decide),
    if_neg (by decide), if_neg (by decide), if_pos rfl]

theorem doc_eval_bp (nested : String → String) (lid : String)
    (rkvs : List (String × J))
    (hT : alGet rkvs "Type" = some (J.str "AWS::S3::BucketPolicy")) :
    normResourceDoc nested lid (J.obj rkvs) =
      J.obj (putProps rkvs (getProps rkvs).2 (fixBucketPolicy (getProps rkvs).1).1) := by
  unfold normResourceDoc normResourceWith
  dsimp only
  rw [hT, if_neg (by decide), if_neg (by decide), if_neg (by decide), if_neg (by decide),
    if_neg (by decide), if_neg (by decide), if_neg (by decide), if_pos rfl]

theorem doc_eval_other (nested : String → String) (lid : String)
    (rkvs : List (String × J))
    (h1 : ¬(alGet rkvs "Type" = some (J.str "AWS::AutoScaling::ScalingPolicy")))
    (h2 : ¬(alGet rkvs "Type" = some (J.str "AWS::ApiGateway::Stage")))
    (h3 : ¬(alGet rkvs "Type" = some (J.str "AWS::CloudFront::Distribution")))
    (h4 : ¬(alGet rkvs "Type" = some (J.str "AWS::EC2::Instance")))
    (h5 : ¬(alGet rkvs "Type" = some (J.str "AWS::ApiGateway::Resource")))
    (h6 : ¬(alGet rkvs "Type" = some (J.str "AWS::Logs::LogGroup")))
    (h7 : ¬(alGet rkvs "Type" = some (J.str "AWS::S3::Bucket")))
    (h8 : ¬(alGet rkvs "Type" = some (J.str "AWS::S3::BucketPolicy")))
    (h9 : ¬(alGet rkvs "Type" = some (J.str "AWS::CloudFormation::Stack"))) :
    normResourceDoc nested lid (J.obj rkvs) = J.obj rkvs := by
  unfold normResourceDoc normResourceWith
  dsimp only
  rw [if_neg h1, if_neg h2, if_neg h3, if_neg h4, if_neg h5, if_neg h6, if_neg h7,
    if_neg h8, if_neg h9]

/-- Generic second-application argument for one property-rewriting rule:
if the rule is a no-op on its own output, the resource transform is
idempotent (covering the detached-dict case of empty or missing
`Properties`, where the document is unchanged either pass). -/
theorem doc_rule_idem (nested : String → String) (lid : String)
    (rkvs : List (String × J)) (T : String)
    (fixX : List (String × J) → List (String × J) × Bool)
    (heval : ∀ rk : List (String × J), alGet rk "Type" = some (J.str T) →
      normResourceDoc nested lid (J.obj rk) =
        J.obj (putProps rk (getProps rk).2 (fixX (getProps rk).1).1))
    (hT : alGet rkvs "Type" = some (J.str T))
    (hidem : ∀ props, getProps rkvs = (props, true) →
      fixX ((fixX props).1) = ((fixX props).1, false)) :
    normResourceDoc nested lid (normResourceDoc nested lid (J.obj rkvs)) =
      normResourceDoc nested lid (J.obj rkvs) := by
  rcases getProps_cases rkvs with hgp | ⟨props, hgp, hprops, _⟩
  · have hdoc : normResourceDoc nested lid (J.obj rkvs) = J.obj rkvs := by
      rw [heval rkvs hT, hgp]
      rfl
    rw [hdoc]
    exact hdoc
  · have hprops' : alGet (alSet rkvs "Properties" (J.obj (fixX props).1)) "Properties"
        = some (J.obj (fixX props).1) := alGet_alSet_self _ _ _
    have htype' : alGet (alSet rkvs "Properties" (J.obj (fixX props).1)) "Type"
        = some (J.str T) := by
      rw [alGet_alSet_ne _ "Properties" "Type" _ (by decide)]
      exact hT
    have hdoc1 : normResourceDoc nested lid (J.obj rkvs)
        = J.obj (alSet rkvs "Properties" (J.obj (fixX props).1)) := by
      rw [heval rkvs hT, hgp]
      rfl
    rw [hdoc1]
    by_cases he2 : ((fixX props).1).isEmpty = true
    · have hgp' : getProps (alSet rkvs "Properties" (J.obj (fixX props).1)) = ([], false) := by
        unfold getProps
        rw [hprops']
        dsimp only
        rw [if_pos he2]
      rw [heval _ htype', hgp']
      rfl
    · have hgp' : getProps (alSet rkvs "Properties" (J.obj (fixX props).1)) =
          ((fixX props).1, true) := by
        unfold getProps
        rw [hprops']
        dsimp only
        rw [if_neg he2]
      rw [heval _ htype', hgp']
      dsimp only
      have hfix1 : (fixX ((fixX props).1)).1 = (fixX props).1 := by
        rw [hidem props hgp]
      rw [hfix1]
      exact congrArg J.obj (alSet_self_get _ _ _ hprops')

/-- Idempotence of one resource's transform under `resourceOkB`. -/
theorem normResourceDoc_idem (nested : String → String) (lid : String) (rdef : J)
    (hok : resourceOkB rdef = true) :
    normResourceDoc nested lid (normResourceDoc nested lid rdef) =
      normResourceDoc nested lid rdef := by
  cases rdef with
  | obj rkvs =>
    unfold resourceOkB at hok
    simp only [Bool.and_eq_true, decide_eq_true_eq] at hok
    obtain ⟨hstack, halias⟩ := hok
    by_cases h1 : alGet rkvs "Type" = some (J.str "AWS::AutoScaling::ScalingPolicy")
    · rw [if_pos h1] at halias
      refine doc_rule_idem nested lid rkvs _ fixScalingPolicy
        (fun rk hT => doc_eval_scaling nested lid rk hT) h1 ?_
      intro props hgp
      refine fixScalingPolicy_idem props ?_
      rw [hgp] at halias
      exact halias
    by_cases h2 : alGet rkvs "Type" = some (J.str "AWS::ApiGateway::Stage")
    · exact doc_rule_idem nested lid rkvs _ fixApiStage
        (fun rk hT => doc_eval_stage nested lid rk hT) h2
        (fun props _ => fixApiStage_idem props)
    by_cases h3 : alGet rkvs "Type" = some (J.str "AWS::CloudFront::Distribution")
    · exact doc_rule_idem nested lid rkvs _ fixCloudFront
        (fun rk hT => doc_eval_cf nested lid rk hT) h3
        (fun props _ => fixCloudFront_idem props)
    by_cases h4 : alGet rkvs "Type" = some (J.str "AWS::EC2::Instance")
    · exact doc_rule_idem nested lid rkvs _ fixEc2Instance
        (fun rk hT => doc_eval_ec2 nested lid rk hT) h4
        (fun props _ => fixEc2Instance_idem props)
    by_cases h5 : alGet rkvs "Type" = some (J.str "AWS::ApiGateway::Resource")
    · exact doc_rule_idem nested lid rkvs _ fixPathPart
        (fun rk hT => doc_eval_path nested lid rk hT) h5
        (fun props _ => fixPathPart_idem props)
    by_cases h6 : alGet rkvs "Type" = some (J.str "AWS::Logs::LogGroup")
    · exact doc_rule_idem nested lid rkvs _ fixLogGroup
        (fun rk hT => doc_eval_log nested lid rk hT) h6
        (fun props _ => fixLogGroup_idem props)
    by_cases h7 : alGet rkvs "Type" = some (J.str "AWS::S3::Bucket")
    · refine doc_rule_idem nested lid rkvs _
        (fun props => ((fixS3Bucket lid props []).1, (fixS3Bucket lid props []).2.2))
        (fun rk hT => by rw [doc_eval_s3 nested lid rk hT]) h7 ?_
      intro props _
      show ((fixS3Bucket lid ((fixS3Bucket lid props []).1) []).1,
            (fixS3Bucket lid ((fixS3Bucket lid props []).1) []).2.2) = _
      rw [fixS3Bucket_idem lid props [] []]
    by_cases h8 : alGet rkvs "Type" = some (J.str "AWS::S3::BucketPolicy")
    · exact doc_rule_idem nested lid rkvs _ fixBucketPolicy
        (fun rk hT => doc_eval_bp nested lid rk hT) h8
        (fun props _ => fixBucketPolicy_idem props)
    have hdoc := doc_eval_other nested lid rkvs h1 h2 h3 h4 h5 h6 h7 h8 hstack
    rw [hdoc]
    exact hdoc
  | null => rfl
  | bool b => rfl
  | num n => rfl
  | str s => rfl
  | arr xs => rfl

/-! ## Parameter bookkeeping across the second pass -/

/-- Does the S3 renaming rule fire on this resource (declaring the
`BucketNameSuffix` parameter and setting `changed`)? -/
def s3FireB (rdef : J) : Bool :=
  match rdef with
  | J.obj rkvs =>
    decide (alGet rkvs "Type" = some (J.str "AWS::S3::Bucket")) &&
    (match alGet (getProps rkvs).1 "BucketName" with
     | none => true
     | some J.null => true
     | some v => ! s3BucketNameUsesSuffix v)
  | _ => false

theorem putProps_type (rkvs : List (String × J)) (shared : Bool)
    (props : List (String × J)) :
    alGet (putProps rkvs shared props) "Type" = alGet rkvs "Type" := by
  unfold putProps
  split
  · exact alGet_alSet_ne _ "Properties" "Type" _ (by decide)
  · rfl

theorem fixS3Bucket_params_preserved (lid : String) (props params : List (String × J))
    (h : alHas params "BucketNameSuffix" = true) :
    (fixS3Bucket lid props params).2.1 = params := by
  unfold fixS3Bucket
  dsimp only
  split
  · rfl
  · rfl

theorem normResourceWith_params_preserved (nested : String → String) (lid : String)
    (rdef : J) (st : NormSt) (h : alHas st.params "BucketNameSuffix" = true) :
    (normResourceWith nested lid rdef st).2.params = st.params := by
  cases rdef with
  | obj rkvs =>
    unfold normResourceWith
    dsimp only
    by_cases h1 : alGet rkvs "Type" = some (J.str "AWS::AutoScaling::ScalingPolicy")
    · rw [if_pos h1]
    rw [if_neg h1]
    by_cases h2 : alGet rkvs "Type" = some (J.str "AWS::ApiGateway::Stage")
    · rw [if_pos h2]
    rw [if_neg h2]
    by_cases h3 : alGet rkvs "Type" = some (J.str "AWS::CloudFront::Distribution")
    · rw [if_pos h3]
    rw [if_neg h3]
    by_cases h4 : alGet rkvs "Type" = some (J.str "AWS::EC2::Instance")
    · rw [if_pos h4]
    rw [if_neg h4]
    by_cases h5 : alGet rkvs "Type" = some (J.str "AWS::ApiGateway::Resource")
    · rw [if_pos h5]
    rw [if_neg h5]
    by_cases h6 : alGet rkvs "Type" = some (J.str "AWS::Logs::LogGroup")
    · rw [if_pos h6]
    rw [if_neg h6]
    by_cases h7 : alGet rkvs "Type" = some (J.str "AWS::S3::Bucket")
    · rw [if_pos h7]
      exact fixS3Bucket_params_preserved lid _ st.params h
    rw [if_neg h7]
    by_cases h8 : alGet rkvs "Type" = some (J.str "AWS::S3::BucketPolicy")
    · rw [if_pos h8]
    rw [if_neg h8]
    by_cases h9 : alGet rkvs "Type" = some (J.str "AWS::CloudFormation::Stack")
    · rw [if_pos h9]
      split
      · split
        · split
          · rfl
          · rfl
        · rfl
      · rfl
    rw [if_neg h9]
  | null => rfl
  | bool b => rfl
  | num n => rfl
  | str s => rfl
  | arr xs => rfl

theorem normResourcesWith_params_preserved (nested : String → String) :
    ∀ (l : List (String × J)) (st : NormSt),
    alHas st.params "BucketNameSuffix" = true →
    (normResourcesWith nested l st).2.params = st.params
  | [], _, _ => rfl
  | (lid, rdef) :: rest, st, h => by
    simp only [normResourcesWith]
    have h1 := normResourceWith_params_preserved nested lid rdef st h
    have h2 : alHas (normResourceWith nested lid rdef st).2.params
        "BucketNameSuffix" = true := by
      rw [h1]
      exact h
    rw [normResourcesWith_params_preserved nested rest _ h2, h1]

theorem normResourceWith_params_of_no_fire (nested : String → String) (lid : String)
    (rdef : J) (st : NormSt) (h : s3FireB rdef = false) :
    (normResourceWith nested lid rdef st).2.params = st.params := by
  cases rdef with
  | obj rkvs =>
    unfold normResourceWith
    dsimp only
    by_cases h1 : alGet rkvs "Type" = some (J.str "AWS::AutoScaling::ScalingPolicy")
    · rw [if_pos h1]
    rw [if_neg h1]
    by_cases h2 : alGet rkvs "Type" = some (J.str "AWS::ApiGateway::Stage")
    · rw [if_pos h2]
    rw [if_neg h2]
    by_cases h3 : alGet rkvs "Type" = some (J.str "AWS::CloudFront::Distribution")
    · rw [if_pos h3]
    rw [if_neg h3]
    by_cases h4 : alGet rkvs "Type" = some (J.str "AWS::EC2::Instance")
    · rw [if_pos h4]
    rw [if_neg h4]
    by_cases h5 : alGet rkvs "Type" = some (J.str "AWS::ApiGateway::Resource")
    · rw [if_pos h5]
    rw [if_neg h5]
    by_cases h6 : alGet rkvs "Type" = some (J.str "AWS::Logs::LogGroup")
    · rw [if_pos h6]
    rw [if_neg h6]
    by_cases h7 : alGet rkvs "Type" = some (J.str "AWS::S3::Bucket")
    · rw [if_pos h7]
      have hcf : (match alGet (getProps rkvs).1 "BucketName" with
          | none => true
          | some J.null => true
          | some v => ! s3BucketNameUsesSuffix v) = false := by
        unfold s3FireB at h
        dsimp only at h
        rw [h7] at h
        simpa using h
      show (fixS3Bucket lid (getProps rkvs).1 st.params).2.1 = st.params
      unfold fixS3Bucket
      dsimp only
      rw [if_neg (by rw [hcf]; simp)]
    rw [if_neg h7]
    by_cases h8 : alGet rkvs "Type" = some (J.str "AWS::S3::BucketPolicy")
    · rw [if_pos h8]
    rw [if_neg h8]
    by_cases h9 : alGet rkvs "Type" = some (J.str "AWS::CloudFormation::Stack")
    · rw [if_pos h9]
      split
      · split
        · split
          · rfl
          · rfl
        · rfl
      · rfl
    rw [if_neg h9]
  | null => rfl
  | bool b => rfl
  | num n => rfl
  | str s => rfl
  | arr xs => rfl

theorem normResourcesWith_params_of_no_fire (nested : String → String) :
    ∀ (l : List (String × J)) (st : NormSt),
    (∀ kv ∈ l, s3FireB kv.2 = false) →
    (normResourcesWith nested l st).2.params = st.params
  | [], _, _ => rfl
  | (lid, rdef) :: rest, st, h => by
    simp only [normResourcesWith]
    have h1 := normResourceWith_params_of_no_fire nested lid rdef st
      (h (lid, rdef) (List.mem_cons_self _ _))
    rw [normResourcesWith_params_of_no_fire nested rest _
      (fun kv hkv => h kv (List.mem_cons_of_mem _ hkv)), h1]

theorem normResourceWith_params_fire (nested : String → String) (lid : String)
    (rdef : J) (st : NormSt) (h : s3FireB rdef = true) :
    alHas (normResourceWith nested lid rdef st).2.params "BucketNameSuffix" = true := by
  cases rdef with
  | obj rkvs =>
    have h2 : alGet rkvs "Type" = some (J.str "AWS::S3::Bucket") ∧
        (match alGet (getProps rkvs).1 "BucketName" with
         | none => true
         | some J.null => true
         | some v => ! s3BucketNameUsesSuffix v) = true := by
      unfold s3FireB at h
      simpa using h
    unfold normResourceWith
    dsimp only
    rw [h2.1, if_neg (by decide), if_neg (by decide), if_neg (by decide),
      if_neg (by decide), if_neg (by decide), if_neg (by decide), if_pos (by decide)]
    show alHas (fixS3Bucket lid (getProps rkvs).1 st.params).2.1 "BucketNameSuffix" = true
    unfold fixS3Bucket
    dsimp only
    rw [if_pos h2.2]
    exact alHas_suffix_params1 st.params
  | null => exact absurd h (by simp [s3FireB])
  | bool b => exact absurd h (by simp [s3FireB])
  | num n => exact absurd h (by simp [s3FireB])
  | str s => exact absurd h (by simp [s3FireB])
  | arr xs => exact absurd h (by simp [s3FireB])

theorem normResourcesWith_params_has_of_fire (nested : String → String) :
    ∀ (l : List (String × J)) (st : NormSt),
    (∃ kv ∈ l, s3FireB kv.2 = true) →
    alHas (normResourcesWith nested l st).2.params "BucketNameSuffix" = true
  | [], _, h => by simp at h
  | (lid, rdef) :: rest, st, h => by
    simp only [normResourcesWith]
    obtain ⟨kv, hmem, hfire⟩ := h
    rcases List.mem_cons.mp hmem with he | he
    · subst he
      exact normResourcesWith_params_has nested rest _
        (normResourceWith_params_fire nested lid rdef st hfire)
    · exact normResourcesWith_params_has_of_fire nested rest _ ⟨kv, he, hfire⟩

/-- Every rule returns an object with the `Type` entry unchanged. -/
theorem normResourceDoc_obj_shape (nested : String → String) (lid : String)
    (rkvs : List (String × J)) :
    ∃ rkvs2, normResourceDoc nested lid (J.obj rkvs) = J.obj rkvs2 ∧
      alGet rkvs2 "Type" = alGet rkvs "Type" := by
  by_cases h1 : alGet rkvs "Type" = some (J.str "AWS::AutoScaling::ScalingPolicy")
  · exact ⟨_, doc_eval_scaling nested lid rkvs h1, putProps_type _ _ _⟩
  by_cases h2 : alGet rkvs "Type" = some (J.str "AWS::ApiGateway::Stage")
  · exact ⟨_, doc_eval_stage nested lid rkvs h2, putProps_type _ _ _⟩
  by_cases h3 : alGet rkvs "Type" = some (J.str "AWS::CloudFront::Distribution")
  · exact ⟨_, doc_eval_cf nested lid rkvs h3, putProps_type _ _ _⟩
  by_cases h4 : alGet rkvs "Type" = some (J.str "AWS::EC2::Instance")
  · exact ⟨_, doc_eval_ec2 nested lid rkvs h4, putProps_type _ _ _⟩
  by_cases h5 : alGet rkvs "Type" = some (J.str "AWS::ApiGateway::Resource")
  · exact ⟨_, doc_eval_path nested lid rkvs h5, putProps_type _ _ _⟩
  by_cases h6 : alGet rkvs "Type" = some (J.str "AWS::Logs::LogGroup")
  · exact ⟨_, doc_eval_log nested lid rkvs h6, putProps_type _ _ _⟩
  by_cases h7 : alGet rkvs "Type" = some (J.str "AWS::S3::Bucket")
  · exact ⟨_, doc_eval_s3 nested lid rkvs h7, putProps_type _ _ _⟩
  by_cases h8 : alGet rkvs "Type" = some (J.str "AWS::S3::BucketPolicy")
  · exact ⟨_, doc_eval_bp nested lid rkvs h8, putProps_type _ _ _⟩
  by_cases h9 : alGet rkvs "Type" = some (J.str "AWS::CloudFormation::Stack")
  · unfold normResourceDoc normResourceWith
    dsimp only
    rw [h9, if_neg (by decide), if_neg (by decide), if_neg (by decide), if_neg (by decide),
      if_neg (by decide), if_neg (by decide), if_neg (by decide), if_neg (by decide),
      if_pos (by decide)]
    rcases halg : alGet (getProps rkvs).1 "TemplateBody" with _ | v
    · exact ⟨rkvs, rfl, h9⟩
    · cases v with
      | str tb =>
        by_cases ht : sTrim tb ≠ ""
        · by_cases hn : nested tb ≠ tb
          · refine ⟨putProps rkvs (getProps rkvs).2
              (alSet (getProps rkvs).1 "TemplateBody" (J.str (nested tb))), ?_,
              (putProps_type _ _ _).trans h9⟩
            try dsimp only
            rw [if_pos ht]
            try dsimp only
            rw [if_pos hn]
          · refine ⟨rkvs, ?_, h9⟩
            try dsimp only
            rw [if_pos ht]
            try dsimp only
            rw [if_neg hn]
        · refine ⟨rkvs, ?_, h9⟩
          try dsimp only
          rw [if_neg ht]
      | null => exact ⟨rkvs, rfl, h9⟩
      | bool b => exact ⟨rkvs, rfl, h9⟩
      | num n => exact ⟨rkvs, rfl, h9⟩
      | arr xs => exact ⟨rkvs, rfl, h9⟩
      | obj kvs2 => exact ⟨rkvs, rfl, h9⟩
  · exact ⟨rkvs, doc_eval_other nested lid rkvs h1 h2 h3 h4 h5 h6 h7 h8 h9, rfl⟩

/-- A bucket on which the rule does not fire is returned untouched (the
`Properties` write-back is a self-write). -/
theorem normResourceDoc_s3_nofire (nested : String → String) (lid : String)
    (rkvs : List (String × J))
    (hT : alGet rkvs "Type" = some (J.str "AWS::S3::Bucket"))
    (hcf : (match alGet (getProps rkvs).1 "BucketName" with
      | none => true
      | some J.null => true
      | some v => ! s3BucketNameUsesSuffix v) = false) :
    normResourceDoc nested lid (J.obj rkvs) = J.obj rkvs := by
  rcases getProps_cases rkvs with hgp | ⟨props, hgp, hprops, _⟩
  · rw [hgp] at hcf
    exact absurd hcf (by decide)
  · rw [hgp] at hcf
    dsimp only at hcf
    have hfx : (fixS3Bucket lid props []).1 = props := by
      unfold fixS3Bucket
      dsimp only
      rw [if_neg (by rw [hcf]; simp)]
    rw [doc_eval_s3 nested lid rkvs hT, hgp]
    dsimp only
    rw [hfx]
    exact congrArg J.obj (alSet_self_get _ _ _ hprops)

/-- The transform never turns a non-firing resource into a firing one. -/
theorem s3FireB_doc (nested : String → String) (lid : String) (rdef : J)
    (h : s3FireB rdef = false) :
    s3FireB (normResourceDoc nested lid rdef) = false := by
  cases rdef with
  | obj rkvs =>
    by_cases hS3 : alGet rkvs "Type" = some (J.str "AWS::S3::Bucket")
    · have hcf : (match alGet (getProps rkvs).1 "BucketName" with
          | none => true
          | some J.null => true
          | some v => ! s3BucketNameUsesSuffix v) = false := by
        unfold s3FireB at h
        dsimp only at h
        rw [hS3] at h
        simpa using h
      rw [normResourceDoc_s3_nofire nested lid rkvs hS3 hcf]
      exact h
    · obtain ⟨rkvs2, hdoc, hty⟩ := normResourceDoc_obj_shape nested lid rkvs
      rw [hdoc]
      unfold s3FireB
      dsimp only
      rw [hty, decide_eq_false hS3]
      rfl
  | null => exact h
  | bool b => exact h
  | num n => exact h
  | str s => exact h
  | arr xs => exact h

/-- Second application of the resource loop leaves the documents fixed. -/
theorem normResourcesWith_fst_idem (nested : String → String) (rs : List (String × J))
    (hok : ∀ kv ∈ rs, resourceOkB kv.2 = true) (st st2 : NormSt) :
    (normResourcesWith nested (normResourcesWith nested rs st).1 st2).1 =
      (normResourcesWith nested rs st).1 := by
  rw [normResourcesWith_fst, normResourcesWith_fst, List.map_map]
  refine List.map_congr_left ?_
  intro kv hkv
  show (kv.1, normResourceDoc nested kv.1 (normResourceDoc nested kv.1 kv.2)) = _
  rw [normResourceDoc_idem nested kv.1 kv.2 (hok kv hkv)]
  rfl

/-! ## Document-level idempotence -/

/-- Conditions on the whole document: the shape guard of `docShapeOkB`
plus `resourceOkB` for every resource. -/
def templateOkB (kvs : List (String × J)) : Bool :=
  docShapeOkB kvs &&
  (match alGet kvs "Resources" with
   | some (J.obj rs) => rs.all (fun kv => resourceOkB kv.2)
   | _ => true)

/-- Second application of the parse-tree pass on a normalized document:
the rebuild writes back the same `Parameters` and `Resources` values. -/
theorem structuralPassWith_on_built (nested : String → String)
    (kvs1 P1 rs1 : List (String × J))
    (hfst : (normResourcesWith nested rs1 ⟨P1, false⟩).1 = rs1)
    (hpar : (normResourcesWith nested rs1 ⟨P1, false⟩).2.params = P1) :
    (structuralPassWith nested (J.obj (alSet (alSet kvs1 "Parameters" (J.obj P1))
      "Resources" (J.obj rs1)))).1 =
      J.obj (alSet (alSet kvs1 "Parameters" (J.obj P1)) "Resources" (J.obj rs1)) := by
  have hres2 : alGet (alSet (alSet kvs1 "Parameters" (J.obj P1)) "Resources" (J.obj rs1))
      "Resources" = some (J.obj rs1) := alGet_alSet_self _ _ _
  have hpar2 : alGet (alSet (alSet kvs1 "Parameters" (J.obj P1)) "Resources" (J.obj rs1))
      "Parameters" = some (J.obj P1) := by
    rw [alGet_alSet_ne _ "Resources" "Parameters" _ (by decide)]
    exact alGet_alSet_self _ _ _
  have hhas2 : alHas (alSet (alSet kvs1 "Parameters" (J.obj P1)) "Resources" (J.obj rs1))
      "Parameters" = true := by
    unfold alHas
    rw [hpar2]
    rfl
  unfold structuralPassWith
  dsimp only
  rw [hres2]
  simp only [Option.getD_some]
  rw [hpar2]
  dsimp only
  by_cases hch2 : (normResourcesWith nested rs1 ⟨P1, false⟩).2.changed = true
  · rw [if_pos hch2, if_pos hhas2, hpar, hfst]
    rw [alSet_self_get _ _ _ hpar2, alSet_self_get _ _ _ hres2]
  · rw [if_neg hch2]

/-- Idempotence of the parse-tree pass under the document conditions. -/
theorem structuralPassWith_idem (nested : String → String) (kvs : List (String × J))
    (hok : ∀ rs, alGet kvs "Resources" = some (J.obj rs) →
      ∀ kv ∈ rs, resourceOkB kv.2 = true) :
    (structuralPassWith nested (structuralPassWith nested (J.obj kvs)).1).1 =
      (structuralPassWith nested (J.obj kvs)).1 := by
  rcases hres : alGet kvs "Resources" with _ | w
  · have hpass : structuralPassWith nested (J.obj kvs) = (J.obj kvs, false) := by
      unfold structuralPassWith
      dsimp only
      rw [hres]
      simp only [Option.getD_none]
      rw [if_neg (by simp [normResourcesWith])]
    rw [hpass]
    show (structuralPassWith nested (J.obj kvs)).1 = J.obj kvs
    rw [hpass]
  · cases w with
    | obj rs =>
      by_cases hch : (normResourcesWith nested rs
          ⟨(match alGet kvs "Parameters" with
            | some (J.obj ps) => ps
            | _ => []), false⟩).2.changed = true
      · have hpass1 : structuralPassWith nested (J.obj kvs) =
            (J.obj (alSet (alSet (if alHas kvs "Parameters" = true then kvs
                else kvs ++ [("Parameters", J.obj [])]) "Parameters"
                (J.obj (normResourcesWith nested rs
                  ⟨(match alGet kvs "Parameters" with
                    | some (J.obj ps) => ps
                    | _ => []), false⟩).2.params))
              "Resources" (J.obj (normResourcesWith nested rs
                ⟨(match alGet kvs "Parameters" with
                  | some (J.obj ps) => ps
                  | _ => []), false⟩).1)), true) := by
          unfold structuralPassWith
          dsimp only
          rw [hres]
          simp only [Option.getD_some]
          rw [if_pos hch]
        have hfst : (normResourcesWith nested
            (normResourcesWith nested rs
              ⟨(match alGet kvs "Parameters" with
                | some (J.obj ps) => ps
                | _ => []), false⟩).1
            ⟨(normResourcesWith nested rs
              ⟨(match alGet kvs "Parameters" with
                | some (J.obj ps) => ps
                | _ => []), false⟩).2.params, false⟩).1 =
            (normResourcesWith nested rs
              ⟨(match alGet kvs "Parameters" with
                | some (J.obj ps) => ps
                | _ => []), false⟩).1 :=
          normResourcesWith_fst_idem nested rs (hok rs hres) _ _
        have hpar : (normResourcesWith nested
            (normResourcesWith nested rs
              ⟨(match alGet kvs "Parameters" with
                | some (J.obj ps) => ps
                | _ => []), false⟩).1
            ⟨(normResourcesWith nested rs
              ⟨(match alGet kvs "Parameters" with
                | some (J.obj ps) => ps
                | _ => []), false⟩).2.params, false⟩).2.params =
            (normResourcesWith nested rs
              ⟨(match alGet kvs "Parameters" with
                | some (J.obj ps) => ps
                | _ => []), false⟩).2.params := by
          rcases hany : rs.any (fun kv => s3FireB kv.2) with _ | _
          · refine normResourcesWith_params_of_no_fire nested _ _ ?_
            intro kv hkv
            rw [normResourcesWith_fst] at hkv
            obtain ⟨kv0, _, hkv0⟩ := List.mem_map.mp hkv
            rw [← hkv0]
            refine s3FireB_doc nested kv0.1 kv0.2 ?_
            have := List.any_eq_false.mp hany kv0 (by assumption)
            simpa using this
          · obtain ⟨kv, hmem, hfire⟩ := List.any_eq_true.mp hany
            refine normResourcesWith_params_preserved nested _ _ ?_
            exact normResourcesWith_params_has_of_fire nested rs _ ⟨kv, hmem, by simpa using hfire⟩
        rw [hpass1]
        show (structuralPassWith nested (J.obj (alSet (alSet
            (if alHas kvs "Parameters" = true then kvs
             else kvs ++ [("Parameters", J.obj [])]) "Parameters"
            (J.obj (normResourcesWith nested rs
              ⟨(match alGet kvs "Parameters" with
                | some (J.obj ps) => ps
                | _ => []), false⟩).2.params))
          "Resources" (J.obj (normResourcesWith nested rs
            ⟨(match alGet kvs "Parameters" with
              | some (J.obj ps) => ps
              | _ => []), false⟩).1)))).1 = _
        exact structuralPassWith_on_built nested _ _ _ hfst hpar
      · have hpass1 : structuralPassWith nested (J.obj kvs) = (J.obj kvs, false) := by
          unfold structuralPassWith
          dsimp only
          rw [hres]
          simp only [Option.getD_some]
          rw [if_neg hch]
        rw [hpass1]
        show (structuralPassWith nested (J.obj kvs)).1 = J.obj kvs
        rw [hpass1]
    | null =>
      have hpass : structuralPassWith nested (J.obj kvs) = (J.obj kvs, false) := by
        unfold structuralPassWith
        dsimp only
        rw [hres]
        simp only [Option.getD_none]
        rw [if_neg (by simp [normResourcesWith])]
      rw [hpass]
      show (structuralPassWith nested (J.obj kvs)).1 = J.obj kvs
      rw [hpass]
    | bool b =>
      have hpass : structuralPassWith nested (J.obj kvs) = (J.obj kvs, false) := by
        unfold structuralPassWith
        dsimp only
        rw [hres]
        simp only [Option.getD_none]
        rw [if_neg (by simp [normResourcesWith])]
      rw [hpass]
      show (structuralPassWith nested (J.obj kvs)).1 = J.obj kvs
      rw [hpass]
    | num n =>
      have hpass : structuralPassWith nested (J.obj kvs) = (J.obj kvs, false) := by
        unfold structuralPassWith
        dsimp only
        rw [hres]
        simp only [Option.getD_none]
        rw [if_neg (by simp [normResourcesWith])]
      rw [hpass]
      show (structuralPassWith nested (J.obj kvs)).1 = J.obj kvs
      rw [hpass]
    | str s =>
      have hpass : structuralPassWith nested (J.obj kvs) = (J.obj kvs, false) := by
        unfold structuralPassWith
        dsimp only
        rw [hres]
        simp only [Option.getD_none]
        rw [if_neg (by simp [normResourcesWith])]
      rw [hpass]
      show (structuralPassWith nested (J.obj kvs)).1 = J.obj kvs
      rw [hpass]
    | arr xs =>
      have hpass : structuralPassWith nested (J.obj kvs) = (J.obj kvs, false) := by
        unfold structuralPassWith
        dsimp only
        rw [hres]
        simp only [Option.getD_none]
        rw [if_neg (by simp [normResourcesWith])]
      rw [hpass]
      show (structuralPassWith nested (J.obj kvs)).1 = J.obj kvs
      rw [hpass]

/-! ## C2: idempotence of the normalization pass -/

def c2CexDoc : J :=
  J.obj [("Resources", J.obj [("SP", J.obj
    [("Type", J.str "AWS::AutoScaling::ScalingPolicy"),
     ("Properties", J.obj [("EstimatedWarmupSeconds", J.num 60),
                           ("Estimated_Warmup_Seconds", J.num 120)])])])]

/-- C2 counterexample: a scaling policy with two spellings of the warmup
alias.  Each pass renames exactly one alias key (the loop `break`s after
the first), so the first pass yields `Estimated_Warmup_Seconds: 120,
EstimatedInstanceWarmupSeconds: 60` and the second pass rewrites again:
`normalize(normalize(doc)) ≠ normalize(doc)`. -/
theorem normalize_idempotent_cex :
    normalizeTemplateJson 9 (normalizeTemplateJson 9 c2CexDoc) ≠
      normalizeTemplateJson 9 c2CexDoc := by decide


def c2WKvs : List (String × J) :=
  [("Resources", J.obj [("Logs", J.obj
    [("Type", J.str "AWS::Logs::LogGroup"),
     ("Properties", J.obj [("LogGroupName", J.str "mylogs")])])])]


/-- C9 witness: the amended theorem applied to a concrete document whose
bucket has `Properties: \x7bBucketName: "my-bucket"\x7d`. -/
theorem bucket_suffix_amended_witness :
    ∃ kvsOut rsOut psOut,
      normalizeTemplateJson 3 (J.obj c9WKvs) = J.obj kvsOut ∧
      alGet kvsOut "Resources" = some (J.obj rsOut) ∧
      alGet rsOut "MyBucket" = some (J.obj (alSet c9WRkvs "Properties"
        (J.obj (alSet c9WProps "BucketName"
        (J.obj [("Fn::Sub", J.str ("app-$\x7bAWS::AccountId\x7d-$\x7bBucketNameSuffix\x7d-" ++
          sTake (sReplace (sLower "MyBucket") "_" "-") 40))]))))) ∧
      alGet kvsOut "Parameters" = some (J.obj psOut) ∧
      alHas psOut "BucketNameSuffix" = true :=
  bucket_suffix_amended 3 c9WKvs c9WRs c9WRkvs c9WProps "MyBucket"
    (by decide) rfl rfl rfl rfl (by decide)
    (fun v hv => by
      have h2 : some (J.str "my-bucket") = some v := hv
      injection h2 with h3
      subst h3
      decide)
    (by decide)


/-! ## Text-level model of `_normalize_cfn_template_for_provision`.

The function is modelled on the raw template string, covering all four
phases of the source: the string-level S3 fallback, the JSON structural
path (whose exceptions return the input text), the YAML
`ScaleInCooldown`/`ScaleOutCooldown` line removal, and the YAML
structural phase, with the genuine recursion into nested
`AWS::CloudFormation::Stack` `TemplateBody` strings (fuel bounds the
nesting depth).  The two external libraries the source calls —
`json.loads`/`json.dumps` and `yaml.safe_load`/`yaml.dump` — are not part
of this repository; they enter the model as explicit components
(`JsonLib`, `YamlLib`, with `none` modelling a raised exception), and the
round-trip facts the source relies on (`loads(dumps(doc)) == doc`, a
dumped dict starts with `\x7b` for JSON and does not for YAML block
style, a dumped dict without cooldown keys has no cooldown-prefixed
lines) appear as hypotheses instantiated at the concrete values of each
run.  Exception behaviour is modelled exactly: a raise inside the JSON
phase reaches the outermost `except` and returns the (fallback-mutated)
input text; a raise inside the YAML phase is swallowed by the inner
`except` and returns the line-filtered text. -/

structure JsonLib where
  loads : String → Option J
  dumps2 : J → String

structure YamlLib where
  safe_load : String → Option J
  dump : J → String

/-- Python `template_body.strip().startswith('\x7b')`. -/
def braceStartB (s : String) : Bool :=
  lcIsPre ['\x7b'] (lcDropWs s.data)

/-- Python `key in container` for a parsed value: key membership on a
dict, substring on a string, element equality on a list; `none` models
the `TypeError` raised on a number, boolean or `None`. -/
def pyInB (k : String) : J → Option Bool
  | J.obj kvs => some (alHas kvs k)
  | J.str s => some (strContains s k)
  | J.arr xs => some (decide (J.str k ∈ xs))
  | _ => none

/-- The string-level S3 fallback phase (lines 179–194 of the source) on
the raw text: rewrite the first matching `$\x7bAWS::AccountId\x7d-<marker>`
occurrence everywhere, then best-effort re-parse and declare the
`BucketNameSuffix` parameter (its inner `try` swallows every failure:
parse failure, a non-dict document, a non-dict `Parameters` — all leave
the replaced text as is). -/
def s3FallbackText (jl : JsonLib) (yl : YamlLib) (tb : String) : String :=
  if strContains tb "S3::Bucket" ∧ ¬ strContains tb "BucketNameSuffix" ∧
      ¬ strContains tb "$\x7bBucketNameSuffix\x7d" then
    match bucketMarkers.find? (fun sfx => strContains tb ("$\x7bAWS::AccountId\x7d-" ++ sfx)) with
    | some sfx =>
      let old := "$\x7bAWS::AccountId\x7d-" ++ sfx
      let nw := "$\x7bAWS::AccountId\x7d-$\x7bBucketNameSuffix\x7d-" ++ sfx
      let tb1 := sReplace tb old nw
      let isJ := braceStartB tb1
      match (if isJ then jl.loads tb1 else yl.safe_load tb1) with
      | some (J.obj kvs) =>
        match alGet kvs "Parameters" with
        | none =>
          let d1 := J.obj (kvs ++ [("Parameters",
            J.obj [("BucketNameSuffix", bucketSuffixParamSpec)])])
          if isJ then jl.dumps2 d1 else yl.dump d1
        | some (J.obj ps) =>
          if alHas ps "BucketNameSuffix" then tb1
          else
            let d1 := J.obj (alSet kvs "Parameters"
              (J.obj (alSet ps "BucketNameSuffix" bucketSuffixParamSpec)))
            if isJ then jl.dumps2 d1 else yl.dump d1
        | some _ => tb1
      | _ => tb1
    | none => tb
  else tb

/-- `props = rdef.get('Properties') or \x7b\x7d` with its aliasing: a
non-empty dict is the resource's own (`objP props true`), an absent or
falsy value yields a detached empty dict (`objP [] false`), and a truthy
non-dict value is kept raw (`rawP`) — the rules then raise or skip on it
exactly as the Python attribute/item accesses would. -/
inductive PropsView where
  | objP (props : List (String × J)) (shared : Bool)
  | rawP (v : J)

def getPropsV (rkvs : List (String × J)) : PropsView :=
  match alGet rkvs "Properties" with
  | some (J.obj kvs) => if kvs.isEmpty then .objP [] false else .objP kvs true
  | some v => if jTruthy v then .rawP v else .objP [] false
  | none => .objP [] false

/-- Raise analysis for the `AWS::ApiGateway::Stage` rule on a truthy
non-dict `props`: `'LoggingLevel' in props` succeeds on a string
(substring) or list (membership) and the subsequent `del` raises; on a
number or boolean the `in` itself raises. -/
def stageRawRaiseB : J → Bool
  | J.str s => strContains s "LoggingLevel" || strContains s "DataTraceEnabled"
  | J.arr xs => decide (J.str "LoggingLevel" ∈ xs) || decide (J.str "DataTraceEnabled" ∈ xs)
  | _ => true

/-- Raise analysis for the YAML-phase `AWS::AutoScaling::ScalingPolicy`
rule on a truthy non-dict `props`: iterating a string yields length-1
keys that never match the alias, so the loop completes without raising;
a list is safe only when every element is a non-matching string; numbers
and booleans raise on `list(props)`. -/
def scalingRawOkB : J → Bool
  | J.str _ => true
  | J.arr xs => xs.all (fun e => match e with
      | J.str s => ! decide (normKey s = "estimatedwarmupseconds")
      | _ => false)
  | _ => false

/-- The CloudFront rule raises only at `for cb in dist_cfg.get('CacheBehaviors') or []`
when that value is a truthy number or boolean (not iterable); strings
and dicts iterate harmlessly and lists are handled. -/
def cfRaiseB (props : List (String × J)) : Bool :=
  match alGet props "DistributionConfig" with
  | some (J.obj dc) =>
    match alGet dc "CacheBehaviors" with
    | some (J.num n) => decide (n ≠ 0)
    | some (J.bool b) => b
    | _ => false
  | _ => false

/-- `AWS::CloudFront::Distribution` rule with its raise case. -/
def fixCloudFrontE (props : List (String × J)) : Option (List (String × J) × Bool) :=
  if cfRaiseB props then none else some (fixCloudFront props)

/-- The `Fn::Sub` bucket name written by the S3 rule. -/
def s3NameVal (lid : String) : J :=
  J.obj [("Fn::Sub", J.str ("app-$\x7bAWS::AccountId\x7d-$\x7bBucketNameSuffix\x7d-" ++
    sTake (sReplace (sLower lid) "_" "-") 40))]

/-- The S3 renaming condition (`bucket_name is None or not uses_suffix`). -/
def s3CondB (props : List (String × J)) : Bool :=
  match alGet props "BucketName" with
  | none => true
  | some J.null => true
  | some v => ! s3BucketNameUsesSuffix v

/-- `AWS::S3::Bucket` rule against a `Parameters` value of any shape:
the `BucketName` write always happens first; `'BucketNameSuffix' not in params`
then raises on a non-iterable `params` (and the insert raises on any
non-dict), which discards the whole document. -/
def fixS3BucketE (lid : String) (props : List (String × J)) (pv : J) :
    Option (List (String × J) × J × Bool) :=
  if s3CondB props then
    match pyInB "BucketNameSuffix" pv with
    | none => none
    | some true => some (alSet props "BucketName" (s3NameVal lid), pv, true)
    | some false =>
      match pv with
      | J.obj ps =>
        some (alSet props "BucketName" (s3NameVal lid),
          J.obj (alSet ps "BucketNameSuffix" bucketSuffixParamSpec), true)
      | _ => none
  else some (props, pv, false)

/-- `AWS::S3::BucketPolicy` rule with the `json.loads` component passed
in (the source calls the same library on `PolicyText` strings). -/
def fixBucketPolicyL (ld : String → Option J) (props : List (String × J)) :
    List (String × J) × Bool :=
  match alGet props "PolicyText" with
  | none => (props, false)
  | some J.null => (alErase props "PolicyText", false)
  | some pt =>
    let pE := alErase props "PolicyText"
    if alHas pE "PolicyDocument" then (pE, false)
    else
      let pd : J :=
        match pt with
        | J.str s =>
          match ld s with
          | some d => d
          | none => J.str s
        | other => other
      (alSet pE "PolicyDocument" pd, true)

/-- The alias-renaming loop alone (the YAML-phase `ScalingPolicy` rule,
lines 352–357: no cooldown stripping there). -/
def fixScalingAlias (props : List (String × J)) : List (String × J) × Bool :=
  match props.find? (fun kv => normKey kv.1 = "estimatedwarmupseconds") with
  | some kv => (alSet (alErase props kv.1) "EstimatedInstanceWarmupSeconds" kv.2, true)
  | none => (props, false)

/-- One resource of the JSON structural phase, raise-aware (`none` means
the Python loop body raised; the outermost `except` then returns the
input text).  `nt` is the recursive normalization for nested stack
bodies, `ld` the `json.loads` component, `pv` the live `Parameters`
value. -/
def normResourceE (nt : String → String) (ld : String → Option J) (lid : String)
    (rdef : J) (pv : J) : Option (J × J × Bool) :=
  match rdef with
  | .obj rkvs =>
    match getPropsV rkvs with
    | .objP props shared =>
      if alGet rkvs "Type" = some (J.str "AWS::AutoScaling::ScalingPolicy") then
        let r := fixScalingPolicy props
        some (.obj (putProps rkvs shared r.1), pv, r.2)
      else if alGet rkvs "Type" = some (J.str "AWS::ApiGateway::Stage") then
        let r := fixApiStage props
        some (.obj (putProps rkvs shared r.1), pv, r.2)
      else if alGet rkvs "Type" = some (J.str "AWS::CloudFront::Distribution") then
        match fixCloudFrontE props with
        | none => none
        | some r => some (.obj (putProps rkvs shared r.1), pv, r.2)
      else if alGet rkvs "Type" = some (J.str "AWS::EC2::Instance") then
        let r := fixEc2Instance props
        some (.obj (putProps rkvs shared r.1), pv, r.2)
      else if alGet rkvs "Type" = some (J.str "AWS::ApiGateway::Resource") then
        let r := fixPathPart props
        some (.obj (putProps rkvs shared r.1), pv, r.2)
      else if alGet rkvs "Type" = some (J.str "AWS::Logs::LogGroup") then
        let r := fixLogGroup props
        some (.obj (putProps rkvs shared r.1), pv, r.2)
      else if alGet rkvs "Type" = some (J.str "AWS::S3::Bucket") then
        match fixS3BucketE lid props pv with
        | none => none
        | some r => some (.obj (putProps rkvs shared r.1), r.2.1, r.2.2)
      else if alGet rkvs "Type" = some (J.str "AWS::S3::BucketPolicy") then
        let r := fixBucketPolicyL ld props
        some (.obj (putProps rkvs shared r.1), pv, r.2)
      else if alGet rkvs "Type" = some (J.str "AWS::CloudFormation::Stack") then
        match alGet props "TemplateBody" with
        | some (J.str tb) =>
          if sTrim tb ≠ "" then
            if nt tb ≠ tb then
              some (.obj (putProps rkvs shared
                (alSet props "TemplateBody" (J.str (nt tb)))), pv, true)
            else some (.obj rkvs, pv, false)
          else some (.obj rkvs, pv, false)
        | _ => some (.obj rkvs, pv, false)
      else some (.obj rkvs, pv, false)
    | .rawP v =>
      if alGet rkvs "Type" = some (J.str "AWS::AutoScaling::ScalingPolicy") then none
      else if alGet rkvs "Type" = some (J.str "AWS::ApiGateway::Stage") then
        if stageRawRaiseB v then none else some (.obj rkvs, pv, false)
      else if alGet rkvs "Type" = some (J.str "AWS::CloudFront::Distribution") then none
      else if alGet rkvs "Type" = some (J.str "AWS::EC2::Instance") then none
      else if alGet rkvs "Type" = some (J.str "AWS::ApiGateway::Resource") then none
      else if alGet rkvs "Type" = some (J.str "AWS::Logs::LogGroup") then none
      else if alGet rkvs "Type" = some (J.str "AWS::S3::Bucket") then none
      else if alGet rkvs "Type" = some (J.str "AWS::S3::BucketPolicy") then none
      else if alGet rkvs "Type" = some (J.str "AWS::CloudFormation::Stack") then none
      else some (.obj rkvs, pv, false)
  | other => some (other, pv, false)

def normResourcesE (nt : String → String) (ld : String → Option J) :
    List (String × J) → J → Option (List (String × J) × J × Bool)
  | [], pv => some ([], pv, false)
  | (lid, rdef) :: rest, pv =>
    match normResourceE nt ld lid rdef pv with
    | none => none
    | some r =>
      match normResourcesE nt ld rest r.2.1 with
      | none => none
      | some rr => some ((lid, r.1) :: rr.1, rr.2.1, r.2.2 || rr.2.2)

/-- `resources = doc.get('Resources') or \x7b\x7d`, then `.items()`:
an absent or falsy value iterates nothing (detached), a truthy dict is
shared, and a truthy non-dict raises at `.items()`. -/
def resView : Option J → Option (List (String × J) × Bool)
  | none => some ([], false)
  | some v =>
    if jTruthy v then
      match v with
      | J.obj rs => some (rs, true)
      | _ => none
    else some ([], false)

/-- The JSON structural phase on a parsed top-level dict: iterate the
rules, materialising `setdefault('Parameters', \x7b\x7d)` and the final
`Resources`/`Parameters` values only when some rule reported a change. -/
def structuralPassE (nt : String → String) (ld : String → Option J)
    (kvs : List (String × J)) : Option (List (String × J) × Bool) :=
  match resView (alGet kvs "Resources") with
  | none => none
  | some rv =>
    let kvs1 := if alHas kvs "Parameters" then kvs else kvs ++ [("Parameters", J.obj [])]
    let pv := (alGet kvs1 "Parameters").getD (J.obj [])
    match normResourcesE nt ld rv.1 pv with
    | none => none
    | some r =>
      if r.2.2 then
        let kvs2 := alSet kvs1 "Parameters" r.2.1
        some (if rv.2 then alSet kvs2 "Resources" (J.obj r.1) else kvs2, true)
      else some (kvs, false)

/-- One resource of the YAML structural phase (the rule subset of lines
347–383: log group, scaling alias, S3 bucket, bucket policy, nested
stack). -/
def normResourceYE (nt : String → String) (ld : String → Option J) (lid : String)
    (rdef : J) (pv : J) : Option (J × J × Bool) :=
  match rdef with
  | .obj rkvs =>
    match getPropsV rkvs with
    | .objP props shared =>
      if alGet rkvs "Type" = some (J.str "AWS::Logs::LogGroup") then
        let r := fixLogGroup props
        some (.obj (putProps rkvs shared r.1), pv, r.2)
      else if alGet rkvs "Type" = some (J.str "AWS::AutoScaling::ScalingPolicy") then
        let r := fixScalingAlias props
        some (.obj (putProps rkvs shared r.1), pv, r.2)
      else if alGet rkvs "Type" = some (J.str "AWS::S3::Bucket") then
        match fixS3BucketE lid props pv with
        | none => none
        | some r => some (.obj (putProps rkvs shared r.1), r.2.1, r.2.2)
      else if alGet rkvs "Type" = some (J.str "AWS::S3::BucketPolicy") then
        let r := fixBucketPolicyL ld props
        some (.obj (putProps rkvs shared r.1), pv, r.2)
      else if alGet rkvs "Type" = some (J.str "AWS::CloudFormation::Stack") then
        match alGet props "TemplateBody" with
        | some (J.str tb) =>
          if sTrim tb ≠ "" then
            if nt tb ≠ tb then
              some (.obj (putProps rkvs shared
                (alSet props "TemplateBody" (J.str (nt tb)))), pv, true)
            else some (.obj rkvs, pv, false)
          else some (.obj rkvs, pv, false)
        | _ => some (.obj rkvs, pv, false)
      else some (.obj rkvs, pv, false)
    | .rawP v =>
      if alGet rkvs "Type" = some (J.str "AWS::Logs::LogGroup") then none
      else if alGet rkvs "Type" = some (J.str "AWS::AutoScaling::ScalingPolicy") then
        if scalingRawOkB v then some (.obj rkvs, pv, false) else none
      else if alGet rkvs "Type" = some (J.str "AWS::S3::Bucket") then none
      else if alGet rkvs "Type" = some (J.str "AWS::S3::BucketPolicy") then none
      else if alGet rkvs "Type" = some (J.str "AWS::CloudFormation::Stack") then none
      else some (.obj rkvs, pv, false)
  | other => some (other, pv, false)

def normResourcesYE (nt : String → String) (ld : String → Option J) :
    List (String × J) → J → Option (List (String × J) × J × Bool)
  | [], pv => some ([], pv, false)
  | (lid, rdef) :: rest, pv =>
    match normResourceYE nt ld lid rdef pv with
    | none => none
    | some r =>
      match normResourcesYE nt ld rest r.2.1 with
      | none => none
      | some rr => some ((lid, r.1) :: rr.1, rr.2.1, r.2.2 || rr.2.2)

/-- The YAML structural phase on a parsed top-level dict. -/
def yamlPassE (nt : String → String) (ld : String → Option J)
    (kvs : List (String × J)) : Option (List (String × J) × Bool) :=
  match resView (alGet kvs "Resources") with
  | none => none
  | some rv =>
    let kvs1 := if alHas kvs "Parameters" then kvs else kvs ++ [("Parameters", J.obj [])]
    let pv := (alGet kvs1 "Parameters").getD (J.obj [])
    match normResourcesYE nt ld rv.1 pv with
    | none => none
    | some r =>
      if r.2.2 then
        let kvs2 := alSet kvs1 "Parameters" r.2.1
        some (if rv.2 then alSet kvs2 "Resources" (J.obj r.1) else kvs2, true)
      else some (kvs, false)

/-! Python `str.splitlines` and the cooldown line-removal loop. -/

def isLineBreak (c : Char) : Bool :=
  c = '\n' || c = '\x0d' || c = '\x0b' || c = '\x0c' ||
  c = '\x1c' || c = '\x1d' || c = '\x1e' || c = '\x85' || c = '\u2028' || c = '\u2029'

def splitLinesGo : List Char → List Char → List String
  | [], acc => if acc.isEmpty then [] else [String.mk acc.reverse]
  | [c], acc =>
    if isLineBreak c then [String.mk acc.reverse]
    else [String.mk (c :: acc).reverse]
  | c :: c2 :: rest, acc =>
    if c = '\x0d' then
      if c2 = '\n' then String.mk acc.reverse :: splitLinesGo rest []
      else String.mk acc.reverse :: splitLinesGo (c2 :: rest) []
    else if isLineBreak c then String.mk acc.reverse :: splitLinesGo (c2 :: rest) []
    else splitLinesGo (c2 :: rest) (c :: acc)

def splitLines (s : String) : List String :=
  splitLinesGo s.data []

/-- `len(line) - len(line.lstrip())`. -/
def lineIndent (l : String) : Nat :=
  l.data.length - (lcDropWs l.data).length

/-- `stripped.startswith('ScaleInCooldown:') or stripped.startswith('ScaleOutCooldown:')`. -/
def scaleLineB (l : String) : Bool :=
  lcIsPre "ScaleInCooldown:".data (sTrim l).data ||
  lcIsPre "ScaleOutCooldown:".data (sTrim l).data

/-- The `while i < len(lines)` loop: drop each cooldown line, and also
its immediate successor when that is more indented and non-blank. -/
def removeScaleGo : List String → List String × Bool
  | [] => ([], false)
  | [l] => if scaleLineB l then ([], true) else ([l], false)
  | l :: l2 :: rest =>
    if scaleLineB l then
      if lineIndent l2 > lineIndent l ∧ sTrim l2 ≠ "" then
        ((removeScaleGo rest).1, true)
      else ((removeScaleGo (l2 :: rest)).1, true)
    else
      let r := removeScaleGo (l2 :: rest)
      (l :: r.1, r.2)

/-- The JSON structural path from the parsed document to the returned
text: a raise (`none` anywhere) reaches the outer `except`, which
returns the input text. -/
def jsonPhase (nt : String → String) (ld : String → Option J) (dp : J → String)
    (tb1 : String) : String :=
  match ld tb1 with
  | some (J.obj kvs) =>
    match structuralPassE nt ld kvs with
    | some (kvsOut, true) => dp (J.obj kvsOut)
    | some (_, false) => tb1
    | none => tb1
  | _ => tb1

/-- The YAML path: cooldown line removal, then the best-effort
structural phase (its raises are swallowed, returning the line-filtered
text). -/
def yamlPhase (nt : String → String) (ld : String → Option J) (yl : YamlLib)
    (tb1 : String) : String :=
  let pc := removeScaleGo (splitLines tb1)
  let result := if pc.2 then sJoin "\n" pc.1 else tb1
  match yl.safe_load result with
  | some (J.obj kvs) =>
    match yamlPassE nt ld kvs with
    | some (kvsOut, true) => yl.dump (J.obj kvsOut)
    | _ => result
  | _ => result

/-- `_normalize_cfn_template_for_provision` on the raw template text,
all phases, with genuine recursion into nested stack bodies (`fuel`
bounds the nesting depth; at fuel 0 the model is the identity). -/
def normalizeTemplateText (jl : JsonLib) (yl : YamlLib) : Nat → String → String
  | 0, tb => tb
  | fuel + 1, tb =>
    let tb1 := s3FallbackText jl yl tb
    if braceStartB tb1 then
      jsonPhase (normalizeTemplateText jl yl fuel) jl.loads jl.dumps2 tb1
    else
      yamlPhase (normalizeTemplateText jl yl fuel) jl.loads yl tb1

/-! ## The stability conditions under which the pass is idempotent. -/

/-- Per-resource conditions used by the second-pass argument: a scaling
policy carries at most one alias spelling, and a nested stack body is
itself recursively stable. -/
def resourceChecksB (ntOk : String → Bool) (rs : List (String × J)) : Bool :=
  rs.all (fun lr =>
    match lr.2 with
    | J.obj rkvs =>
      match getPropsV rkvs with
      | .objP props _ =>
        (if alGet rkvs "Type" = some (J.str "AWS::AutoScaling::ScalingPolicy")
         then scalingAliasOkB props else true) &&
        (if alGet rkvs "Type" = some (J.str "AWS::CloudFormation::Stack") then
           match alGet props "TemplateBody" with
           | some (J.str tb) => if sTrim tb ≠ "" then ntOk tb else true
           | _ => true
         else true)
      | .rawP _ => true
    | _ => true)

def resourcesOf (kvs : List (String × J)) : List (String × J) :=
  match resView (alGet kvs "Resources") with
  | some rv => rv.1
  | none => []

/-- The run conditions under which normalization is idempotent, computed
along the run itself: (1) the fallback phase is inert on the normalized
output; and when a structural phase actually re-serialized the document,
(2) the per-resource alias/nesting conditions hold, (3) the library
round-trip facts hold at the re-serialized document (always true of
Python's `json`/`yaml`), (4) the re-serialized text stays on its own
path (starts with `\x7b` for JSON; for YAML it does not, and carries no
cooldown-prefixed lines the removal loop would strip), and (5) when only
the line-removal changed the text, the result does not switch to the
JSON path.  Every run whose phases raise or report no change needs no
condition beyond (1). -/
def normStableB (jl : JsonLib) (yl : YamlLib) : Nat → String → Bool
  | 0, _ => true
  | fuel + 1, tb =>
    let nt := normalizeTemplateText jl yl fuel
    let t1 := normalizeTemplateText jl yl (fuel + 1) tb
    let tb1 := s3FallbackText jl yl tb
    decide (s3FallbackText jl yl t1 = t1) &&
    (if braceStartB tb1 then
      match jl.loads tb1 with
      | some (J.obj kvs) =>
        match structuralPassE nt jl.loads kvs with
        | some (kvsOut, true) =>
          resourceChecksB (fun s => normStableB jl yl fuel s) (resourcesOf kvs) &&
          decide (jl.loads (jl.dumps2 (J.obj kvsOut)) = some (J.obj kvsOut)) &&
          braceStartB (jl.dumps2 (J.obj kvsOut))
        | _ => true
      | _ => true
    else
      let pc := removeScaleGo (splitLines tb1)
      let result := if pc.2 then sJoin "\n" pc.1 else tb1
      match yl.safe_load result with
      | some (J.obj kvs) =>
        match yamlPassE nt jl.loads kvs with
        | some (kvsOut, true) =>
          resourceChecksB (fun s => normStableB jl yl fuel s) (resourcesOf kvs) &&
          decide (yl.safe_load (yl.dump (J.obj kvsOut)) = some (J.obj kvsOut)) &&
          !(braceStartB (yl.dump (J.obj kvsOut))) &&
          !((removeScaleGo (splitLines (yl.dump (J.obj kvsOut)))).2)
        | _ => !(braceStartB result)
      | _ => !(braceStartB result))

/-! ## Small helpers for the stability development -/

theorem alSet_ne_nil {α : Type} (l : List (String × α)) (k : String) (v : α) :
    alSet l k v ≠ [] := by
  cases l with
  | nil => simp [alSet]
  | cons hd tl =>
    unfold alSet
    split
    · simp
    · simp

theorem getPropsV_false_nil (rkvs : List (String × J)) (props : List (String × J))
    (h : getPropsV rkvs = .objP props false) : props = [] := by
  unfold getPropsV at h
  rcases hg : alGet rkvs "Properties" with _ | v
  · rw [hg] at h
    injection h with h1 _
    exact h1.symm
  · rw [hg] at h
    cases v with
    | obj kvs2 =>
      dsimp only at h
      by_cases he : kvs2.isEmpty = true
      · rw [if_pos he] at h
        injection h with h1 _
        exact h1.symm
      · rw [if_neg he] at h
        injection h with _ h2
        exact absurd h2.symm (by decide)
    | null => injection h with h1 _; exact h1.symm
    | bool b =>
      dsimp only at h
      by_cases ht : jTruthy (J.bool b) = true
      · rw [if_pos ht] at h; cases h
      · rw [if_neg ht] at h; injection h with h1 _; exact h1.symm
    | num n =>
      dsimp only at h
      by_cases ht : jTruthy (J.num n) = true
      · rw [if_pos ht] at h; cases h
      · rw [if_neg ht] at h; injection h with h1 _; exact h1.symm
    | str s =>
      dsimp only at h
      by_cases ht : jTruthy (J.str s) = true
      · rw [if_pos ht] at h; cases h
      · rw [if_neg ht] at h; injection h with h1 _; exact h1.symm
    | arr xs =>
      dsimp only at h
      by_cases ht : jTruthy (J.arr xs) = true
      · rw [if_pos ht] at h; cases h
      · rw [if_neg ht] at h; injection h with h1 _; exact h1.symm

theorem getPropsV_true_get (rkvs : List (String × J)) (props : List (String × J))
    (h : getPropsV rkvs = .objP props true) :
    alGet rkvs "Properties" = some (J.obj props) ∧ props.isEmpty = false := by
  unfold getPropsV at h
  rcases hg : alGet rkvs "Properties" with _ | v
  · rw [hg] at h
    cases h
  · rw [hg] at h
    cases v with
    | obj kvs2 =>
      dsimp only at h
      by_cases he : kvs2.isEmpty = true
      · rw [if_pos he] at h; cases h
      · rw [if_neg he] at h
        injection h with h1 _
        refine ⟨?_, ?_⟩
        · rw [← h1]
        · rw [← h1]
          simpa using he
    | null => cases h
    | bool b =>
      dsimp only at h
      by_cases ht : jTruthy (J.bool b) = true
      · rw [if_pos ht] at h; cases h
      · rw [if_neg ht] at h; cases h
    | num n =>
      dsimp only at h
      by_cases ht : jTruthy (J.num n) = true
      · rw [if_pos ht] at h; cases h
      · rw [if_neg ht] at h; cases h
    | str s =>
      dsimp only at h
      by_cases ht : jTruthy (J.str s) = true
      · rw [if_pos ht] at h; cases h
      · rw [if_neg ht] at h; cases h
    | arr xs =>
      dsimp only at h
      by_cases ht : jTruthy (J.arr xs) = true
      · rw [if_pos ht] at h; cases h
      · rw [if_neg ht] at h; cases h

theorem getPropsV_alSet_props (rkvs p : List (String × J)) :
    getPropsV (alSet rkvs "Properties" (J.obj p)) =
      (if p.isEmpty then .objP [] false else .objP p true) := by
  unfold getPropsV
  rw [alGet_alSet_self]

theorem pyInB_alSet_self (ps : List (String × J)) (k : String) (v : J) :
    pyInB k (J.obj (alSet ps k v)) = some true := by
  unfold pyInB
  dsimp only
  rw [alHas_alSet_self]

theorem putProps_false (rkvs props : List (String × J)) :
    putProps rkvs false props = rkvs := rfl

theorem putProps_true (rkvs props : List (String × J)) :
    putProps rkvs true props = alSet rkvs "Properties" (J.obj props) := rfl

/-! ## Line-removal phase: the filtered text carries no cooldown lines -/

theorem mem_removeScaleGo : ∀ (ls : List String) (l : String),
    l ∈ (removeScaleGo ls).1 → l ∈ ls ∧ scaleLineB l = false
  | [], l, h => by simp [removeScaleGo] at h
  | [l0], l, h => by
    unfold removeScaleGo at h
    by_cases hs : scaleLineB l0 = true
    · rw [if_pos hs] at h
      simp at h
    · rw [if_neg hs] at h
      simp only [List.mem_singleton] at h
      subst h
      exact ⟨List.mem_singleton.mpr rfl, by simpa using hs⟩
  | l0 :: l2 :: rest, l, h => by
    unfold removeScaleGo at h
    by_cases hs : scaleLineB l0 = true
    · rw [if_pos hs] at h
      by_cases hskip : lineIndent l2 > lineIndent l0 ∧ sTrim l2 ≠ ""
      · rw [if_pos hskip] at h
        dsimp only at h
        obtain ⟨h1, h2⟩ := mem_removeScaleGo rest l h
        exact ⟨List.mem_cons_of_mem _ (List.mem_cons_of_mem _ h1), h2⟩
      · rw [if_neg hskip] at h
        dsimp only at h
        obtain ⟨h1, h2⟩ := mem_removeScaleGo (l2 :: rest) l h
        exact ⟨List.mem_cons_of_mem _ h1, h2⟩
    · rw [if_neg hs] at h
      dsimp only at h
      rcases List.mem_cons.mp h with he | he
      · subst he
        exact ⟨List.mem_cons_self _ _, by simpa using hs⟩
      · obtain ⟨h1, h2⟩ := mem_removeScaleGo (l2 :: rest) l he
        exact ⟨List.mem_cons_of_mem _ h1, h2⟩

theorem removeScaleGo_of_no_scale : ∀ (ls : List String),
    (∀ l ∈ ls, scaleLineB l = false) → removeScaleGo ls = (ls, false)
  | [], _ => rfl
  | [l0], h => by
    unfold removeScaleGo
    rw [if_neg (by rw [h l0 (List.mem_singleton.mpr rfl)]; simp)]
  | l0 :: l2 :: rest, h => by
    unfold removeScaleGo
    rw [if_neg (by rw [h l0 (List.mem_cons_self _ _)]; simp)]
    dsimp only
    rw [removeScaleGo_of_no_scale (l2 :: rest)
      (fun l hl => h l (List.mem_cons_of_mem _ hl))]

theorem mem_splitLinesGo : ∀ (cs acc : List Char) (l : String),
    (∀ c ∈ acc, isLineBreak c = false) →
    l ∈ splitLinesGo cs acc → ∀ c ∈ l.data, isLineBreak c = false
  | [], acc, l, hacc, h => by
    unfold splitLinesGo at h
    by_cases he : acc.isEmpty = true
    · rw [if_pos he] at h
      simp at h
    · rw [if_neg he] at h
      simp only [List.mem_singleton] at h
      subst h
      intro c hc
      exact hacc c (by simpa using hc)
  | [c0], acc, l, hacc, h => by
    unfold splitLinesGo at h
    by_cases hb : isLineBreak c0 = true
    · rw [if_pos hb] at h
      simp only [List.mem_singleton] at h
      subst h
      intro c hc
      exact hacc c (by simpa using hc)
    · rw [if_neg hb] at h
      simp only [List.mem_singleton] at h
      subst h
      intro c hc
      simp only [String.data] at hc
      rw [List.mem_reverse] at hc
      rcases List.mem_cons.mp hc with he | he
      · subst he
        simpa using hb
      · exact hacc c he
  | c0 :: c1 :: rest, acc, l, hacc, h => by
    unfold splitLinesGo at h
    by_cases hcr : c0 = '\x0d'
    · rw [if_pos hcr] at h
      by_cases hcn : c1 = '\n'
      · rw [if_pos hcn] at h
        rcases List.mem_cons.mp h with he | he
        · subst he
          intro c hc
          simp only [String.data] at hc
          rw [List.mem_reverse] at hc
          exact hacc c hc
        · exact mem_splitLinesGo rest [] l (by simp) he
      · rw [if_neg hcn] at h
        rcases List.mem_cons.mp h with he | he
        · subst he
          intro c hc
          simp only [String.data] at hc
          rw [List.mem_reverse] at hc
          exact hacc c hc
        · exact mem_splitLinesGo (c1 :: rest) [] l (by simp) he
    · rw [if_neg hcr] at h
      by_cases hb : isLineBreak c0 = true
      · rw [if_pos hb] at h
        rcases List.mem_cons.mp h with he | he
        · subst he
          intro c hc
          simp only [String.data] at hc
          rw [List.mem_reverse] at hc
          exact hacc c hc
        · exact mem_splitLinesGo (c1 :: rest) [] l (by simp) he
      · rw [if_neg hb] at h
        refine mem_splitLinesGo (c1 :: rest) (c0 :: acc) l ?_ h
        intro c hc
        rcases List.mem_cons.mp hc with he | he
        · subst he
          simpa using hb
        · exact hacc c he

/-- Every line produced by `splitLines` is break-free. -/
theorem splitLines_no_break (s : String) (l : String) (h : l ∈ splitLines s) :
    ∀ c ∈ l.data, isLineBreak c = false :=
  mem_splitLinesGo s.data [] l (by simp) h

/-- `splitLinesGo` on a break-free input: everything accumulates into a
single line (or nothing when both the input and the accumulator are
empty). -/
theorem splitLinesGo_no_break_eq : ∀ (cs acc : List Char),
    (∀ c ∈ cs, isLineBreak c = false) →
    splitLinesGo cs acc =
      (if (acc.reverse ++ cs).isEmpty then [] else [String.mk (acc.reverse ++ cs)])
  | [], acc, _ => by
    unfold splitLinesGo
    by_cases he : acc.isEmpty = true
    · rw [if_pos he, if_pos (by simpa using he)]
    · rw [if_neg he, if_neg (by simpa using he), List.append_nil]
  | [c0], acc, hbf => by
    unfold splitLinesGo
    rw [if_neg (by rw [hbf c0 (List.mem_singleton.mpr rfl)]; simp)]
    rw [if_neg (by simp)]
    simp
  | c0 :: c1 :: rest, acc, hbf => by
    have hb0 : isLineBreak c0 = false := hbf c0 (List.mem_cons_self _ _)
    have hcr : ¬(c0 = '\x0d') := by
      intro he
      rw [he] at hb0
      simp [isLineBreak] at hb0
    unfold splitLinesGo
    rw [if_neg hcr, if_neg (by rw [hb0]; simp)]
    rw [splitLinesGo_no_break_eq (c1 :: rest) (c0 :: acc)
      (fun c hc => hbf c (List.mem_cons_of_mem _ hc))]
    rw [if_neg (by simp), if_neg (by simp)]
    simp

theorem splitLinesGo_cons_acc (c0 c1 : Char) (rest acc : List Char)
    (hb : isLineBreak c0 = false) :
    splitLinesGo (c0 :: c1 :: rest) acc = splitLinesGo (c1 :: rest) (c0 :: acc) := by
  have hcr : ¬(c0 = '\x0d') := by
    intro he
    rw [he] at hb
    simp [isLineBreak] at hb
  conv_lhs => rw [splitLinesGo]
  rw [if_neg hcr, if_neg (by rw [hb]; simp)]

theorem splitLinesGo_nl (rest acc : List Char) :
    splitLinesGo ('\n' :: rest) acc =
      String.mk acc.reverse :: splitLinesGo rest [] := by
  cases rest with
  | nil =>
    conv_lhs => rw [splitLinesGo]
    rw [if_pos (by decide)]
    rfl
  | cons c2 r2 =>
    conv_lhs => rw [splitLinesGo]
    rw [if_neg (by decide), if_pos (by decide)]

/-- `splitLinesGo` across an explicit `\n` after break-free text. -/
theorem splitLinesGo_append_nl : ∀ (a : List Char) (acc r : List Char),
    (∀ c ∈ a, isLineBreak c = false) →
    splitLinesGo (a ++ '\n' :: r) acc =
      String.mk (acc.reverse ++ a) :: splitLinesGo r []
  | [], acc, r, _ => by
    show splitLinesGo ('\n' :: r) acc = _
    rw [splitLinesGo_nl]
    simp
  | c0 :: a', acc, r, hbf => by
    have hb0 : isLineBreak c0 = false := hbf c0 (List.mem_cons_self _ _)
    cases a' with
    | nil =>
      show splitLinesGo (c0 :: '\n' :: r) acc = _
      rw [splitLinesGo_cons_acc c0 '\n' r acc hb0, splitLinesGo_nl]
      simp
    | cons c1 a2 =>
      show splitLinesGo (c0 :: c1 :: (a2 ++ '\n' :: r)) acc = _
      rw [splitLinesGo_cons_acc c0 c1 (a2 ++ '\n' :: r) acc hb0]
      rw [show c1 :: (a2 ++ '\n' :: r) = (c1 :: a2) ++ '\n' :: r from rfl]
      rw [splitLinesGo_append_nl (c1 :: a2) (c0 :: acc) r
        (fun c hc => hbf c (List.mem_cons_of_mem _ hc))]
      simp

/-- Members of the re-split of a `'\n'.join` of break-free, non-cooldown
lines are themselves non-cooldown. -/
theorem splitLines_join_no_scale : ∀ (out : List String),
    (∀ l ∈ out, ∀ c ∈ l.data, isLineBreak c = false) →
    (∀ l ∈ out, scaleLineB l = false) →
    ∀ l ∈ splitLines (sJoin "\n" out), scaleLineB l = false
  | [], _, _ => by
    intro l hl
    simp [splitLines, sJoin, splitLinesGo] at hl
  | [x], hbf, hns => by
    intro l hl
    show _ = false
    unfold splitLines at hl
    rw [show (sJoin "\n" [x]) = x from rfl] at hl
    rw [splitLinesGo_no_break_eq x.data [] (hbf x (List.mem_singleton.mpr rfl))] at hl
    by_cases he : (([] : List Char).reverse ++ x.data).isEmpty = true
    · rw [if_pos he] at hl
      simp at hl
    · rw [if_neg he] at hl
      simp only [List.mem_singleton] at hl
      subst hl
      have : String.mk (([] : List Char).reverse ++ x.data) = x := by
        simp
      rw [this]
      exact hns x (List.mem_singleton.mpr rfl)
  | x :: y :: rest, hbf, hns => by
    intro l hl
    unfold splitLines at hl
    rw [show sJoin "\n" (x :: y :: rest) = x ++ "\n" ++ sJoin "\n" (y :: rest) from rfl] at hl
    rw [show (x ++ "\n" ++ sJoin "\n" (y :: rest)).data =
      x.data ++ '\n' :: (sJoin "\n" (y :: rest)).data by simp [String.data_append]] at hl
    rw [splitLinesGo_append_nl x.data [] _ (hbf x (List.mem_cons_self _ _))] at hl
    rcases List.mem_cons.mp hl with he | he
    · subst he
      have : String.mk (([] : List Char).reverse ++ x.data) = x := by simp
      rw [this]
      exact hns x (List.mem_cons_self _ _)
    · exact splitLines_join_no_scale (y :: rest)
        (fun l2 hl2 => hbf l2 (List.mem_cons_of_mem _ hl2))
        (fun l2 hl2 => hns l2 (List.mem_cons_of_mem _ hl2)) l he

/-- The key line-phase fact: re-running the cooldown removal on the
joined output of a removal reports no change. -/
theorem removeScale_join_stable (tb1 : String) :
    (removeScaleGo (splitLines (sJoin "\n" (removeScaleGo (splitLines tb1)).1))).2 = false := by
  have hmem : ∀ l ∈ splitLines (sJoin "\n" (removeScaleGo (splitLines tb1)).1),
      scaleLineB l = false := by
    refine splitLines_join_no_scale _ ?_ ?_
    · intro l hl
      exact splitLines_no_break tb1 l (mem_removeScaleGo _ l hl).1
    · intro l hl
      exact (mem_removeScaleGo _ l hl).2
  rw [removeScaleGo_of_no_scale _ hmem]

/-! ## Per-rule second-pass facts -/

theorem fixScalingPolicy_nil : fixScalingPolicy [] = ([], false) := rfl

theorem fixApiStage_nil : fixApiStage [] = ([], false) := rfl

theorem fixEc2Instance_nil : fixEc2Instance [] = ([], false) := rfl

theorem fixPathPart_nil : fixPathPart [] = ([], false) := rfl

theorem fixLogGroup_nil : fixLogGroup [] = ([], false) := rfl

theorem fixCloudFrontE_nil : fixCloudFrontE [] = some ([], false) := rfl

theorem fixBucketPolicyL_nil (ld : String → Option J) :
    fixBucketPolicyL ld [] = ([], false) := rfl

theorem fixScalingAlias_nil : fixScalingAlias [] = ([], false) := rfl

/-- The bucket-policy rule leaves no `PolicyText` behind. -/
theorem fixBucketPolicyL_out (ld : String → Option J) (props : List (String × J)) :
    alGet (fixBucketPolicyL ld props).1 "PolicyText" = none := by
  unfold fixBucketPolicyL
  rcases hg : alGet props "PolicyText" with _ | pt
  · exact hg
  · cases pt with
    | null => exact alGet_alErase_self _ _
    | str s =>
      dsimp only
      by_cases hh : alHas (alErase props "PolicyText") "PolicyDocument" = true
      · rw [if_pos hh]
        exact alGet_alErase_self _ _
      · rw [if_neg hh]
        rw [alGet_alSet_ne _ "PolicyDocument" "PolicyText" _ (by decide)]
        exact alGet_alErase_self _ _
    | bool b =>
      dsimp only
      by_cases hh : alHas (alErase props "PolicyText") "PolicyDocument" = true
      · rw [if_pos hh]
        exact alGet_alErase_self _ _
      · rw [if_neg hh]
        rw [alGet_alSet_ne _ "PolicyDocument" "PolicyText" _ (by decide)]
        exact alGet_alErase_self _ _
    | num n =>
      dsimp only
      by_cases hh : alHas (alErase props "PolicyText") "PolicyDocument" = true
      · rw [if_pos hh]
        exact alGet_alErase_self _ _
      · rw [if_neg hh]
        rw [alGet_alSet_ne _ "PolicyDocument" "PolicyText" _ (by decide)]
        exact alGet_alErase_self _ _
    | arr xs =>
      dsimp only
      by_cases hh : alHas (alErase props "PolicyText") "PolicyDocument" = true
      · rw [if_pos hh]
        exact alGet_alErase_self _ _
      · rw [if_neg hh]
        rw [alGet_alSet_ne _ "PolicyDocument" "PolicyText" _ (by decide)]
        exact alGet_alErase_self _ _
    | obj kvs =>
      dsimp only
      by_cases hh : alHas (alErase props "PolicyText") "PolicyDocument" = true
      · rw [if_pos hh]
        exact alGet_alErase_self _ _
      · rw [if_neg hh]
        rw [alGet_alSet_ne _ "PolicyDocument" "PolicyText" _ (by decide)]
        exact alGet_alErase_self _ _

theorem fixBucketPolicyL_idem (ld : String → Option J) (props : List (String × J)) :
    fixBucketPolicyL ld (fixBucketPolicyL ld props).1 = ((fixBucketPolicyL ld props).1, false) := by
  have hout := fixBucketPolicyL_out ld props
  set q := (fixBucketPolicyL ld props).1 with hq
  unfold fixBucketPolicyL
  rw [hout]

/-- After one alias rename under the uniqueness condition, no key of the
output matches the alias. -/
theorem fixScalingAlias_out_find (props : List (String × J))
    (hok : scalingAliasOkB props = true) :
    ((fixScalingAlias props).1).find?
      (fun kv => normKey kv.1 = "estimatedwarmupseconds") = none := by
  have hokP : ∀ kv ∈ props, normKey kv.1 = "estimatedwarmupseconds" →
      ∀ kv2 ∈ props, normKey kv2.1 = "estimatedwarmupseconds" → kv2.1 = kv.1 := by
    intro kv hkv h1 kv2 hkv2 h2
    have ha := List.all_eq_true.mp hok kv hkv
    simp only [Bool.or_eq_true, Bool.not_eq_true', decide_eq_false_iff_not] at ha
    rcases ha with ha | ha
    · exact absurd h1 ha
    · have hb := List.all_eq_true.mp ha kv2 hkv2
      simp only [Bool.or_eq_true, Bool.not_eq_true', decide_eq_false_iff_not,
        decide_eq_true_eq] at hb
      rcases hb with hb | hb
      · exact absurd h2 hb
      · exact hb
  rcases hfind : props.find? (fun kv => normKey kv.1 = "estimatedwarmupseconds") with _ | kv0
  · have h1 : (fixScalingAlias props).1 = props := by
      unfold fixScalingAlias
      rw [hfind]
    rw [h1]
    exact hfind
  · have hmem0 : kv0 ∈ props := List.mem_of_find?_eq_some hfind
    have hkey0 : normKey kv0.1 = "estimatedwarmupseconds" := by
      have := List.find?_some hfind
      simpa using this
    have h1 : (fixScalingAlias props).1 =
        alSet (alErase props kv0.1) "EstimatedInstanceWarmupSeconds" kv0.2 := by
      unfold fixScalingAlias
      rw [hfind]
    rw [h1]
    refine List.find?_eq_none.mpr ?_
    intro kv hkv
    rcases mem_alSet _ _ _ _ hkv with he | he
    · subst he
      simp only [decide_eq_true_eq]
      decide
    · obtain ⟨hmem, hne⟩ := mem_alErase _ _ _ he
      simp only [decide_eq_true_eq]
      intro hcontra
      exact hne (hokP kv0 hmem0 hkey0 kv hmem hcontra)

theorem fixScalingAlias_idem (props : List (String × J))
    (hok : scalingAliasOkB props = true) :
    fixScalingAlias ((fixScalingAlias props).1) = ((fixScalingAlias props).1, false) := by
  have hout := fixScalingAlias_out_find props hok
  set q := (fixScalingAlias props).1 with hq
  unfold fixScalingAlias
  rw [hout]

theorem cfTagsStep_get_ne (props dc : List (String × J)) (k : String)
    (hk : k ≠ "Tags") :
    alGet (cfTagsStep props dc).1 k = alGet dc k := by
  unfold cfTagsStep
  rcases hg : alGet dc "Tags" with _ | tags
  · rfl
  · dsimp only
    split
    · exact alGet_alErase_ne _ "Tags" k hk
    · exact alGet_alErase_ne _ "Tags" k hk

theorem cfCbStep_cb_get (dc : List (String × J)) :
    alGet (cfCbStep dc).1 "CacheBehaviors" = alGet dc "CacheBehaviors" ∨
    ∃ cbs, alGet (cfCbStep dc).1 "CacheBehaviors" = some (J.arr cbs) := by
  unfold cfCbStep
  rcases hg : alGet dc "CacheBehaviors" with _ | w
  · refine Or.inl ?_
    dsimp only
    exact hg
  · cases w with
    | arr cbs =>
      refine Or.inr ⟨(cbs.map fixCacheBehavior).map Prod.fst, ?_⟩
      dsimp only
      exact alGet_alSet_self _ _ _
    | null =>
      refine Or.inl ?_
      dsimp only
      exact hg
    | bool b =>
      refine Or.inl ?_
      dsimp only
      exact hg
    | num n =>
      refine Or.inl ?_
      dsimp only
      exact hg
    | str s =>
      refine Or.inl ?_
      dsimp only
      exact hg
    | obj kvs =>
      refine Or.inl ?_
      dsimp only
      exact hg

/-- The CloudFront raise condition is not created by the rule itself. -/
theorem cfRaiseB_out (props : List (String × J)) (h : cfRaiseB props = false) :
    cfRaiseB (fixCloudFront props).1 = false := by
  rcases hdc : alGet props "DistributionConfig" with _ | w
  · have h1 : fixCloudFront props = (props, false) := by
      unfold fixCloudFront
      rw [hdc]
    rw [h1]
    exact h
  · cases w with
    | obj dc =>
      have h1 : (fixCloudFront props).1 =
          alSet (cfTagsStep props dc).2.1 "DistributionConfig"
            (J.obj (cfCbStep (cfBehStep
              (alErase (cfTagsStep props dc).1 "ViewerProtocolPolicy")).1).1) := by
        unfold fixCloudFront
        rw [hdc]
      rw [h1]
      unfold cfRaiseB
      rw [alGet_alSet_self]
      dsimp only
      rcases cfCbStep_cb_get (cfBehStep
          (alErase (cfTagsStep props dc).1 "ViewerProtocolPolicy")).1 with hcb | ⟨cbs, hcb⟩
      · rw [hcb, cfBehStep_get_ne _ _ (by decide),
          alGet_alErase_ne _ "ViewerProtocolPolicy" "CacheBehaviors" (by decide),
          cfTagsStep_get_ne props dc _ (by decide)]
        unfold cfRaiseB at h
        rw [hdc] at h
        exact h
      · rw [hcb]
    | null =>
      have h1 : fixCloudFront props = (props, false) := by
        unfold fixCloudFront
        rw [hdc]
      rw [h1]
      exact h
    | bool b =>
      have h1 : fixCloudFront props = (props, false) := by
        unfold fixCloudFront
        rw [hdc]
      rw [h1]
      exact h
    | num n =>
      have h1 : fixCloudFront props = (props, false) := by
        unfold fixCloudFront
        rw [hdc]
      rw [h1]
      exact h
    | str s =>
      have h1 : fixCloudFront props = (props, false) := by
        unfold fixCloudFront
        rw [hdc]
      rw [h1]
      exact h
    | arr xs =>
      have h1 : fixCloudFront props = (props, false) := by
        unfold fixCloudFront
        rw [hdc]
      rw [h1]
      exact h

theorem fixCloudFrontE_stable (props : List (String × J))
    (r : List (String × J) × Bool) (h : fixCloudFrontE props = some r) :
    fixCloudFrontE r.1 = some (r.1, false) := by
  unfold fixCloudFrontE at h
  by_cases hc : cfRaiseB props = true
  · rw [if_pos hc] at h
    cases h
  · rw [if_neg hc] at h
    injection h with h2
    subst h2
    unfold fixCloudFrontE
    rw [if_neg (by rw [cfRaiseB_out props (by simpa using hc)]; simp)]
    rw [fixCloudFront_idem props]

/-- The rewritten bucket name satisfies the suffix check, so the rule
cannot fire twice on an attached `Properties`. -/
theorem s3CondB_nameVal (props : List (String × J)) (lid : String) :
    s3CondB (alSet props "BucketName" (s3NameVal lid)) = false := by
  unfold s3CondB
  rw [alGet_alSet_self]
  show (! s3BucketNameUsesSuffix (s3NameVal lid)) = false
  unfold s3NameVal
  rw [s3_nameVal_uses]
  rfl

theorem fixS3BucketE_nofire (lid : String) (props : List (String × J)) (pv : J)
    (h : s3CondB props = false) :
    fixS3BucketE lid props pv = some (props, pv, false) := by
  unfold fixS3BucketE
  rw [if_neg (by rw [h]; simp)]

theorem s3CondB_nil : s3CondB [] = true := rfl

/-- A firing bucket rule leaves `BucketNameSuffix` visible in the
parameters value (it was either already there or just inserted). -/
theorem fixS3BucketE_fire (lid : String) (props : List (String × J)) (pv : J)
    (r : List (String × J) × J × Bool) (hc : s3CondB props = true)
    (h : fixS3BucketE lid props pv = some r) :
    r.1 = alSet props "BucketName" (s3NameVal lid) ∧ r.2.2 = true ∧
      pyInB "BucketNameSuffix" r.2.1 = some true := by
  unfold fixS3BucketE at h
  rw [if_pos hc] at h
  rcases hin : pyInB "BucketNameSuffix" pv with _ | b
  · rw [hin] at h
    cases h
  · rw [hin] at h
    cases b with
    | true =>
      dsimp only at h
      injection h with h2
      rw [← h2]
      exact ⟨rfl, rfl, hin⟩
    | false =>
      dsimp only at h
      cases pv with
      | obj ps =>
        injection h with h2
        rw [← h2]
        exact ⟨rfl, rfl, pyInB_alSet_self ps _ _⟩
      | null => cases h
      | bool b2 => cases h
      | num n => cases h
      | str s => cases h
      | arr xs => cases h

/-- The parameters value evolves monotonically for the suffix check. -/
theorem fixS3BucketE_pv (lid : String) (props : List (String × J)) (pv : J)
    (r : List (String × J) × J × Bool) (h : fixS3BucketE lid props pv = some r) :
    r.2.1 = pv ∨ pyInB "BucketNameSuffix" r.2.1 = some true := by
  unfold fixS3BucketE at h
  by_cases hc : s3CondB props = true
  · rw [if_pos hc] at h
    rcases hin : pyInB "BucketNameSuffix" pv with _ | b
    · rw [hin] at h
      cases h
    · rw [hin] at h
      cases b with
      | true =>
        dsimp only at h
        injection h with h2
        rw [← h2]
        exact Or.inl rfl
      | false =>
        dsimp only at h
        cases pv with
        | obj ps =>
          injection h with h2
          rw [← h2]
          exact Or.inr (pyInB_alSet_self ps _ _)
        | null => cases h
        | bool b2 => cases h
        | num n => cases h
        | str s => cases h
        | arr xs => cases h
  · rw [if_neg hc] at h
    injection h with h2
    rw [← h2]
    exact Or.inl rfl

/-! ## Evaluation lemmas for the JSON-phase resource step -/

theorem evalE_scaling (nt : String → String) (ld : String → Option J) (lid : String)
    (rk props : List (String × J)) (sh : Bool) (w : J)
    (hT : alGet rk "Type" = some (J.str "AWS::AutoScaling::ScalingPolicy"))
    (hgp : getPropsV rk = .objP props sh) :
    normResourceE nt ld lid (J.obj rk) w =
      some (J.obj (putProps rk sh (fixScalingPolicy props).1), w, (fixScalingPolicy props).2) := by
  unfold normResourceE
  dsimp only
  rw [hgp]
  dsimp only
  rw [hT, if_pos rfl]

theorem evalE_stage (nt : String → String) (ld : String → Option J) (lid : String)
    (rk props : List (String × J)) (sh : Bool) (w : J)
    (hT : alGet rk "Type" = some (J.str "AWS::ApiGateway::Stage"))
    (hgp : getPropsV rk = .objP props sh) :
    normResourceE nt ld lid (J.obj rk) w =
      some (J.obj (putProps rk sh (fixApiStage props).1), w, (fixApiStage props).2) := by
  unfold normResourceE
  dsimp only
  rw [hgp]
  dsimp only
  rw [hT, if_neg (by decide), if_pos rfl]

theorem evalE_cf (nt : String → String) (ld : String → Option J) (lid : String)
    (rk props : List (String × J)) (sh : Bool) (w : J)
    (hT : alGet rk "Type" = some (J.str "AWS::CloudFront::Distribution"))
    (hgp : getPropsV rk = .objP props sh) :
    normResourceE nt ld lid (J.obj rk) w =
      (match fixCloudFrontE props with
       | none => none
       | some r => some (J.obj (putProps rk sh r.1), w, r.2)) := by
  unfold normResourceE
  dsimp only
  rw [hgp]
  dsimp only
  rw [hT, if_neg (by decide), if_neg (by decide), if_pos rfl]

theorem evalE_ec2 (nt : String → String) (ld : String → Option J) (lid : String)
    (rk props : List (String × J)) (sh : Bool) (w : J)
    (hT : alGet rk "Type" = some (J.str "AWS::EC2::Instance"))
    (hgp : getPropsV rk = .objP props sh) :
    normResourceE nt ld lid (J.obj rk) w =
      some (J.obj (putProps rk sh (fixEc2Instance props).1), w, (fixEc2Instance props).2) := by
  unfold normResourceE
  dsimp only
  rw [hgp]
  dsimp only
  rw [hT, if_neg (by decide), if_neg (by decide), if_neg (by decide), if_pos rfl]

theorem evalE_path (nt : String → String) (ld : String → Option J) (lid : String)
    (rk props : List (String × J)) (sh : Bool) (w : J)
    (hT : alGet rk "Type" = some (J.str "AWS::ApiGateway::Resource"))
    (hgp : getPropsV rk = .objP props sh) :
    normResourceE nt ld lid (J.obj rk) w =
      some (J.obj (putProps rk sh (fixPathPart props).1), w, (fixPathPart props).2) := by
  unfold normResourceE
  dsimp only
  rw [hgp]
  dsimp only
  rw [hT, if_neg (by decide), if_neg (by decide), if_neg (by decide), if_neg (by decide),
    if_pos rfl]

theorem evalE_log (nt : String → String) (ld : String → Option J) (lid : String)
    (rk props : List (String × J)) (sh : Bool) (w : J)
    (hT : alGet rk "Type" = some (J.str "AWS::Logs::LogGroup"))
    (hgp : getPropsV rk = .objP props sh) :
    normResourceE nt ld lid (J.obj rk) w =
      some (J.obj (putProps rk sh (fixLogGroup props).1), w, (fixLogGroup props).2) := by
  unfold normResourceE
  dsimp only
  rw [hgp]
  dsimp only
  rw [hT, if_neg (by decide), if_neg (by decide), if_neg (by decide), if_neg (by decide),
    if_neg (by decide), if_pos rfl]

theorem evalE_s3 (nt : String → String) (ld : String → Option J) (lid : String)
    (rk props : List (String × J)) (sh : Bool) (w : J)
    (hT : alGet rk "Type" = some (J.str "AWS::S3::Bucket"))
    (hgp : getPropsV rk = .objP props sh) :
    normResourceE nt ld lid (J.obj rk) w =
      (match fixS3BucketE lid props w with
       | none => none
       | some r => some (J.obj (putProps rk sh r.1), r.2.1, r.2.2)) := by
  unfold normResourceE
  dsimp only
  rw [hgp]
  dsimp only
  rw [hT, if_neg (by decide), if_neg (by decide), if_neg (by decide), if_neg (by decide),
    if_neg (by decide), if_neg (by decide), if_pos rfl]

theorem evalE_bp (nt : String → String) (ld : String → Option J) (lid : String)
    (rk props : List (String × J)) (sh : Bool) (w : J)
    (hT : alGet rk "Type" = some (J.str "AWS::S3::BucketPolicy"))
    (hgp : getPropsV rk = .objP props sh) :
    normResourceE nt ld lid (J.obj rk) w =
      some (J.obj (putProps rk sh (fixBucketPolicyL ld props).1), w,
        (fixBucketPolicyL ld props).2) := by
  unfold normResourceE
  dsimp only
  rw [hgp]
  dsimp only
  rw [hT, if_neg (by decide), if_neg (by decide), if_neg (by decide), if_neg (by decide),
    if_neg (by decide), if_neg (by decide), if_neg (by decide), if_pos rfl]

theorem evalE_stack (nt : String → String) (ld : String → Option J) (lid : String)
    (rk props : List (String × J)) (sh : Bool) (w : J)
    (hT : alGet rk "Type" = some (J.str "AWS::CloudFormation::Stack"))
    (hgp : getPropsV rk = .objP props sh) :
    normResourceE nt ld lid (J.obj rk) w =
      (match alGet props "TemplateBody" with
       | some (J.str tb) =>
         if sTrim tb ≠ "" then
           if nt tb ≠ tb then
             some (J.obj (putProps rk sh (alSet props "TemplateBody" (J.str (nt tb)))), w, true)
           else some (J.obj rk, w, false)
         else some (J.obj rk, w, false)
       | _ => some (J.obj rk, w, false)) := by
  unfold normResourceE
  dsimp only
  rw [hgp]
  dsimp only
  rw [hT, if_neg (by decide), if_neg (by decide), if_neg (by decide), if_neg (by decide),
    if_neg (by decide), if_neg (by decide), if_neg (by decide), if_neg (by decide),
    if_pos rfl]

theorem evalE_other_obj (nt : String → String) (ld : String → Option J) (lid : String)
    (rk props : List (String × J)) (sh : Bool) (w : J)
    (hgp : getPropsV rk = .objP props sh)
    (h1 : ¬(alGet rk "Type" = some (J.str "AWS::AutoScaling::ScalingPolicy")))
    (h2 : ¬(alGet rk "Type" = some (J.str "AWS::ApiGateway::Stage")))
    (h3 : ¬(alGet rk "Type" = some (J.str "AWS::CloudFront::Distribution")))
    (h4 : ¬(alGet rk "Type" = some (J.str "AWS::EC2::Instance")))
    (h5 : ¬(alGet rk "Type" = some (J.str "AWS::ApiGateway::Resource")))
    (h6 : ¬(alGet rk "Type" = some (J.str "AWS::Logs::LogGroup")))
    (h7 : ¬(alGet rk "Type" = some (J.str "AWS::S3::Bucket")))
    (h8 : ¬(alGet rk "Type" = some (J.str "AWS::S3::BucketPolicy")))
    (h9 : ¬(alGet rk "Type" = some (J.str "AWS::CloudFormation::Stack"))) :
    normResourceE nt ld lid (J.obj rk) w = some (J.obj rk, w, false) := by
  unfold normResourceE
  dsimp only
  rw [hgp]
  dsimp only
  rw [if_neg h1, if_neg h2, if_neg h3, if_neg h4, if_neg h5, if_neg h6, if_neg h7,
    if_neg h8, if_neg h9]

theorem evalE_raw_other (nt : String → String) (ld : String → Option J) (lid : String)
    (rk : List (String × J)) (v w : J)
    (hgp : getPropsV rk = .rawP v)
    (h1 : ¬(alGet rk "Type" = some (J.str "AWS::AutoScaling::ScalingPolicy")))
    (h2 : ¬(alGet rk "Type" = some (J.str "AWS::ApiGateway::Stage")))
    (h3 : ¬(alGet rk "Type" = some (J.str "AWS::CloudFront::Distribution")))
    (h4 : ¬(alGet rk "Type" = some (J.str "AWS::EC2::Instance")))
    (h5 : ¬(alGet rk "Type" = some (J.str "AWS::ApiGateway::Resource")))
    (h6 : ¬(alGet rk "Type" = some (J.str "AWS::Logs::LogGroup")))
    (h7 : ¬(alGet rk "Type" = some (J.str "AWS::S3::Bucket")))
    (h8 : ¬(alGet rk "Type" = some (J.str "AWS::S3::BucketPolicy")))
    (h9 : ¬(alGet rk "Type" = some (J.str "AWS::CloudFormation::Stack"))) :
    normResourceE nt ld lid (J.obj rk) w = some (J.obj rk, w, false) := by
  unfold normResourceE
  dsimp only
  rw [hgp]
  dsimp only
  rw [if_neg h1, if_neg h2, if_neg h3, if_neg h4, if_neg h5, if_neg h6, if_neg h7,
    if_neg h8, if_neg h9]

theorem evalE_raw_stage (nt : String → String) (ld : String → Option J) (lid : String)
    (rk : List (String × J)) (v w : J)
    (hT : alGet rk "Type" = some (J.str "AWS::ApiGateway::Stage"))
    (hgp : getPropsV rk = .rawP v) (hsr : stageRawRaiseB v = false) :
    normResourceE nt ld lid (J.obj rk) w = some (J.obj rk, w, false) := by
  unfold normResourceE
  dsimp only
  rw [hgp]
  dsimp only
  rw [hT, if_neg (by decide), if_pos rfl, if_neg (by rw [hsr]; simp)]

theorem evalE_raw_none (nt : String → String) (ld : String → Option J) (lid : String)
    (rk : List (String × J)) (v w : J)
    (hgp : getPropsV rk = .rawP v)
    (hcase : alGet rk "Type" = some (J.str "AWS::AutoScaling::ScalingPolicy") ∨
      (alGet rk "Type" = some (J.str "AWS::ApiGateway::Stage") ∧ stageRawRaiseB v = true) ∨
      alGet rk "Type" = some (J.str "AWS::CloudFront::Distribution") ∨
      alGet rk "Type" = some (J.str "AWS::EC2::Instance") ∨
      alGet rk "Type" = some (J.str "AWS::ApiGateway::Resource") ∨
      alGet rk "Type" = some (J.str "AWS::Logs::LogGroup") ∨
      alGet rk "Type" = some (J.str "AWS::S3::Bucket") ∨
      alGet rk "Type" = some (J.str "AWS::S3::BucketPolicy") ∨
      alGet rk "Type" = some (J.str "AWS::CloudFormation::Stack")) :
    normResourceE nt ld lid (J.obj rk) w = none := by
  unfold normResourceE
  dsimp only
  rw [hgp]
  dsimp only
  rcases hcase with hT | ⟨hT, hsr⟩ | hT | hT | hT | hT | hT | hT | hT
  · rw [hT, if_pos rfl]
  · rw [hT, if_neg (by decide), if_pos rfl, if_pos hsr]
  · rw [hT, if_neg (by decide), if_neg (by decide), if_pos rfl]
  · rw [hT, if_neg (by decide), if_neg (by decide), if_neg (by decide), if_pos rfl]
  · rw [hT, if_neg (by decide), if_neg (by decide), if_neg (by decide), if_neg (by decide),
      if_pos rfl]
  · rw [hT, if_neg (by decide), if_neg (by decide), if_neg (by decide), if_neg (by decide),
      if_neg (by decide), if_pos rfl]
  · rw [hT, if_neg (by decide), if_neg (by decide), if_neg (by decide), if_neg (by decide),
      if_neg (by decide), if_neg (by decide), if_pos rfl]
  · rw [hT, if_neg (by decide), if_neg (by decide), if_neg (by decide), if_neg (by decide),
      if_neg (by decide), if_neg (by decide), if_neg (by decide), if_pos rfl]
  · rw [hT, if_neg (by decide), if_neg (by decide), if_neg (by decide), if_neg (by decide),
      if_neg (by decide), if_neg (by decide), if_neg (by decide), if_neg (by decide),
      if_pos rfl]

/-- Generic second-pass argument for a property-rewriting rule of the
JSON phase whose fix function is total and idempotent on its own
output. -/
theorem ruleE_stable (nt : String → String) (ld : String → Option J) (lid : String)
    (rk : List (String × J)) (T : String)
    (fixX : List (String × J) → List (String × J) × Bool)
    (heval : ∀ (rk2 props2 : List (String × J)) (sh2 : Bool) (w : J),
      alGet rk2 "Type" = some (J.str T) → getPropsV rk2 = .objP props2 sh2 →
      normResourceE nt ld lid (J.obj rk2) w =
        some (J.obj (putProps rk2 sh2 (fixX props2).1), w, (fixX props2).2))
    (hT : alGet rk "Type" = some (J.str T))
    (props : List (String × J)) (sh : Bool)
    (hgp : getPropsV rk = .objP props sh)
    (hidem : fixX ((fixX props).1) = ((fixX props).1, false))
    (hnil : fixX [] = ([], false)) (q : J) :
    ∃ c, normResourceE nt ld lid (J.obj (putProps rk sh (fixX props).1)) q =
      some (J.obj (putProps rk sh (fixX props).1), q, c) := by
  cases sh with
  | false =>
    have hpr : props = [] := getPropsV_false_nil rk props hgp
    subst hpr
    refine ⟨false, ?_⟩
    rw [hnil]
    dsimp only
    rw [putProps_false]
    have he := heval rk [] false q hT hgp
    rw [hnil] at he
    dsimp only at he
    rw [putProps_false] at he
    exact he
  | true =>
    rw [putProps_true]
    have hT2 : alGet (alSet rk "Properties" (J.obj (fixX props).1)) "Type" =
        some (J.str T) := by
      rw [alGet_alSet_ne _ "Properties" "Type" _ (by decide)]
      exact hT
    have hgp2 := getPropsV_alSet_props rk (fixX props).1
    by_cases hpe : ((fixX props).1).isEmpty = true
    · rw [if_pos hpe] at hgp2
      refine ⟨false, ?_⟩
      have he := heval _ [] false q hT2 hgp2
      rw [hnil] at he
      dsimp only at he
      rw [putProps_false] at he
      exact he
    · rw [if_neg hpe] at hgp2
      refine ⟨false, ?_⟩
      have he := heval _ ((fixX props).1) true q hT2 hgp2
      rw [hidem] at he
      dsimp only at he
      rw [putProps_true] at he
      rw [alSet_self_get _ _ _ (alGet_alSet_self rk "Properties" (J.obj (fixX props).1))] at he
      exact he

/-! ## Per-resource stability of the JSON phase -/

/-- Conditions under which a resource transform is stable: a scaling
policy carries at most one alias spelling, and a nested stack body is a
fixed point of one more normalization. -/
def ResCheckP (nt : String → String) (rdef : J) : Prop :=
  ∀ rkvs props sh, rdef = J.obj rkvs → getPropsV rkvs = .objP props sh →
    (alGet rkvs "Type" = some (J.str "AWS::AutoScaling::ScalingPolicy") →
      scalingAliasOkB props = true) ∧
    (alGet rkvs "Type" = some (J.str "AWS::CloudFormation::Stack") →
      ∀ tb, alGet props "TemplateBody" = some (J.str tb) → sTrim tb ≠ "" →
        nt (nt tb) = nt tb)

/-- The parameters value only ever gains the suffix entry. -/
theorem normResourceE_pv (nt : String → String) (ld : String → Option J) (lid : String)
    (rdef pv : J) (r : J × J × Bool)
    (hrun : normResourceE nt ld lid rdef pv = some r) :
    r.2.1 = pv ∨ pyInB "BucketNameSuffix" r.2.1 = some true := by
  cases rdef with
  | obj rkvs =>
    rcases hgp : getPropsV rkvs with ⟨props, sh⟩ | ⟨v⟩
    case objP =>
      by_cases h1 : alGet rkvs "Type" = some (J.str "AWS::AutoScaling::ScalingPolicy")
      · rw [evalE_scaling nt ld lid rkvs props sh pv h1 hgp] at hrun
        injection hrun with hX
        subst hX
        exact Or.inl rfl
      by_cases h2 : alGet rkvs "Type" = some (J.str "AWS::ApiGateway::Stage")
      · rw [evalE_stage nt ld lid rkvs props sh pv h2 hgp] at hrun
        injection hrun with hX
        subst hX
        exact Or.inl rfl
      by_cases h3 : alGet rkvs "Type" = some (J.str "AWS::CloudFront::Distribution")
      · rw [evalE_cf nt ld lid rkvs props sh pv h3 hgp] at hrun
        rcases hcf : fixCloudFrontE props with _ | rr
        · rw [hcf] at hrun
          simp at hrun
        · rw [hcf] at hrun
          dsimp only at hrun
          injection hrun with hX
          subst hX
          exact Or.inl rfl
      by_cases h4 : alGet rkvs "Type" = some (J.str "AWS::EC2::Instance")
      · rw [evalE_ec2 nt ld lid rkvs props sh pv h4 hgp] at hrun
        injection hrun with hX
        subst hX
        exact Or.inl rfl
      by_cases h5 : alGet rkvs "Type" = some (J.str "AWS::ApiGateway::Resource")
      · rw [evalE_path nt ld lid rkvs props sh pv h5 hgp] at hrun
        injection hrun with hX
        subst hX
        exact Or.inl rfl
      by_cases h6 : alGet rkvs "Type" = some (J.str "AWS::Logs::LogGroup")
      · rw [evalE_log nt ld lid rkvs props sh pv h6 hgp] at hrun
        injection hrun with hX
        subst hX
        exact Or.inl rfl
      by_cases h7 : alGet rkvs "Type" = some (J.str "AWS::S3::Bucket")
      · rw [evalE_s3 nt ld lid rkvs props sh pv h7 hgp] at hrun
        rcases hfx : fixS3BucketE lid props pv with _ | rr
        · rw [hfx] at hrun
          simp at hrun
        · rw [hfx] at hrun
          dsimp only at hrun
          injection hrun with hX
          subst hX
          dsimp only
          exact fixS3BucketE_pv lid props pv rr hfx
      by_cases h8 : alGet rkvs "Type" = some (J.str "AWS::S3::BucketPolicy")
      · rw [evalE_bp nt ld lid rkvs props sh pv h8 hgp] at hrun
        injection hrun with hX
        subst hX
        exact Or.inl rfl
      by_cases h9 : alGet rkvs "Type" = some (J.str "AWS::CloudFormation::Stack")
      · rw [evalE_stack nt ld lid rkvs props sh pv h9 hgp] at hrun
        rcases halg : alGet props "TemplateBody" with _ | tv
        · rw [halg] at hrun
          dsimp only at hrun
          injection hrun with hX
          subst hX
          exact Or.inl rfl
        · rw [halg] at hrun
          cases tv with
          | str tb =>
            dsimp only at hrun
            by_cases hne : sTrim tb ≠ ""
            · rw [if_pos hne] at hrun
              by_cases hch : nt tb ≠ tb
              · rw [if_pos hch] at hrun
                injection hrun with hX
                subst hX
                exact Or.inl rfl
              · rw [if_neg hch] at hrun
                injection hrun with hX
                subst hX
                exact Or.inl rfl
            · rw [if_neg hne] at hrun
              injection hrun with hX
              subst hX
              exact Or.inl rfl
          | null =>
            dsimp only at hrun
            injection hrun with hX
            subst hX
            exact Or.inl rfl
          | bool b =>
            dsimp only at hrun
            injection hrun with hX
            subst hX
            exact Or.inl rfl
          | num n =>
            dsimp only at hrun
            injection hrun with hX
            subst hX
            exact Or.inl rfl
          | arr xs =>
            dsimp only at hrun
            injection hrun with hX
            subst hX
            exact Or.inl rfl
          | obj kvs2 =>
            dsimp only at hrun
            injection hrun with hX
            subst hX
            exact Or.inl rfl
      rw [evalE_other_obj nt ld lid rkvs props sh pv hgp h1 h2 h3 h4 h5 h6 h7 h8 h9] at hrun
      injection hrun with hX
      subst hX
      exact Or.inl rfl
    case rawP =>
      by_cases h1 : alGet rkvs "Type" = some (J.str "AWS::AutoScaling::ScalingPolicy")
      · rw [evalE_raw_none nt ld lid rkvs v pv hgp (Or.inl h1)] at hrun
        simp at hrun
      by_cases h2 : alGet rkvs "Type" = some (J.str "AWS::ApiGateway::Stage")
      · by_cases hsr : stageRawRaiseB v = true
        · rw [evalE_raw_none nt ld lid rkvs v pv hgp (Or.inr (Or.inl ⟨h2, hsr⟩))] at hrun
          simp at hrun
        · rw [evalE_raw_stage nt ld lid rkvs v pv h2 hgp (by simpa using hsr)] at hrun
          injection hrun with hX
          subst hX
          exact Or.inl rfl
      by_cases h3 : alGet rkvs "Type" = some (J.str "AWS::CloudFront::Distribution")
      · rw [evalE_raw_none nt ld lid rkvs v pv hgp (Or.inr (Or.inr (Or.inl h3)))] at hrun
        simp at hrun
      by_cases h4 : alGet rkvs "Type" = some (J.str "AWS::EC2::Instance")
      · rw [evalE_raw_none nt ld lid rkvs v pv hgp
          (Or.inr (Or.inr (Or.inr (Or.inl h4))))] at hrun
        simp at hrun
      by_cases h5 : alGet rkvs "Type" = some (J.str "AWS::ApiGateway::Resource")
      · rw [evalE_raw_none nt ld lid rkvs v pv hgp
          (Or.inr (Or.inr (Or.inr (Or.inr (Or.inl h5)))))] at hrun
        simp at hrun
      by_cases h6 : alGet rkvs "Type" = some (J.str "AWS::Logs::LogGroup")
      · rw [evalE_raw_none nt ld lid rkvs v pv hgp
          (Or.inr (Or.inr (Or.inr (Or.inr (Or.inr (Or.inl h6))))))] at hrun
        simp at hrun
      by_cases h7 : alGet rkvs "Type" = some (J.str "AWS::S3::Bucket")
      · rw [evalE_raw_none nt ld lid rkvs v pv hgp
          (Or.inr (Or.inr (Or.inr (Or.inr (Or.inr (Or.inr (Or.inl h7)))))))] at hrun
        simp at hrun
      by_cases h8 : alGet rkvs "Type" = some (J.str "AWS::S3::BucketPolicy")
      · rw [evalE_raw_none nt ld lid rkvs v pv hgp
          (Or.inr (Or.inr (Or.inr (Or.inr (Or.inr (Or.inr (Or.inr (Or.inl h8))))))))] at hrun
        simp at hrun
      by_cases h9 : alGet rkvs "Type" = some (J.str "AWS::CloudFormation::Stack")
      · rw [evalE_raw_none nt ld lid rkvs v pv hgp
          (Or.inr (Or.inr (Or.inr (Or.inr (Or.inr (Or.inr (Or.inr (Or.inr h9))))))))] at hrun
        simp at hrun
      rw [evalE_raw_other nt ld lid rkvs v pv hgp h1 h2 h3 h4 h5 h6 h7 h8 h9] at hrun
      injection hrun with hX
      subst hX
      exact Or.inl rfl
  | null =>
    unfold normResourceE at hrun
    injection hrun with hX
    subst hX
    exact Or.inl rfl
  | bool b =>
    unfold normResourceE at hrun
    injection hrun with hX
    subst hX
    exact Or.inl rfl
  | num n =>
    unfold normResourceE at hrun
    injection hrun with hX
    subst hX
    exact Or.inl rfl
  | str s =>
    unfold normResourceE at hrun
    injection hrun with hX
    subst hX
    exact Or.inl rfl
  | arr xs =>
    unfold normResourceE at hrun
    injection hrun with hX
    subst hX
    exact Or.inl rfl

/-- Second pass over one already-processed resource: the document part is
fixed and the parameters value is untouched. -/
theorem normResourceE_stable (nt : String → String) (ld : String → Option J) (lid : String)
    (rdef pv : J) (r : J × J × Bool)
    (hrun : normResourceE nt ld lid rdef pv = some r)
    (hck : ResCheckP nt rdef)
    (q : J) (hq : pyInB "BucketNameSuffix" r.2.1 = some true →
      pyInB "BucketNameSuffix" q = some true) :
    ∃ c, normResourceE nt ld lid r.1 q = some (r.1, q, c) := by
  cases rdef with
  | obj rkvs =>
    rcases hgp : getPropsV rkvs with ⟨props, sh⟩ | ⟨v⟩
    case objP =>
      by_cases h1 : alGet rkvs "Type" = some (J.str "AWS::AutoScaling::ScalingPolicy")
      · rw [evalE_scaling nt ld lid rkvs props sh pv h1 hgp] at hrun
        injection hrun with hX
        subst hX
        dsimp only
        exact ruleE_stable nt ld lid rkvs _ fixScalingPolicy
          (fun rk2 props2 sh2 w hT2 hgp2 => evalE_scaling nt ld lid rk2 props2 sh2 w hT2 hgp2)
          h1 props sh hgp
          (fixScalingPolicy_idem props ((hck rkvs props sh rfl hgp).1 h1))
          fixScalingPolicy_nil q
      by_cases h2 : alGet rkvs "Type" = some (J.str "AWS::ApiGateway::Stage")
      · rw [evalE_stage nt ld lid rkvs props sh pv h2 hgp] at hrun
        injection hrun with hX
        subst hX
        dsimp only
        exact ruleE_stable nt ld lid rkvs _ fixApiStage
          (fun rk2 props2 sh2 w hT2 hgp2 => evalE_stage nt ld lid rk2 props2 sh2 w hT2 hgp2)
          h2 props sh hgp (fixApiStage_idem props) fixApiStage_nil q
      by_cases h3 : alGet rkvs "Type" = some (J.str "AWS::CloudFront::Distribution")
      · rw [evalE_cf nt ld lid rkvs props sh pv h3 hgp] at hrun
        rcases hcf : fixCloudFrontE props with _ | rr
        · rw [hcf] at hrun
          simp at hrun
        · rw [hcf] at hrun
          dsimp only at hrun
          injection hrun with hX
          subst hX
          dsimp only
          cases sh with
          | false =>
            have hpr : props = [] := getPropsV_false_nil rkvs props hgp
            subst hpr
            rw [fixCloudFrontE_nil] at hcf
            injection hcf with hrr
            rw [← hrr]
            dsimp only
            refine ⟨false, ?_⟩
            rw [putProps_false]
            have he := evalE_cf nt ld lid rkvs [] false q h3 hgp
            rw [fixCloudFrontE_nil] at he
            dsimp only at he
            rw [putProps_false] at he
            exact he
          | true =>
            have hstab := fixCloudFrontE_stable props rr hcf
            rw [putProps_true]
            have hT2 : alGet (alSet rkvs "Properties" (J.obj rr.1)) "Type" =
                some (J.str "AWS::CloudFront::Distribution") := by
              rw [alGet_alSet_ne _ "Properties" "Type" _ (by decide)]
              exact h3
            have hgp2 := getPropsV_alSet_props rkvs rr.1
            by_cases hpe : (rr.1).isEmpty = true
            · rw [if_pos hpe] at hgp2
              refine ⟨false, ?_⟩
              have he := evalE_cf nt ld lid _ [] false q hT2 hgp2
              rw [fixCloudFrontE_nil] at he
              dsimp only at he
              rw [putProps_false] at he
              exact he
            · rw [if_neg hpe] at hgp2
              refine ⟨false, ?_⟩
              have he := evalE_cf nt ld lid _ (rr.1) true q hT2 hgp2
              rw [hstab] at he
              dsimp only at he
              rw [putProps_true] at he
              rw [alSet_self_get _ _ _
                (alGet_alSet_self rkvs "Properties" (J.obj rr.1))] at he
              exact he
      by_cases h4 : alGet rkvs "Type" = some (J.str "AWS::EC2::Instance")
      · rw [evalE_ec2 nt ld lid rkvs props sh pv h4 hgp] at hrun
        injection hrun with hX
        subst hX
        dsimp only
        exact ruleE_stable nt ld lid rkvs _ fixEc2Instance
          (fun rk2 props2 sh2 w hT2 hgp2 => evalE_ec2 nt ld lid rk2 props2 sh2 w hT2 hgp2)
          h4 props sh hgp (fixEc2Instance_idem props) fixEc2Instance_nil q
      by_cases h5 : alGet rkvs "Type" = some (J.str "AWS::ApiGateway::Resource")
      · rw [evalE_path nt ld lid rkvs props sh pv h5 hgp] at hrun
        injection hrun with hX
        subst hX
        dsimp only
        exact ruleE_stable nt ld lid rkvs _ fixPathPart
          (fun rk2 props2 sh2 w hT2 hgp2 => evalE_path nt ld lid rk2 props2 sh2 w hT2 hgp2)
          h5 props sh hgp (fixPathPart_idem props) fixPathPart_nil q
      by_cases h6 : alGet rkvs "Type" = some (J.str "AWS::Logs::LogGroup")
      · rw [evalE_log nt ld lid rkvs props sh pv h6 hgp] at hrun
        injection hrun with hX
        subst hX
        dsimp only
        exact ruleE_stable nt ld lid rkvs _ fixLogGroup
          (fun rk2 props2 sh2 w hT2 hgp2 => evalE_log nt ld lid rk2 props2 sh2 w hT2 hgp2)
          h6 props sh hgp (fixLogGroup_idem props) fixLogGroup_nil q
      by_cases h7 : alGet rkvs "Type" = some (J.str "AWS::S3::Bucket")
      · rw [evalE_s3 nt ld lid rkvs props sh pv h7 hgp] at hrun
        rcases hfx : fixS3BucketE lid props pv with _ | rr
        · rw [hfx] at hrun
          simp at hrun
        · rw [hfx] at hrun
          dsimp only at hrun
          injection hrun with hX
          subst hX
          dsimp only
          dsimp only at hq
          by_cases hc : s3CondB props = true
          · obtain ⟨hrr1, _, hrrpv⟩ := fixS3BucketE_fire lid props pv rr hc hfx
            have hqt : pyInB "BucketNameSuffix" q = some true := hq hrrpv
            cases sh with
            | false =>
              have hpr : props = [] := getPropsV_false_nil rkvs props hgp
              subst hpr
              refine ⟨true, ?_⟩
              rw [putProps_false]
              have he := evalE_s3 nt ld lid rkvs [] false q h7 hgp
              have hfx2 : fixS3BucketE lid [] q =
                  some (alSet [] "BucketName" (s3NameVal lid), q, true) := by
                unfold fixS3BucketE
                rw [if_pos s3CondB_nil, hqt]
              rw [hfx2] at he
              dsimp only at he
              rw [putProps_false] at he
              exact he
            | true =>
              refine ⟨false, ?_⟩
              rw [putProps_true]
              have hT2 : alGet (alSet rkvs "Properties" (J.obj rr.1)) "Type" =
                  some (J.str "AWS::S3::Bucket") := by
                rw [alGet_alSet_ne _ "Properties" "Type" _ (by decide)]
                exact h7
              have hgp2 := getPropsV_alSet_props rkvs rr.1
              have hpe : (rr.1).isEmpty = false := by
                rw [hrr1]
                have := alSet_ne_nil props "BucketName" (s3NameVal lid)
                simpa [List.isEmpty_iff] using this
              rw [if_neg (by rw [hpe]; decide)] at hgp2
              have he := evalE_s3 nt ld lid _ (rr.1) true q hT2 hgp2
              have hfx2 : fixS3BucketE lid (rr.1) q = some (rr.1, q, false) := by
                refine fixS3BucketE_nofire lid _ q ?_
                rw [hrr1]
                exact s3CondB_nameVal props lid
              rw [hfx2] at he
              dsimp only at he
              rw [putProps_true] at he
              rw [alSet_self_get _ _ _
                (alGet_alSet_self rkvs "Properties" (J.obj rr.1))] at he
              exact he
          · have hcf : s3CondB props = false := by simpa using hc
            have hrr : rr = (props, pv, false) := by
              rw [fixS3BucketE_nofire lid props pv hcf] at hfx
              injection hfx with h2
              exact h2.symm
            subst hrr
            dsimp only
            cases sh with
            | false =>
              have hpr : props = [] := getPropsV_false_nil rkvs props hgp
              subst hpr
              rw [s3CondB_nil] at hcf
              cases hcf
            | true =>
              refine ⟨false, ?_⟩
              rw [putProps_true]
              have hT2 : alGet (alSet rkvs "Properties" (J.obj props)) "Type" =
                  some (J.str "AWS::S3::Bucket") := by
                rw [alGet_alSet_ne _ "Properties" "Type" _ (by decide)]
                exact h7
              have hgp2 := getPropsV_alSet_props rkvs props
              have hpe : props.isEmpty = false := (getPropsV_true_get rkvs props hgp).2
              rw [if_neg (by rw [hpe]; decide)] at hgp2
              have he := evalE_s3 nt ld lid _ props true q hT2 hgp2
              rw [fixS3BucketE_nofire lid props q hcf] at he
              dsimp only at he
              rw [putProps_true] at he
              rw [alSet_self_get _ _ _
                (alGet_alSet_self rkvs "Properties" (J.obj props))] at he
              exact he
      by_cases h8 : alGet rkvs "Type" = some (J.str "AWS::S3::BucketPolicy")
      · rw [evalE_bp nt ld lid rkvs props sh pv h8 hgp] at hrun
        injection hrun with hX
        subst hX
        dsimp only
        exact ruleE_stable nt ld lid rkvs _ (fixBucketPolicyL ld)
          (fun rk2 props2 sh2 w hT2 hgp2 => evalE_bp nt ld lid rk2 props2 sh2 w hT2 hgp2)
          h8 props sh hgp (fixBucketPolicyL_idem ld props) (fixBucketPolicyL_nil ld) q
      by_cases h9 : alGet rkvs "Type" = some (J.str "AWS::CloudFormation::Stack")
      · rw [evalE_stack nt ld lid rkvs props sh pv h9 hgp] at hrun
        rcases halg : alGet props "TemplateBody" with _ | tv
        · rw [halg] at hrun
          dsimp only at hrun
          injection hrun with hX
          subst hX
          dsimp only
          refine ⟨false, ?_⟩
          have he := evalE_stack nt ld lid rkvs props sh q h9 hgp
          rw [halg] at he
          exact he
        · rw [halg] at hrun
          cases tv with
          | str tb =>
            dsimp only at hrun
            by_cases hne : sTrim tb ≠ ""
            · rw [if_pos hne] at hrun
              by_cases hch : nt tb ≠ tb
              · rw [if_pos hch] at hrun
                injection hrun with hX
                subst hX
                dsimp only
                have hnt : nt (nt tb) = nt tb :=
                  (hck rkvs props sh rfl hgp).2 h9 tb halg hne
                cases sh with
                | false =>
                  have hpr : props = [] := getPropsV_false_nil rkvs props hgp
                  subst hpr
                  cases halg
                | true =>
                  refine ⟨false, ?_⟩
                  rw [putProps_true]
                  have hT2 : alGet (alSet rkvs "Properties"
                      (J.obj (alSet props "TemplateBody" (J.str (nt tb))))) "Type" =
                      some (J.str "AWS::CloudFormation::Stack") := by
                    rw [alGet_alSet_ne _ "Properties" "Type" _ (by decide)]
                    exact h9
                  have hgp2 := getPropsV_alSet_props rkvs
                    (alSet props "TemplateBody" (J.str (nt tb)))
                  have hpe : (alSet props "TemplateBody" (J.str (nt tb))).isEmpty = false := by
                    have := alSet_ne_nil props "TemplateBody" (J.str (nt tb))
                    simpa [List.isEmpty_iff] using this
                  rw [if_neg (by rw [hpe]; decide)] at hgp2
                  have he := evalE_stack nt ld lid _ _ true q hT2 hgp2
                  rw [alGet_alSet_self] at he
                  dsimp only at he
                  by_cases hne2 : sTrim (nt tb) ≠ ""
                  · rw [if_pos hne2, if_neg (by
                      intro hcon
                      exact hcon hnt)] at he
                    exact he
                  · rw [if_neg hne2] at he
                    exact he
              · rw [if_neg hch] at hrun
                injection hrun with hX
                subst hX
                dsimp only
                refine ⟨false, ?_⟩
                have he := evalE_stack nt ld lid rkvs props sh q h9 hgp
                rw [halg] at he
                dsimp only at he
                rw [if_pos hne, if_neg hch] at he
                exact he
            · rw [if_neg hne] at hrun
              injection hrun with hX
              subst hX
              dsimp only
              refine ⟨false, ?_⟩
              have he := evalE_stack nt ld lid rkvs props sh q h9 hgp
              rw [halg] at he
              dsimp only at he
              rw [if_neg hne] at he
              exact he
          | null =>
            dsimp only at hrun
            injection hrun with hX
            subst hX
            dsimp only
            refine ⟨false, ?_⟩
            have he := evalE_stack nt ld lid rkvs props sh q h9 hgp
            rw [halg] at he
            exact he
          | bool b =>
            dsimp only at hrun
            injection hrun with hX
            subst hX
            dsimp only
            refine ⟨false, ?_⟩
            have he := evalE_stack nt ld lid rkvs props sh q h9 hgp
            rw [halg] at he
            exact he
          | num n =>
            dsimp only at hrun
            injection hrun with hX
            subst hX
            dsimp only
            refine ⟨false, ?_⟩
            have he := evalE_stack nt ld lid rkvs props sh q h9 hgp
            rw [halg] at he
            exact he
          | arr xs =>
            dsimp only at hrun
            injection hrun with hX
            subst hX
            dsimp only
            refine ⟨false, ?_⟩
            have he := evalE_stack nt ld lid rkvs props sh q h9 hgp
            rw [halg] at he
            exact he
          | obj kvs2 =>
            dsimp only at hrun
            injection hrun with hX
            subst hX
            dsimp only
            refine ⟨false, ?_⟩
            have he := evalE_stack nt ld lid rkvs props sh q h9 hgp
            rw [halg] at he
            exact he
      · rw [evalE_other_obj nt ld lid rkvs props sh pv hgp h1 h2 h3 h4 h5 h6 h7 h8 h9] at hrun
        injection hrun with hX
        subst hX
        dsimp only
        exact ⟨false, evalE_other_obj nt ld lid rkvs props sh q hgp h1 h2 h3 h4 h5 h6 h7 h8 h9⟩
    case rawP =>
      by_cases h1 : alGet rkvs "Type" = some (J.str "AWS::AutoScaling::ScalingPolicy")
      · rw [evalE_raw_none nt ld lid rkvs v pv hgp (Or.inl h1)] at hrun
        simp at hrun
      by_cases h2 : alGet rkvs "Type" = some (J.str "AWS::ApiGateway::Stage")
      · by_cases hsr : stageRawRaiseB v = true
        · rw [evalE_raw_none nt ld lid rkvs v pv hgp (Or.inr (Or.inl ⟨h2, hsr⟩))] at hrun
          simp at hrun
        · rw [evalE_raw_stage nt ld lid rkvs v pv h2 hgp (by simpa using hsr)] at hrun
          injection hrun with hX
          subst hX
          dsimp only
          exact ⟨false, evalE_raw_stage nt ld lid rkvs v q h2 hgp (by simpa using hsr)⟩
      by_cases h3 : alGet rkvs "Type" = some (J.str "AWS::CloudFront::Distribution")
      · rw [evalE_raw_none nt ld lid rkvs v pv hgp (Or.inr (Or.inr (Or.inl h3)))] at hrun
        simp at hrun
      by_cases h4 : alGet rkvs "Type" = some (J.str "AWS::EC2::Instance")
      · rw [evalE_raw_none nt ld lid rkvs v pv hgp
          (Or.inr (Or.inr (Or.inr (Or.inl h4))))] at hrun
        simp at hrun
      by_cases h5 : alGet rkvs "Type" = some (J.str "AWS::ApiGateway::Resource")
      · rw [evalE_raw_none nt ld lid rkvs v pv hgp
          (Or.inr (Or.inr (Or.inr (Or.inr (Or.inl h5)))))] at hrun
        simp at hrun
      by_cases h6 : alGet rkvs "Type" = some (J.str "AWS::Logs::LogGroup")
      · rw [evalE_raw_none nt ld lid rkvs v pv hgp
          (Or.inr (Or.inr (Or.inr (Or.inr (Or.inr (Or.inl h6))))))] at hrun
        simp at hrun
      by_cases h7 : alGet rkvs "Type" = some (J.str "AWS::S3::Bucket")
      · rw [evalE_raw_none nt ld lid rkvs v pv hgp
          (Or.inr (Or.inr (Or.inr (Or.inr (Or.inr (Or.inr (Or.inl h7)))))))] at hrun
        simp at hrun
      by_cases h8 : alGet rkvs "Type" = some (J.str "AWS::S3::BucketPolicy")
      · rw [evalE_raw_none nt ld lid rkvs v pv hgp
          (Or.inr (Or.inr (Or.inr (Or.inr (Or.inr (Or.inr (Or.inr (Or.inl h8))))))))] at hrun
        simp at hrun
      by_cases h9 : alGet rkvs "Type" = some (J.str "AWS::CloudFormation::Stack")
      · rw [evalE_raw_none nt ld lid rkvs v pv hgp
          (Or.inr (Or.inr (Or.inr (Or.inr (Or.inr (Or.inr (Or.inr (Or.inr h9))))))))] at hrun
        simp at hrun
      rw [evalE_raw_other nt ld lid rkvs v pv hgp h1 h2 h3 h4 h5 h6 h7 h8 h9] at hrun
      injection hrun with hX
      subst hX
      dsimp only
      exact ⟨false, evalE_raw_other nt ld lid rkvs v q hgp h1 h2 h3 h4 h5 h6 h7 h8 h9⟩
  | null =>
    unfold normResourceE at hrun
    injection hrun with hX
    subst hX
    exact ⟨false, rfl⟩
  | bool b =>
    unfold normResourceE at hrun
    injection hrun with hX
    subst hX
    exact ⟨false, rfl⟩
  | num n =>
    unfold normResourceE at hrun
    injection hrun with hX
    subst hX
    exact ⟨false, rfl⟩
  | str s =>
    unfold normResourceE at hrun
    injection hrun with hX
    subst hX
    exact ⟨false, rfl⟩
  | arr xs =>
    unfold normResourceE at hrun
    injection hrun with hX
    subst hX
    exact ⟨false, rfl⟩

/-- Folding the rules over a resource list only ever adds the suffix
entry to the parameters value. -/
theorem normResourcesE_pv (nt : String → String) (ld : String → Option J)
    (rs : List (String × J)) :
    ∀ (pv : J) (r : List (String × J) × J × Bool),
    normResourcesE nt ld rs pv = some r →
    r.2.1 = pv ∨ pyInB "BucketNameSuffix" r.2.1 = some true := by
  induction rs with
  | nil =>
    intro pv r hrun
    unfold normResourcesE at hrun
    injection hrun with h
    subst h
    exact Or.inl rfl
  | cons hd tl ih =>
    obtain ⟨lid, rdef⟩ := hd
    intro pv r hrun
    unfold normResourcesE at hrun
    rcases h1 : normResourceE nt ld lid rdef pv with _ | r1
    · rw [h1] at hrun
      simp at hrun
    · rw [h1] at hrun
      dsimp only at hrun
      rcases h2 : normResourcesE nt ld tl r1.2.1 with _ | rr
      · rw [h2] at hrun
        simp at hrun
      · rw [h2] at hrun
        dsimp only at hrun
        injection hrun with h
        subst h
        dsimp only
        rcases ih _ _ h2 with h | h
        · rw [h]
          exact normResourceE_pv nt ld lid rdef pv r1 h1
        · exact Or.inr h

/-- Second pass over an already-processed resource list: every document
part is fixed and the parameters value is untouched. -/
theorem normResourcesE_stable (nt : String → String) (ld : String → Option J)
    (rs : List (String × J)) :
    ∀ (pv : J) (r : List (String × J) × J × Bool),
    normResourcesE nt ld rs pv = some r →
    (∀ lr ∈ rs, ResCheckP nt lr.2) →
    ∀ q : J, (pyInB "BucketNameSuffix" r.2.1 = some true →
      pyInB "BucketNameSuffix" q = some true) →
    ∃ c, normResourcesE nt ld r.1 q = some (r.1, q, c) := by
  induction rs with
  | nil =>
    intro pv r hrun _ q _
    unfold normResourcesE at hrun
    injection hrun with h
    subst h
    exact ⟨false, rfl⟩
  | cons hd tl ih =>
    obtain ⟨lid, rdef⟩ := hd
    intro pv r hrun hck q hq
    unfold normResourcesE at hrun
    rcases h1 : normResourceE nt ld lid rdef pv with _ | r1
    · rw [h1] at hrun
      simp at hrun
    · rw [h1] at hrun
      dsimp only at hrun
      rcases h2 : normResourcesE nt ld tl r1.2.1 with _ | rr
      · rw [h2] at hrun
        simp at hrun
      · rw [h2] at hrun
        dsimp only at hrun
        injection hrun with h
        subst h
        dsimp only at hq ⊢
        have hq1 : pyInB "BucketNameSuffix" r1.2.1 = some true →
            pyInB "BucketNameSuffix" q = some true := by
          intro hp
          rcases normResourcesE_pv nt ld tl r1.2.1 rr h2 with h | h
          · exact hq (h ▸ hp)
          · exact hq h
        obtain ⟨c1, hc1⟩ := normResourceE_stable nt ld lid rdef pv r1 h1
          (hck (lid, rdef) (List.mem_cons_self _ _)) q hq1
        obtain ⟨c2, hc2⟩ := ih r1.2.1 rr h2
          (fun lr hm => hck lr (List.mem_cons_of_mem _ hm)) q hq
        refine ⟨c1 || c2, ?_⟩
        unfold normResourcesE
        rw [hc1]
        dsimp only
        rw [hc2]

theorem resView_false (x : Option J) (rs : List (String × J))
    (h : resView x = some (rs, false)) : rs = [] := by
  cases x with
  | none =>
    unfold resView at h
    injection h with h1
    injection h1 with ha hb
    exact ha.symm
  | some v =>
    unfold resView at h
    dsimp only at h
    by_cases ht : jTruthy v = true
    · rw [if_pos ht] at h
      cases v <;> simp at h
    · rw [if_neg ht] at h
      injection h with h1
      injection h1 with ha hb
      exact ha.symm

theorem resView_true (x : Option J) (rs : List (String × J))
    (h : resView x = some (rs, true)) :
    x = some (J.obj rs) ∧ rs.isEmpty = false := by
  cases x with
  | none =>
    unfold resView at h
    simp at h
  | some v =>
    unfold resView at h
    dsimp only at h
    by_cases ht : jTruthy v = true
    · rw [if_pos ht] at h
      cases v with
      | obj kvs2 =>
        dsimp only at h
        injection h with h1
        injection h1 with ha hb
        subst ha
        refine ⟨rfl, ?_⟩
        unfold jTruthy at ht
        simpa using ht
      | null => simp at h
      | bool b => simp at h
      | num n => simp at h
      | str s2 => simp at h
      | arr xs => simp at h
    · rw [if_neg ht] at h
      simp at h

theorem normResourcesE_ne_nil (nt : String → String) (ld : String → Option J)
    (rs : List (String × J)) (pv : J) (r : List (String × J) × J × Bool)
    (hne : rs.isEmpty = false)
    (hrun : normResourcesE nt ld rs pv = some r) : r.1.isEmpty = false := by
  cases rs with
  | nil => simp at hne
  | cons hd tl =>
    obtain ⟨lid, rdef⟩ := hd
    unfold normResourcesE at hrun
    rcases h1 : normResourceE nt ld lid rdef pv with _ | r1
    · rw [h1] at hrun
      simp at hrun
    · rw [h1] at hrun
      dsimp only at hrun
      rcases h2 : normResourcesE nt ld tl r1.2.1 with _ | rr
      · rw [h2] at hrun
        simp at hrun
      · rw [h2] at hrun
        dsimp only at hrun
        injection hrun with h
        subst h
        rfl

/-- A second JSON structural pass over an already-rewritten document
leaves it unchanged whenever it reports a change. -/
theorem structuralPassE_stable (nt : String → String) (ld : String → Option J)
    (kvs kvsOut : List (String × J))
    (hrun : structuralPassE nt ld kvs = some (kvsOut, true))
    (hck : ∀ lr ∈ resourcesOf kvs, ResCheckP nt lr.2) :
    ∃ r, structuralPassE nt ld kvsOut = some r ∧ (r.2 = true → r.1 = kvsOut) := by
  unfold structuralPassE at hrun
  rcases hrv : resView (alGet kvs "Resources") with _ | rv
  · rw [hrv] at hrun
    simp at hrun
  obtain ⟨rs, rvb⟩ := rv
  rw [hrv] at hrun
  dsimp only at hrun
  set kvs1 := (if alHas kvs "Parameters" then kvs
    else kvs ++ [("Parameters", J.obj [])]) with hkvs1
  set pv := (alGet kvs1 "Parameters").getD (J.obj []) with hpv
  rcases h2 : normResourcesE nt ld rs pv with _ | rr
  · rw [h2] at hrun
    simp at hrun
  rw [h2] at hrun
  dsimp only at hrun
  cases rvb with
  | false =>
    have hrs : rs = [] := resView_false _ rs hrv
    subst hrs
    unfold normResourcesE at h2
    injection h2 with h2e
    rw [← h2e] at hrun
    simp at hrun
  | true =>
    obtain ⟨hgky, hrsne⟩ := resView_true _ rs hrv
    by_cases hch : rr.2.2 = true
    · rw [if_pos hch, if_pos rfl] at hrun
      injection hrun with h
      injection h with hA hB
      subst hA
      have hgR : alGet (alSet (alSet kvs1 "Parameters" rr.2.1) "Resources"
          (J.obj rr.1)) "Resources" = some (J.obj rr.1) := alGet_alSet_self _ _ _
      have hgP : alGet (alSet (alSet kvs1 "Parameters" rr.2.1) "Resources"
          (J.obj rr.1)) "Parameters" = some rr.2.1 := by
        rw [alGet_alSet_ne _ "Resources" "Parameters" _ (by decide)]
        exact alGet_alSet_self _ _ _
      have hrr1 : (rr.1).isEmpty = false :=
        normResourcesE_ne_nil nt ld rs pv rr hrsne h2
      have hjt : jTruthy (J.obj rr.1) = true := by
        unfold jTruthy
        dsimp only
        rw [hrr1]
        decide
      have hrv2 : resView (alGet (alSet (alSet kvs1 "Parameters" rr.2.1) "Resources"
          (J.obj rr.1)) "Resources") = some (rr.1, true) := by
        rw [hgR]
        unfold resView
        dsimp only
        rw [if_pos hjt]
      have hhas : alHas (alSet (alSet kvs1 "Parameters" rr.2.1) "Resources"
          (J.obj rr.1)) "Parameters" = true := by
        unfold alHas
        rw [hgP]
        rfl
      have hro : resourcesOf kvs = rs := by
        unfold resourcesOf
        rw [hrv]
      obtain ⟨c2, hc2⟩ := normResourcesE_stable nt ld rs pv rr h2
        (fun lr hm => hck lr (hro ▸ hm)) rr.2.1 (fun h => h)
      have hS : structuralPassE nt ld (alSet (alSet kvs1 "Parameters" rr.2.1)
          "Resources" (J.obj rr.1)) =
          some (alSet (alSet kvs1 "Parameters" rr.2.1) "Resources" (J.obj rr.1), c2) := by
        unfold structuralPassE
        rw [hrv2]
        dsimp only
        rw [if_pos hhas, hgP, Option.getD_some, hc2]
        dsimp only
        cases c2 with
        | false => rw [if_neg (by decide)]
        | true =>
          rw [if_pos rfl, if_pos rfl]
          rw [alSet_self_get _ _ _ hgP, alSet_self_get _ _ _ hgR]
      refine ⟨_, hS, ?_⟩
      intro _
      rfl
    · rw [if_neg hch] at hrun
      injection hrun with h
      injection h with hA hB
      cases hB

/-! ## Evaluation lemmas for the YAML structural phase -/

theorem evalYE_log (nt : String → String) (ld : String → Option J) (lid : String)
    (rk props : List (String × J)) (sh : Bool) (w : J)
    (hT : alGet rk "Type" = some (J.str "AWS::Logs::LogGroup"))
    (hgp : getPropsV rk = .objP props sh) :
    normResourceYE nt ld lid (J.obj rk) w =
      some (J.obj (putProps rk sh (fixLogGroup props).1), w, (fixLogGroup props).2) := by
  unfold normResourceYE
  dsimp only
  rw [hgp]
  dsimp only
  rw [hT, if_pos rfl]

theorem evalYE_scaling (nt : String → String) (ld : String → Option J) (lid : String)
    (rk props : List (String × J)) (sh : Bool) (w : J)
    (hT : alGet rk "Type" = some (J.str "AWS::AutoScaling::ScalingPolicy"))
    (hgp : getPropsV rk = .objP props sh) :
    normResourceYE nt ld lid (J.obj rk) w =
      some (J.obj (putProps rk sh (fixScalingAlias props).1), w, (fixScalingAlias props).2) := by
  unfold normResourceYE
  dsimp only
  rw [hgp]
  dsimp only
  rw [hT, if_neg (by decide), if_pos rfl]

theorem evalYE_s3 (nt : String → String) (ld : String → Option J) (lid : String)
    (rk props : List (String × J)) (sh : Bool) (w : J)
    (hT : alGet rk "Type" = some (J.str "AWS::S3::Bucket"))
    (hgp : getPropsV rk = .objP props sh) :
    normResourceYE nt ld lid (J.obj rk) w =
      (match fixS3BucketE lid props w with
       | none => none
       | some r => some (J.obj (putProps rk sh r.1), r.2.1, r.2.2)) := by
  unfold normResourceYE
  dsimp only
  rw [hgp]
  dsimp only
  rw [hT, if_neg (by decide), if_neg (by decide), if_pos rfl]

theorem evalYE_bp (nt : String → String) (ld : String → Option J) (lid : String)
    (rk props : List (String × J)) (sh : Bool) (w : J)
    (hT : alGet rk "Type" = some (J.str "AWS::S3::BucketPolicy"))
    (hgp : getPropsV rk = .objP props sh) :
    normResourceYE nt ld lid (J.obj rk) w =
      some (J.obj (putProps rk sh (fixBucketPolicyL ld props).1), w,
        (fixBucketPolicyL ld props).2) := by
  unfold normResourceYE
  dsimp only
  rw [hgp]
  dsimp only
  rw [hT, if_neg (by decide), if_neg (by decide), if_neg (by decide), if_pos rfl]

theorem evalYE_stack (nt : String → String) (ld : String → Option J) (lid : String)
    (rk props : List (String × J)) (sh : Bool) (w : J)
    (hT : alGet rk "Type" = some (J.str "AWS::CloudFormation::Stack"))
    (hgp : getPropsV rk = .objP props sh) :
    normResourceYE nt ld lid (J.obj rk) w =
      (match alGet props "TemplateBody" with
       | some (J.str tb) =>
         if sTrim tb ≠ "" then
           if nt tb ≠ tb then
             some (J.obj (putProps rk sh (alSet props "TemplateBody" (J.str (nt tb)))), w, true)
           else some (J.obj rk, w, false)
         else some (J.obj rk, w, false)
       | _ => some (J.obj rk, w, false)) := by
  unfold normResourceYE
  dsimp only
  rw [hgp]
  dsimp only
  rw [hT, if_neg (by decide), if_neg (by decide), if_neg (by decide), if_neg (by decide),
    if_pos rfl]

theorem evalYE_other_obj (nt : String → String) (ld : String → Option J) (lid : String)
    (rk props : List (String × J)) (sh : Bool) (w : J)
    (hgp : getPropsV rk = .objP props sh)
    (h1 : ¬(alGet rk "Type" = some (J.str "AWS::Logs::LogGroup")))
    (h2 : ¬(alGet rk "Type" = some (J.str "AWS::AutoScaling::ScalingPolicy")))
    (h3 : ¬(alGet rk "Type" = some (J.str "AWS::S3::Bucket")))
    (h4 : ¬(alGet rk "Type" = some (J.str "AWS::S3::BucketPolicy")))
    (h5 : ¬(alGet rk "Type" = some (J.str "AWS::CloudFormation::Stack"))) :
    normResourceYE nt ld lid (J.obj rk) w = some (J.obj rk, w, false) := by
  unfold normResourceYE
  dsimp only
  rw [hgp]
  dsimp only
  rw [if_neg h1, if_neg h2, if_neg h3, if_neg h4, if_neg h5]

theorem evalYE_raw_other (nt : String → String) (ld : String → Option J) (lid : String)
    (rk : List (String × J)) (v w : J)
    (hgp : getPropsV rk = .rawP v)
    (h1 : ¬(alGet rk "Type" = some (J.str "AWS::Logs::LogGroup")))
    (h2 : ¬(alGet rk "Type" = some (J.str "AWS::AutoScaling::ScalingPolicy")))
    (h3 : ¬(alGet rk "Type" = some (J.str "AWS::S3::Bucket")))
    (h4 : ¬(alGet rk "Type" = some (J.str "AWS::S3::BucketPolicy")))
    (h5 : ¬(alGet rk "Type" = some (J.str "AWS::CloudFormation::Stack"))) :
    normResourceYE nt ld lid (J.obj rk) w = some (J.obj rk, w, false) := by
  unfold normResourceYE
  dsimp only
  rw [hgp]
  dsimp only
  rw [if_neg h1, if_neg h2, if_neg h3, if_neg h4, if_neg h5]

theorem evalYE_raw_scaling (nt : String → String) (ld : String → Option J) (lid : String)
    (rk : List (String × J)) (v w : J)
    (hT : alGet rk "Type" = some (J.str "AWS::AutoScaling::ScalingPolicy"))
    (hgp : getPropsV rk = .rawP v) (hok : scalingRawOkB v = true) :
    normResourceYE nt ld lid (J.obj rk) w = some (J.obj rk, w, false) := by
  unfold normResourceYE
  dsimp only
  rw [hgp]
  dsimp only
  rw [hT, if_neg (by decide), if_pos rfl, if_pos hok]

theorem evalYE_raw_none (nt : String → String) (ld : String → Option J) (lid : String)
    (rk : List (String × J)) (v w : J)
    (hgp : getPropsV rk = .rawP v)
    (hcase : alGet rk "Type" = some (J.str "AWS::Logs::LogGroup") ∨
      (alGet rk "Type" = some (J.str "AWS::AutoScaling::ScalingPolicy") ∧
        scalingRawOkB v = false) ∨
      alGet rk "Type" = some (J.str "AWS::S3::Bucket") ∨
      alGet rk "Type" = some (J.str "AWS::S3::BucketPolicy") ∨
      alGet rk "Type" = some (J.str "AWS::CloudFormation::Stack")) :
    normResourceYE nt ld lid (J.obj rk) w = none := by
  unfold normResourceYE
  dsimp only
  rw [hgp]
  dsimp only
  rcases hcase with hT | ⟨hT, hsr⟩ | hT | hT | hT
  · rw [hT, if_pos rfl]
  · rw [hT, if_neg (by decide), if_pos rfl, if_neg (by rw [hsr]; simp)]
  · rw [hT, if_neg (by decide), if_neg (by decide), if_pos rfl]
  · rw [hT, if_neg (by decide), if_neg (by decide), if_neg (by decide), if_pos rfl]
  · rw [hT, if_neg (by decide), if_neg (by decide), if_neg (by decide), if_neg (by decide),
      if_pos rfl]

/-- Generic second-pass argument for a property-rewriting rule of the
YAML phase whose fix function is total and idempotent on its own
output. -/
theorem ruleYE_stable (nt : String → String) (ld : String → Option J) (lid : String)
    (rk : List (String × J)) (T : String)
    (fixX : List (String × J) → List (String × J) × Bool)
    (heval : ∀ (rk2 props2 : List (String × J)) (sh2 : Bool) (w : J),
      alGet rk2 "Type" = some (J.str T) → getPropsV rk2 = .objP props2 sh2 →
      normResourceYE nt ld lid (J.obj rk2) w =
        some (J.obj (putProps rk2 sh2 (fixX props2).1), w, (fixX props2).2))
    (hT : alGet rk "Type" = some (J.str T))
    (props : List (String × J)) (sh : Bool)
    (hgp : getPropsV rk = .objP props sh)
    (hidem : fixX ((fixX props).1) = ((fixX props).1, false))
    (hnil : fixX [] = ([], false)) (q : J) :
    ∃ c, normResourceYE nt ld lid (J.obj (putProps rk sh (fixX props).1)) q =
      some (J.obj (putProps rk sh (fixX props).1), q, c) := by
  cases sh with
  | false =>
    have hpr : props = [] := getPropsV_false_nil rk props hgp
    subst hpr
    refine ⟨false, ?_⟩
    rw [hnil]
    dsimp only
    rw [putProps_false]
    have he := heval rk [] false q hT hgp
    rw [hnil] at he
    dsimp only at he
    rw [putProps_false] at he
    exact he
  | true =>
    rw [putProps_true]
    have hT2 : alGet (alSet rk "Properties" (J.obj (fixX props).1)) "Type" =
        some (J.str T) := by
      rw [alGet_alSet_ne _ "Properties" "Type" _ (by decide)]
      exact hT
    have hgp2 := getPropsV_alSet_props rk (fixX props).1
    by_cases hpe : ((fixX props).1).isEmpty = true
    · rw [if_pos hpe] at hgp2
      refine ⟨false, ?_⟩
      have he := heval _ [] false q hT2 hgp2
      rw [hnil] at he
      dsimp only at he
      rw [putProps_false] at he
      exact he
    · rw [if_neg hpe] at hgp2
      refine ⟨false, ?_⟩
      have he := heval _ ((fixX props).1) true q hT2 hgp2
      rw [hidem] at he
      dsimp only at he
      rw [putProps_true] at he
      rw [alSet_self_get _ _ _ (alGet_alSet_self rk "Properties" (J.obj (fixX props).1))] at he
      exact he

/-- The YAML phase also only ever adds the suffix entry to the
parameters value. -/
theorem normResourceYE_pv (nt : String → String) (ld : String → Option J) (lid : String)
    (rdef pv : J) (r : J × J × Bool)
    (hrun : normResourceYE nt ld lid rdef pv = some r) :
    r.2.1 = pv ∨ pyInB "BucketNameSuffix" r.2.1 = some true := by
  cases rdef with
  | obj rkvs =>
    rcases hgp : getPropsV rkvs with ⟨props, sh⟩ | ⟨v⟩
    case objP =>
      by_cases h1 : alGet rkvs "Type" = some (J.str "AWS::Logs::LogGroup")
      · rw [evalYE_log nt ld lid rkvs props sh pv h1 hgp] at hrun
        injection hrun with hX
        subst hX
        exact Or.inl rfl
      by_cases h2 : alGet rkvs "Type" = some (J.str "AWS::AutoScaling::ScalingPolicy")
      · rw [evalYE_scaling nt ld lid rkvs props sh pv h2 hgp] at hrun
        injection hrun with hX
        subst hX
        exact Or.inl rfl
      by_cases h3 : alGet rkvs "Type" = some (J.str "AWS::S3::Bucket")
      · rw [evalYE_s3 nt ld lid rkvs props sh pv h3 hgp] at hrun
        rcases hfx : fixS3BucketE lid props pv with _ | rr
        · rw [hfx] at hrun
          simp at hrun
        · rw [hfx] at hrun
          dsimp only at hrun
          injection hrun with hX
          subst hX
          dsimp only
          exact fixS3BucketE_pv lid props pv rr hfx
      by_cases h4 : alGet rkvs "Type" = some (J.str "AWS::S3::BucketPolicy")
      · rw [evalYE_bp nt ld lid rkvs props sh pv h4 hgp] at hrun
        injection hrun with hX
        subst hX
        exact Or.inl rfl
      by_cases h5 : alGet rkvs "Type" = some (J.str "AWS::CloudFormation::Stack")
      · rw [evalYE_stack nt ld lid rkvs props sh pv h5 hgp] at hrun
        rcases halg : alGet props "TemplateBody" with _ | tv
        · rw [halg] at hrun
          dsimp only at hrun
          injection hrun with hX
          subst hX
          exact Or.inl rfl
        · rw [halg] at hrun
          cases tv with
          | str tb =>
            dsimp only at hrun
            by_cases hne : sTrim tb ≠ ""
            · rw [if_pos hne] at hrun
              by_cases hch : nt tb ≠ tb
              · rw [if_pos hch] at hrun
                injection hrun with hX
                subst hX
                exact Or.inl rfl
              · rw [if_neg hch] at hrun
                injection hrun with hX
                subst hX
                exact Or.inl rfl
            · rw [if_neg hne] at hrun
              injection hrun with hX
              subst hX
              exact Or.inl rfl
          | null =>
            dsimp only at hrun
            injection hrun with hX
            subst hX
            exact Or.inl rfl
          | bool b =>
            dsimp only at hrun
            injection hrun with hX
            subst hX
            exact Or.inl rfl
          | num n =>
            dsimp only at hrun
            injection hrun with hX
            subst hX
            exact Or.inl rfl
          | arr xs =>
            dsimp only at hrun
            injection hrun with hX
            subst hX
            exact Or.inl rfl
          | obj kvs2 =>
            dsimp only at hrun
            injection hrun with hX
            subst hX
            exact Or.inl rfl
      · rw [evalYE_other_obj nt ld lid rkvs props sh pv hgp h1 h2 h3 h4 h5] at hrun
        injection hrun with hX
        subst hX
        exact Or.inl rfl
    case rawP =>
      by_cases h1 : alGet rkvs "Type" = some (J.str "AWS::Logs::LogGroup")
      · rw [evalYE_raw_none nt ld lid rkvs v pv hgp (Or.inl h1)] at hrun
        simp at hrun
      by_cases h2 : alGet rkvs "Type" = some (J.str "AWS::AutoScaling::ScalingPolicy")
      · by_cases hok : scalingRawOkB v = true
        · rw [evalYE_raw_scaling nt ld lid rkvs v pv h2 hgp hok] at hrun
          injection hrun with hX
          subst hX
          exact Or.inl rfl
        · rw [evalYE_raw_none nt ld lid rkvs v pv hgp
            (Or.inr (Or.inl ⟨h2, by simpa using hok⟩))] at hrun
          simp at hrun
      by_cases h3 : alGet rkvs "Type" = some (J.str "AWS::S3::Bucket")
      · rw [evalYE_raw_none nt ld lid rkvs v pv hgp (Or.inr (Or.inr (Or.inl h3)))] at hrun
        simp at hrun
      by_cases h4 : alGet rkvs "Type" = some (J.str "AWS::S3::BucketPolicy")
      · rw [evalYE_raw_none nt ld lid rkvs v pv hgp
          (Or.inr (Or.inr (Or.inr (Or.inl h4))))] at hrun
        simp at hrun
      by_cases h5 : alGet rkvs "Type" = some (J.str "AWS::CloudFormation::Stack")
      · rw [evalYE_raw_none nt ld lid rkvs v pv hgp
          (Or.inr (Or.inr (Or.inr (Or.inr h5))))] at hrun
        simp at hrun
      rw [evalYE_raw_other nt ld lid rkvs v pv hgp h1 h2 h3 h4 h5] at hrun
      injection hrun with hX
      subst hX
      exact Or.inl rfl
  | null =>
    unfold normResourceYE at hrun
    injection hrun with hX
    subst hX
    exact Or.inl rfl
  | bool b =>
    unfold normResourceYE at hrun
    injection hrun with hX
    subst hX
    exact Or.inl rfl
  | num n =>
    unfold normResourceYE at hrun
    injection hrun with hX
    subst hX
    exact Or.inl rfl
  | str s =>
    unfold normResourceYE at hrun
    injection hrun with hX
    subst hX
    exact Or.inl rfl
  | arr xs =>
    unfold normResourceYE at hrun
    injection hrun with hX
    subst hX
    exact Or.inl rfl

/-- Second YAML pass over one already-processed resource: the document
part is fixed and the parameters value is untouched. -/
theorem normResourceYE_stable (nt : String → String) (ld : String → Option J) (lid : String)
    (rdef pv : J) (r : J × J × Bool)
    (hrun : normResourceYE nt ld lid rdef pv = some r)
    (hck : ResCheckP nt rdef)
    (q : J) (hq : pyInB "BucketNameSuffix" r.2.1 = some true →
      pyInB "BucketNameSuffix" q = some true) :
    ∃ c, normResourceYE nt ld lid r.1 q = some (r.1, q, c) := by
  cases rdef with
  | obj rkvs =>
    rcases hgp : getPropsV rkvs with ⟨props, sh⟩ | ⟨v⟩
    case objP =>
      by_cases h1 : alGet rkvs "Type" = some (J.str "AWS::Logs::LogGroup")
      · rw [evalYE_log nt ld lid rkvs props sh pv h1 hgp] at hrun
        injection hrun with hX
        subst hX
        dsimp only
        exact ruleYE_stable nt ld lid rkvs _ fixLogGroup
          (fun rk2 props2 sh2 w hT2 hgp2 => evalYE_log nt ld lid rk2 props2 sh2 w hT2 hgp2)
          h1 props sh hgp (fixLogGroup_idem props) fixLogGroup_nil q
      by_cases h2 : alGet rkvs "Type" = some (J.str "AWS::AutoScaling::ScalingPolicy")
      · rw [evalYE_scaling nt ld lid rkvs props sh pv h2 hgp] at hrun
        injection hrun with hX
        subst hX
        dsimp only
        exact ruleYE_stable nt ld lid rkvs _ fixScalingAlias
          (fun rk2 props2 sh2 w hT2 hgp2 => evalYE_scaling nt ld lid rk2 props2 sh2 w hT2 hgp2)
          h2 props sh hgp
          (fixScalingAlias_idem props ((hck rkvs props sh rfl hgp).1 h2))
          fixScalingAlias_nil q
      by_cases h3 : alGet rkvs "Type" = some (J.str "AWS::S3::Bucket")
      · rw [evalYE_s3 nt ld lid rkvs props sh pv h3 hgp] at hrun
        rcases hfx : fixS3BucketE lid props pv with _ | rr
        · rw [hfx] at hrun
          simp at hrun
        · rw [hfx] at hrun
          dsimp only at hrun
          injection hrun with hX
          subst hX
          dsimp only
          dsimp only at hq
          by_cases hc : s3CondB props = true
          · obtain ⟨hrr1, _, hrrpv⟩ := fixS3BucketE_fire lid props pv rr hc hfx
            have hqt : pyInB "BucketNameSuffix" q = some true := hq hrrpv
            cases sh with
            | false =>
              have hpr : props = [] := getPropsV_false_nil rkvs props hgp
              subst hpr
              refine ⟨true, ?_⟩
              rw [putProps_false]
              have he := evalYE_s3 nt ld lid rkvs [] false q h3 hgp
              have hfx2 : fixS3BucketE lid [] q =
                  some (alSet [] "BucketName" (s3NameVal lid), q, true) := by
                unfold fixS3BucketE
                rw [if_pos s3CondB_nil, hqt]
              rw [hfx2] at he
              dsimp only at he
              rw [putProps_false] at he
              exact he
            | true =>
              refine ⟨false, ?_⟩
              rw [putProps_true]
              have hT2 : alGet (alSet rkvs "Properties" (J.obj rr.1)) "Type" =
                  some (J.str "AWS::S3::Bucket") := by
                rw [alGet_alSet_ne _ "Properties" "Type" _ (by decide)]
                exact h3
              have hgp2 := getPropsV_alSet_props rkvs rr.1
              have hpe : (rr.1).isEmpty = false := by
                rw [hrr1]
                have := alSet_ne_nil props "BucketName" (s3NameVal lid)
                simpa [List.isEmpty_iff] using this
              rw [if_neg (by rw [hpe]; decide)] at hgp2
              have he := evalYE_s3 nt ld lid _ (rr.1) true q hT2 hgp2
              have hfx2 : fixS3BucketE lid (rr.1) q = some (rr.1, q, false) := by
                refine fixS3BucketE_nofire lid _ q ?_
                rw [hrr1]
                exact s3CondB_nameVal props lid
              rw [hfx2] at he
              dsimp only at he
              rw [putProps_true] at he
              rw [alSet_self_get _ _ _
                (alGet_alSet_self rkvs "Properties" (J.obj rr.1))] at he
              exact he
          · have hcf : s3CondB props = false := by simpa using hc
            have hrr : rr = (props, pv, false) := by
              rw [fixS3BucketE_nofire lid props pv hcf] at hfx
              injection hfx with h2e
              exact h2e.symm
            subst hrr
            dsimp only
            cases sh with
            | false =>
              have hpr : props = [] := getPropsV_false_nil rkvs props hgp
              subst hpr
              rw [s3CondB_nil] at hcf
              cases hcf
            | true =>
              refine ⟨false, ?_⟩
              rw [putProps_true]
              have hT2 : alGet (alSet rkvs "Properties" (J.obj props)) "Type" =
                  some (J.str "AWS::S3::Bucket") := by
                rw [alGet_alSet_ne _ "Properties" "Type" _ (by decide)]
                exact h3
              have hgp2 := getPropsV_alSet_props rkvs props
              have hpe : props.isEmpty = false := (getPropsV_true_get rkvs props hgp).2
              rw [if_neg (by rw [hpe]; decide)] at hgp2
              have he := evalYE_s3 nt ld lid _ props true q hT2 hgp2
              rw [fixS3BucketE_nofire lid props q hcf] at he
              dsimp only at he
              rw [putProps_true] at he
              rw [alSet_self_get _ _ _
                (alGet_alSet_self rkvs "Properties" (J.obj props))] at he
              exact he
      by_cases h4 : alGet rkvs "Type" = some (J.str "AWS::S3::BucketPolicy")
      · rw [evalYE_bp nt ld lid rkvs props sh pv h4 hgp] at hrun
        injection hrun with hX
        subst hX
        dsimp only
        exact ruleYE_stable nt ld lid rkvs _ (fixBucketPolicyL ld)
          (fun rk2 props2 sh2 w hT2 hgp2 => evalYE_bp nt ld lid rk2 props2 sh2 w hT2 hgp2)
          h4 props sh hgp (fixBucketPolicyL_idem ld props) (fixBucketPolicyL_nil ld) q
      by_cases h5 : alGet rkvs "Type" = some (J.str "AWS::CloudFormation::Stack")
      · rw [evalYE_stack nt ld lid rkvs props sh pv h5 hgp] at hrun
        rcases halg : alGet props "TemplateBody" with _ | tv
        · rw [halg] at hrun
          dsimp only at hrun
          injection hrun with hX
          subst hX
          dsimp only
          refine ⟨false, ?_⟩
          have he := evalYE_stack nt ld lid rkvs props sh q h5 hgp
          rw [halg] at he
          exact he
        · rw [halg] at hrun
          cases tv with
          | str tb =>
            dsimp only at hrun
            by_cases hne : sTrim tb ≠ ""
            · rw [if_pos hne] at hrun
              by_cases hch : nt tb ≠ tb
              · rw [if_pos hch] at hrun
                injection hrun with hX
                subst hX
                dsimp only
                have hnt : nt (nt tb) = nt tb :=
                  (hck rkvs props sh rfl hgp).2 h5 tb halg hne
                cases sh with
                | false =>
                  have hpr : props = [] := getPropsV_false_nil rkvs props hgp
                  subst hpr
                  cases halg
                | true =>
                  refine ⟨false, ?_⟩
                  rw [putProps_true]
                  have hT2 : alGet (alSet rkvs "Properties"
                      (J.obj (alSet props "TemplateBody" (J.str (nt tb))))) "Type" =
                      some (J.str "AWS::CloudFormation::Stack") := by
                    rw [alGet_alSet_ne _ "Properties" "Type" _ (by decide)]
                    exact h5
                  have hgp2 := getPropsV_alSet_props rkvs
                    (alSet props "TemplateBody" (J.str (nt tb)))
                  have hpe : (alSet props "TemplateBody" (J.str (nt tb))).isEmpty = false := by
                    have := alSet_ne_nil props "TemplateBody" (J.str (nt tb))
                    simpa [List.isEmpty_iff] using this
                  rw [if_neg (by rw [hpe]; decide)] at hgp2
                  have he := evalYE_stack nt ld lid _ _ true q hT2 hgp2
                  rw [alGet_alSet_self] at he
                  dsimp only at he
                  by_cases hne2 : sTrim (nt tb) ≠ ""
                  · rw [if_pos hne2, if_neg (by
                      intro hcon
                      exact hcon hnt)] at he
                    exact he
                  · rw [if_neg hne2] at he
                    exact he
              · rw [if_neg hch] at hrun
                injection hrun with hX
                subst hX
                dsimp only
                refine ⟨false, ?_⟩
                have he := evalYE_stack nt ld lid rkvs props sh q h5 hgp
                rw [halg] at he
                dsimp only at he
                rw [if_pos hne, if_neg hch] at he
                exact he
            · rw [if_neg hne] at hrun
              injection hrun with hX
              subst hX
              dsimp only
              refine ⟨false, ?_⟩
              have he := evalYE_stack nt ld lid rkvs props sh q h5 hgp
              rw [halg] at he
              dsimp only at he
              rw [if_neg hne] at he
              exact he
          | null =>
            dsimp only at hrun
            injection hrun with hX
            subst hX
            dsimp only
            refine ⟨false, ?_⟩
            have he := evalYE_stack nt ld lid rkvs props sh q h5 hgp
            rw [halg] at he
            exact he
          | bool b =>
            dsimp only at hrun
            injection hrun with hX
            subst hX
            dsimp only
            refine ⟨false, ?_⟩
            have he := evalYE_stack nt ld lid rkvs props sh q h5 hgp
            rw [halg] at he
            exact he
          | num n =>
            dsimp only at hrun
            injection hrun with hX
            subst hX
            dsimp only
            refine ⟨false, ?_⟩
            have he := evalYE_stack nt ld lid rkvs props sh q h5 hgp
            rw [halg] at he
            exact he
          | arr xs =>
            dsimp only at hrun
            injection hrun with hX
            subst hX
            dsimp only
            refine ⟨false, ?_⟩
            have he := evalYE_stack nt ld lid rkvs props sh q h5 hgp
            rw [halg] at he
            exact he
          | obj kvs2 =>
            dsimp only at hrun
            injection hrun with hX
            subst hX
            dsimp only
            refine ⟨false, ?_⟩
            have he := evalYE_stack nt ld lid rkvs props sh q h5 hgp
            rw [halg] at he
            exact he
      · rw [evalYE_other_obj nt ld lid rkvs props sh pv hgp h1 h2 h3 h4 h5] at hrun
        injection hrun with hX
        subst hX
        dsimp only
        exact ⟨false, evalYE_other_obj nt ld lid rkvs props sh q hgp h1 h2 h3 h4 h5⟩
    case rawP =>
      by_cases h1 : alGet rkvs "Type" = some (J.str "AWS::Logs::LogGroup")
      · rw [evalYE_raw_none nt ld lid rkvs v pv hgp (Or.inl h1)] at hrun
        simp at hrun
      by_cases h2 : alGet rkvs "Type" = some (J.str "AWS::AutoScaling::ScalingPolicy")
      · by_cases hok : scalingRawOkB v = true
        · rw [evalYE_raw_scaling nt ld lid rkvs v pv h2 hgp hok] at hrun
          injection hrun with hX
          subst hX
          dsimp only
          exact ⟨false, evalYE_raw_scaling nt ld lid rkvs v q h2 hgp hok⟩
        · rw [evalYE_raw_none nt ld lid rkvs v pv hgp
            (Or.inr (Or.inl ⟨h2, by simpa using hok⟩))] at hrun
          simp at hrun
      by_cases h3 : alGet rkvs "Type" = some (J.str "AWS::S3::Bucket")
      · rw [evalYE_raw_none nt ld lid rkvs v pv hgp (Or.inr (Or.inr (Or.inl h3)))] at hrun
        simp at hrun
      by_cases h4 : alGet rkvs "Type" = some (J.str "AWS::S3::BucketPolicy")
      · rw [evalYE_raw_none nt ld lid rkvs v pv hgp
          (Or.inr (Or.inr (Or.inr (Or.inl h4))))] at hrun
        simp at hrun
      by_cases h5 : alGet rkvs "Type" = some (J.str "AWS::CloudFormation::Stack")
      · rw [evalYE_raw_none nt ld lid rkvs v pv hgp
          (Or.inr (Or.inr (Or.inr (Or.inr h5))))] at hrun
        simp at hrun
      rw [evalYE_raw_other nt ld lid rkvs v pv hgp h1 h2 h3 h4 h5] at hrun
      injection hrun with hX
      subst hX
      dsimp only
      exact ⟨false, evalYE_raw_other nt ld lid rkvs v q hgp h1 h2 h3 h4 h5⟩
  | null =>
    unfold normResourceYE at hrun
    injection hrun with hX
    subst hX
    exact ⟨false, rfl⟩
  | bool b =>
    unfold normResourceYE at hrun
    injection hrun with hX
    subst hX
    exact ⟨false, rfl⟩
  | num n =>
    unfold normResourceYE at hrun
    injection hrun with hX
    subst hX
    exact ⟨false, rfl⟩
  | str s =>
    unfold normResourceYE at hrun
    injection hrun with hX
    subst hX
    exact ⟨false, rfl⟩
  | arr xs =>
    unfold normResourceYE at hrun
    injection hrun with hX
    subst hX
    exact ⟨false, rfl⟩

theorem normResourcesYE_pv (nt : String → String) (ld : String → Option J)
    (rs : List (String × J)) :
    ∀ (pv : J) (r : List (String × J) × J × Bool),
    normResourcesYE nt ld rs pv = some r →
    r.2.1 = pv ∨ pyInB "BucketNameSuffix" r.2.1 = some true := by
  induction rs with
  | nil =>
    intro pv r hrun
    unfold normResourcesYE at hrun
    injection hrun with h
    subst h
    exact Or.inl rfl
  | cons hd tl ih =>
    obtain ⟨lid, rdef⟩ := hd
    intro pv r hrun
    unfold normResourcesYE at hrun
    rcases h1 : normResourceYE nt ld lid rdef pv with _ | r1
    · rw [h1] at hrun
      simp at hrun
    · rw [h1] at hrun
      dsimp only at hrun
      rcases h2 : normResourcesYE nt ld tl r1.2.1 with _ | rr
      · rw [h2] at hrun
        simp at hrun
      · rw [h2] at hrun
        dsimp only at hrun
        injection hrun with h
        subst h
        dsimp only
        rcases ih _ _ h2 with h | h
        · rw [h]
          exact normResourceYE_pv nt ld lid rdef pv r1 h1
        · exact Or.inr h

theorem normResourcesYE_ne_nil (nt : String → String) (ld : String → Option J)
    (rs : List (String × J)) (pv : J) (r : List (String × J) × J × Bool)
    (hne : rs.isEmpty = false)
    (hrun : normResourcesYE nt ld rs pv = some r) : r.1.isEmpty = false := by
  cases rs with
  | nil => simp at hne
  | cons hd tl =>
    obtain ⟨lid, rdef⟩ := hd
    unfold normResourcesYE at hrun
    rcases h1 : normResourceYE nt ld lid rdef pv with _ | r1
    · rw [h1] at hrun
      simp at hrun
    · rw [h1] at hrun
      dsimp only at hrun
      rcases h2 : normResourcesYE nt ld tl r1.2.1 with _ | rr
      · rw [h2] at hrun
        simp at hrun
      · rw [h2] at hrun
        dsimp only at hrun
        injection hrun with h
        subst h
        rfl

theorem normResourcesYE_stable (nt : String → String) (ld : String → Option J)
    (rs : List (String × J)) :
    ∀ (pv : J) (r : List (String × J) × J × Bool),
    normResourcesYE nt ld rs pv = some r →
    (∀ lr ∈ rs, ResCheckP nt lr.2) →
    ∀ q : J, (pyInB "BucketNameSuffix" r.2.1 = some true →
      pyInB "BucketNameSuffix" q = some true) →
    ∃ c, normResourcesYE nt ld r.1 q = some (r.1, q, c) := by
  induction rs with
  | nil =>
    intro pv r hrun _ q _
    unfold normResourcesYE at hrun
    injection hrun with h
    subst h
    exact ⟨false, rfl⟩
  | cons hd tl ih =>
    obtain ⟨lid, rdef⟩ := hd
    intro pv r hrun hck q hq
    unfold normResourcesYE at hrun
    rcases h1 : normResourceYE nt ld lid rdef pv with _ | r1
    · rw [h1] at hrun
      simp at hrun
    · rw [h1] at hrun
      dsimp only at hrun
      rcases h2 : normResourcesYE nt ld tl r1.2.1 with _ | rr
      · rw [h2] at hrun
        simp at hrun
      · rw [h2] at hrun
        dsimp only at hrun
        injection hrun with h
        subst h
        dsimp only at hq ⊢
        have hq1 : pyInB "BucketNameSuffix" r1.2.1 = some true →
            pyInB "BucketNameSuffix" q = some true := by
          intro hp
          rcases normResourcesYE_pv nt ld tl r1.2.1 rr h2 with h | h
          · exact hq (h ▸ hp)
          · exact hq h
        obtain ⟨c1, hc1⟩ := normResourceYE_stable nt ld lid rdef pv r1 h1
          (hck (lid, rdef) (List.mem_cons_self _ _)) q hq1
        obtain ⟨c2, hc2⟩ := ih r1.2.1 rr h2
          (fun lr hm => hck lr (List.mem_cons_of_mem _ hm)) q hq
        refine ⟨c1 || c2, ?_⟩
        unfold normResourcesYE
        rw [hc1]
        dsimp only
        rw [hc2]

/-- A second YAML structural pass over an already-rewritten document
leaves it unchanged whenever it reports a change. -/
theorem yamlPassE_stable (nt : String → String) (ld : String → Option J)
    (kvs kvsOut : List (String × J))
    (hrun : yamlPassE nt ld kvs = some (kvsOut, true))
    (hck : ∀ lr ∈ resourcesOf kvs, ResCheckP nt lr.2) :
    ∃ r, yamlPassE nt ld kvsOut = some r ∧ (r.2 = true → r.1 = kvsOut) := by
  unfold yamlPassE at hrun
  rcases hrv : resView (alGet kvs "Resources") with _ | rv
  · rw [hrv] at hrun
    simp at hrun
  obtain ⟨rs, rvb⟩ := rv
  rw [hrv] at hrun
  dsimp only at hrun
  set kvs1 := (if alHas kvs "Parameters" then kvs
    else kvs ++ [("Parameters", J.obj [])]) with hkvs1
  set pv := (alGet kvs1 "Parameters").getD (J.obj []) with hpv
  rcases h2 : normResourcesYE nt ld rs pv with _ | rr
  · rw [h2] at hrun
    simp at hrun
  rw [h2] at hrun
  dsimp only at hrun
  cases rvb with
  | false =>
    have hrs : rs = [] := resView_false _ rs hrv
    subst hrs
    unfold normResourcesYE at h2
    injection h2 with h2e
    rw [← h2e] at hrun
    simp at hrun
  | true =>
    obtain ⟨hgky, hrsne⟩ := resView_true _ rs hrv
    by_cases hch : rr.2.2 = true
    · rw [if_pos hch, if_pos rfl] at hrun
      injection hrun with h
      injection h with hA hB
      subst hA
      have hgR : alGet (alSet (alSet kvs1 "Parameters" rr.2.1) "Resources"
          (J.obj rr.1)) "Resources" = some (J.obj rr.1) := alGet_alSet_self _ _ _
      have hgP : alGet (alSet (alSet kvs1 "Parameters" rr.2.1) "Resources"
          (J.obj rr.1)) "Parameters" = some rr.2.1 := by
        rw [alGet_alSet_ne _ "Resources" "Parameters" _ (by decide)]
        exact alGet_alSet_self _ _ _
      have hrr1 : (rr.1).isEmpty = false :=
        normResourcesYE_ne_nil nt ld rs pv rr hrsne h2
      have hjt : jTruthy (J.obj rr.1) = true := by
        unfold jTruthy
        dsimp only
        rw [hrr1]
        decide
      have hrv2 : resView (alGet (alSet (alSet kvs1 "Parameters" rr.2.1) "Resources"
          (J.obj rr.1)) "Resources") = some (rr.1, true) := by
        rw [hgR]
        unfold resView
        dsimp only
        rw [if_pos hjt]
      have hhas : alHas (alSet (alSet kvs1 "Parameters" rr.2.1) "Resources"
          (J.obj rr.1)) "Parameters" = true := by
        unfold alHas
        rw [hgP]
        rfl
      have hro : resourcesOf kvs = rs := by
        unfold resourcesOf
        rw [hrv]
      obtain ⟨c2, hc2⟩ := normResourcesYE_stable nt ld rs pv rr h2
        (fun lr hm => hck lr (hro ▸ hm)) rr.2.1 (fun h => h)
      have hS : yamlPassE nt ld (alSet (alSet kvs1 "Parameters" rr.2.1)
          "Resources" (J.obj rr.1)) =
          some (alSet (alSet kvs1 "Parameters" rr.2.1) "Resources" (J.obj rr.1), c2) := by
        unfold yamlPassE
        rw [hrv2]
        dsimp only
        rw [if_pos hhas, hgP, Option.getD_some, hc2]
        dsimp only
        cases c2 with
        | false => rw [if_neg (by decide)]
        | true =>
          rw [if_pos rfl, if_pos rfl]
          rw [alSet_self_get _ _ _ hgP, alSet_self_get _ _ _ hgR]
      refine ⟨_, hS, ?_⟩
      intro _
      rfl
    · rw [if_neg hch] at hrun
      injection hrun with h
      injection h with hA hB
      cases hB

/-- The computable per-resource checks imply the propositional ones,
given that the check on nested bodies certifies idempotence. -/
theorem resourceChecks_to_P (nt : String → String) (ntOk : String → Bool)
    (hok : ∀ tb, ntOk tb = true → nt (nt tb) = nt tb)
    (rs : List (String × J))
    (hchecks : resourceChecksB ntOk rs = true) :
    ∀ lr ∈ rs, ResCheckP nt lr.2 := by
  intro lr hm
  intro rkvs props sh hdef hgp
  have hall := (List.all_eq_true.mp hchecks) lr hm
  rw [hdef] at hall
  dsimp only at hall
  rw [hgp] at hall
  dsimp only at hall
  rw [Bool.and_eq_true] at hall
  obtain ⟨hsp, hstk⟩ := hall
  constructor
  · intro hT
    rw [if_pos hT] at hsp
    exact hsp
  · intro hT tb htb hne
    rw [if_pos hT, htb] at hstk
    dsimp only at hstk
    rw [if_pos hne] at hstk
    exact hok tb hstk

/-- Normalization is idempotent on every input satisfying the run
conditions, at every recursion depth. -/
theorem normalize_idem_go (jl : JsonLib) (yl : YamlLib) :
    ∀ (fuel : Nat) (tb : String), normStableB jl yl fuel tb = true →
    normalizeTemplateText jl yl fuel (normalizeTemplateText jl yl fuel tb) =
      normalizeTemplateText jl yl fuel tb
  | 0, _, _ => rfl
  | fuel + 1, tb, hst => by
    have hbridge : ∀ rs2, resourceChecksB (fun s => normStableB jl yl fuel s) rs2 = true →
        ∀ lr ∈ rs2, ResCheckP (normalizeTemplateText jl yl fuel) lr.2 :=
      fun rs2 hc => resourceChecks_to_P (normalizeTemplateText jl yl fuel)
        (fun s => normStableB jl yl fuel s)
        (fun tb2 h => normalize_idem_go jl yl fuel tb2 h) rs2 hc
    have hunf : ∀ s, normalizeTemplateText jl yl (fuel + 1) s =
        (if braceStartB (s3FallbackText jl yl s) then
          jsonPhase (normalizeTemplateText jl yl fuel) jl.loads jl.dumps2
            (s3FallbackText jl yl s)
        else
          yamlPhase (normalizeTemplateText jl yl fuel) jl.loads yl
            (s3FallbackText jl yl s)) := fun s => rfl
    unfold normStableB at hst
    dsimp only at hst
    rw [Bool.and_eq_true] at hst
    obtain ⟨hA, hB⟩ := hst
    have hA1 : s3FallbackText jl yl (normalizeTemplateText jl yl (fuel + 1) tb) =
        normalizeTemplateText jl yl (fuel + 1) tb := of_decide_eq_true hA
    rw [hunf (normalizeTemplateText jl yl (fuel + 1) tb), hA1]
    by_cases hbr : braceStartB (s3FallbackText jl yl tb) = true
    · rw [if_pos hbr] at hB
      have ht1 : normalizeTemplateText jl yl (fuel + 1) tb =
          jsonPhase (normalizeTemplateText jl yl fuel) jl.loads jl.dumps2
            (s3FallbackText jl yl tb) := by
        rw [hunf tb, if_pos hbr]
      rcases hld : jl.loads (s3FallbackText jl yl tb) with _ | d
      · have hout : jsonPhase (normalizeTemplateText jl yl fuel) jl.loads jl.dumps2
            (s3FallbackText jl yl tb) = s3FallbackText jl yl tb := by
          unfold jsonPhase
          rw [hld]
        have hNout := ht1.trans hout
        rw [hNout, if_pos hbr]
        exact hout
      · cases d with
        | null =>
          have hout : jsonPhase (normalizeTemplateText jl yl fuel) jl.loads jl.dumps2
              (s3FallbackText jl yl tb) = s3FallbackText jl yl tb := by
            unfold jsonPhase
            rw [hld]
          have hNout := ht1.trans hout
          rw [hNout, if_pos hbr]
          exact hout
        | bool b =>
          have hout : jsonPhase (normalizeTemplateText jl yl fuel) jl.loads jl.dumps2
              (s3FallbackText jl yl tb) = s3FallbackText jl yl tb := by
            unfold jsonPhase
            rw [hld]
          have hNout := ht1.trans hout
          rw [hNout, if_pos hbr]
          exact hout
        | num n =>
          have hout : jsonPhase (normalizeTemplateText jl yl fuel) jl.loads jl.dumps2
              (s3FallbackText jl yl tb) = s3FallbackText jl yl tb := by
            unfold jsonPhase
            rw [hld]
          have hNout := ht1.trans hout
          rw [hNout, if_pos hbr]
          exact hout
        | str s2 =>
          have hout : jsonPhase (normalizeTemplateText jl yl fuel) jl.loads jl.dumps2
              (s3FallbackText jl yl tb) = s3FallbackText jl yl tb := by
            unfold jsonPhase
            rw [hld]
          have hNout := ht1.trans hout
          rw [hNout, if_pos hbr]
          exact hout
        | arr xs =>
          have hout : jsonPhase (normalizeTemplateText jl yl fuel) jl.loads jl.dumps2
              (s3FallbackText jl yl tb) = s3FallbackText jl yl tb := by
            unfold jsonPhase
            rw [hld]
          have hNout := ht1.trans hout
          rw [hNout, if_pos hbr]
          exact hout
        | obj kvs =>
          rcases hsp : structuralPassE (normalizeTemplateText jl yl fuel) jl.loads kvs
              with _ | pr
          · have hout : jsonPhase (normalizeTemplateText jl yl fuel) jl.loads jl.dumps2
                (s3FallbackText jl yl tb) = s3FallbackText jl yl tb := by
              unfold jsonPhase
              rw [hld]
              dsimp only
              rw [hsp]
            have hNout := ht1.trans hout
            rw [hNout, if_pos hbr]
            exact hout
          · obtain ⟨kvsOut, chg⟩ := pr
            cases chg with
            | false =>
              have hout : jsonPhase (normalizeTemplateText jl yl fuel) jl.loads jl.dumps2
                  (s3FallbackText jl yl tb) = s3FallbackText jl yl tb := by
                unfold jsonPhase
                rw [hld]
                dsimp only
                rw [hsp]
              have hNout := ht1.trans hout
              rw [hNout, if_pos hbr]
              exact hout
            | true =>
              rw [hld] at hB
              dsimp only at hB
              rw [hsp] at hB
              dsimp only at hB
              rw [Bool.and_eq_true, Bool.and_eq_true] at hB
              obtain ⟨⟨hchk, hrt⟩, hbs⟩ := hB
              have hrt1 : jl.loads (jl.dumps2 (J.obj kvsOut)) = some (J.obj kvsOut) :=
                of_decide_eq_true hrt
              have hout : jsonPhase (normalizeTemplateText jl yl fuel) jl.loads jl.dumps2
                  (s3FallbackText jl yl tb) = jl.dumps2 (J.obj kvsOut) := by
                unfold jsonPhase
                rw [hld]
                dsimp only
                rw [hsp]
              have hNout := ht1.trans hout
              rw [hNout, if_pos hbs]
              obtain ⟨⟨rkv, rb⟩, hS, himp⟩ := structuralPassE_stable
                (normalizeTemplateText jl yl fuel) jl.loads kvs kvsOut hsp
                (hbridge _ hchk)
              unfold jsonPhase
              rw [hrt1]
              dsimp only
              rw [hS]
              cases rb with
              | true =>
                dsimp only
                rw [show rkv = kvsOut from himp rfl]
              | false => rfl
    · rw [if_neg hbr] at hB
      have ht1 : normalizeTemplateText jl yl (fuel + 1) tb =
          yamlPhase (normalizeTemplateText jl yl fuel) jl.loads yl
            (s3FallbackText jl yl tb) := by
        rw [hunf tb, if_neg hbr]
      obtain ⟨Rtext, hres, hRm⟩ : ∃ R,
          (if (removeScaleGo (splitLines (s3FallbackText jl yl tb))).2 then
            sJoin "\n" (removeScaleGo (splitLines (s3FallbackText jl yl tb))).1
          else s3FallbackText jl yl tb) = R ∧
          (removeScaleGo (splitLines R)).2 = false := by
        by_cases hp : (removeScaleGo (splitLines (s3FallbackText jl yl tb))).2 = true
        · exact ⟨_, if_pos hp, removeScale_join_stable (s3FallbackText jl yl tb)⟩
        · refine ⟨s3FallbackText jl yl tb, if_neg hp, ?_⟩
          simpa using hp
      have hyam : yamlPhase (normalizeTemplateText jl yl fuel) jl.loads yl
          (s3FallbackText jl yl tb) =
          (match yl.safe_load Rtext with
           | some (J.obj kvs) =>
             match yamlPassE (normalizeTemplateText jl yl fuel) jl.loads kvs with
             | some (kvsOut, true) => yl.dump (J.obj kvsOut)
             | _ => Rtext
           | _ => Rtext) := by
        unfold yamlPhase
        dsimp only
        rw [hres]
      rw [hres] at hB
      have hstab2 : ∀ out : String, normalizeTemplateText jl yl (fuel + 1) tb = out →
          braceStartB out = false →
          (removeScaleGo (splitLines out)).2 = false →
          yamlPhase (normalizeTemplateText jl yl fuel) jl.loads yl out = out →
          (if braceStartB out = true then
            jsonPhase (normalizeTemplateText jl yl fuel) jl.loads jl.dumps2 out
          else
            yamlPhase (normalizeTemplateText jl yl fuel) jl.loads yl out) = out := by
        intro out _ hobs _ hyp2
        rw [if_neg (by rw [hobs]; decide)]
        exact hyp2
      rcases hsl : yl.safe_load Rtext with _ | d
      · rw [hsl] at hB
        dsimp only at hB
        have hobs : braceStartB Rtext = false := by simpa using hB
        have hNout : normalizeTemplateText jl yl (fuel + 1) tb = Rtext := by
          rw [ht1, hyam, hsl]
        rw [hNout]
        refine hstab2 Rtext hNout hobs hRm ?_
        unfold yamlPhase
        dsimp only
        rw [if_neg (by rw [hRm]; decide), hsl]
      · cases d with
        | null =>
          rw [hsl] at hB
          dsimp only at hB
          have hobs : braceStartB Rtext = false := by simpa using hB
          have hNout : normalizeTemplateText jl yl (fuel + 1) tb = Rtext := by
            rw [ht1, hyam, hsl]
          rw [hNout]
          refine hstab2 Rtext hNout hobs hRm ?_
          unfold yamlPhase
          dsimp only
          rw [if_neg (by rw [hRm]; decide), hsl]
        | bool b =>
          rw [hsl] at hB
          dsimp only at hB
          have hobs : braceStartB Rtext = false := by simpa using hB
          have hNout : normalizeTemplateText jl yl (fuel + 1) tb = Rtext := by
            rw [ht1, hyam, hsl]
          rw [hNout]
          refine hstab2 Rtext hNout hobs hRm ?_
          unfold yamlPhase
          dsimp only
          rw [if_neg (by rw [hRm]; decide), hsl]
        | num n =>
          rw [hsl] at hB
          dsimp only at hB
          have hobs : braceStartB Rtext = false := by simpa using hB
          have hNout : normalizeTemplateText jl yl (fuel + 1) tb = Rtext := by
            rw [ht1, hyam, hsl]
          rw [hNout]
          refine hstab2 Rtext hNout hobs hRm ?_
          unfold yamlPhase
          dsimp only
          rw [if_neg (by rw [hRm]; decide), hsl]
        | str s2 =>
          rw [hsl] at hB
          dsimp only at hB
          have hobs : braceStartB Rtext = false := by simpa using hB
          have hNout : normalizeTemplateText jl yl (fuel + 1) tb = Rtext := by
            rw [ht1, hyam, hsl]
          rw [hNout]
          refine hstab2 Rtext hNout hobs hRm ?_
          unfold yamlPhase
          dsimp only
          rw [if_neg (by rw [hRm]; decide), hsl]
        | arr xs =>
          rw [hsl] at hB
          dsimp only at hB
          have hobs : braceStartB Rtext = false := by simpa using hB
          have hNout : normalizeTemplateText jl yl (fuel + 1) tb = Rtext := by
            rw [ht1, hyam, hsl]
          rw [hNout]
          refine hstab2 Rtext hNout hobs hRm ?_
          unfold yamlPhase
          dsimp only
          rw [if_neg (by rw [hRm]; decide), hsl]
        | obj kvs =>
          rw [hsl] at hB
          dsimp only at hB
          rcases hyp : yamlPassE (normalizeTemplateText jl yl fuel) jl.loads kvs
              with _ | pr
          · rw [hyp] at hB
            dsimp only at hB
            have hobs : braceStartB Rtext = false := by simpa using hB
            have hNout : normalizeTemplateText jl yl (fuel + 1) tb = Rtext := by
              rw [ht1, hyam, hsl]
              dsimp only
              rw [hyp]
            rw [hNout]
            refine hstab2 Rtext hNout hobs hRm ?_
            unfold yamlPhase
            dsimp only
            rw [if_neg (by rw [hRm]; decide), hsl]
            dsimp only
            rw [hyp]
          · obtain ⟨kvsOut, chg⟩ := pr
            cases chg with
            | false =>
              rw [hyp] at hB
              dsimp only at hB
              have hobs : braceStartB Rtext = false := by simpa using hB
              have hNout : normalizeTemplateText jl yl (fuel + 1) tb = Rtext := by
                rw [ht1, hyam, hsl]
                dsimp only
                rw [hyp]
              rw [hNout]
              refine hstab2 Rtext hNout hobs hRm ?_
              unfold yamlPhase
              dsimp only
              rw [if_neg (by rw [hRm]; decide), hsl]
              dsimp only
              rw [hyp]
            | true =>
              rw [hyp] at hB
              dsimp only at hB
              rw [Bool.and_eq_true, Bool.and_eq_true, Bool.and_eq_true] at hB
              obtain ⟨⟨⟨hchk, hrt⟩, hbs⟩, hrm2⟩ := hB
              have hrt1 : yl.safe_load (yl.dump (J.obj kvsOut)) = some (J.obj kvsOut) :=
                of_decide_eq_true hrt
              have hbs1 : braceStartB (yl.dump (J.obj kvsOut)) = false := by simpa using hbs
              have hrm3 : (removeScaleGo (splitLines (yl.dump (J.obj kvsOut)))).2 = false := by
                simpa using hrm2
              have hNout : normalizeTemplateText jl yl (fuel + 1) tb =
                  yl.dump (J.obj kvsOut) := by
                rw [ht1, hyam, hsl]
                dsimp only
                rw [hyp]
              rw [hNout]
              refine hstab2 (yl.dump (J.obj kvsOut)) hNout hbs1 hrm3 ?_
              obtain ⟨⟨rkv, rb⟩, hS, himp⟩ := yamlPassE_stable
                (normalizeTemplateText jl yl fuel) jl.loads kvs kvsOut hyp
                (hbridge _ hchk)
              unfold yamlPhase
              dsimp only
              rw [if_neg (by rw [hrm3]; decide), hrt1]
              dsimp only
              rw [hS]
              cases rb with
              | true =>
                dsimp only
                rw [show rkv = kvsOut from himp rfl]
              | false => rfl

def c2WOutKvs : List (String × J) :=
  [("Resources", J.obj [("Logs", J.obj
    [("Type", J.str "AWS::Logs::LogGroup"),
     ("Properties", J.obj [("LogGroupName",
       J.obj [("Fn::Sub", J.str "/app/$\x7bAWS::StackName\x7d")])])])]),
   ("Parameters", J.obj [])]

def c2WT0 : String := "\x7bdoc0\x7d"

def c2WT1 : String := "\x7bdoc1\x7d"

/-- A concrete JSON library whose parse/serialize pair realizes the
round-trip facts on the two documents of the JSON-path witness run. -/
def c2WJl : JsonLib :=
  ⟨fun s => if s = c2WT0 then some (J.obj c2WKvs)
            else if s = c2WT1 then some (J.obj c2WOutKvs) else none,
   fun _ => c2WT1⟩

def c2WYl : YamlLib := ⟨fun _ => none, fun _ => ""⟩

def c2WY0 : String := "Resources: logs"

def c2WJl2 : JsonLib := ⟨fun _ => none, fun _ => ""⟩

/-- A concrete YAML library realizing the round-trip facts on the two
documents of the YAML-path witness run. -/
def c2WYl2 : YamlLib :=
  ⟨fun s => if s = c2WY0 then some (J.obj c2WKvs)
            else if s = "logs: out" then some (J.obj c2WOutKvs) else none,
   fun _ => "logs: out"⟩

/-- Claim C2 (corrected): amended statement. `_normalize_cfn_template_for_provision`
is idempotent on every input whose run satisfies the computed stability
conditions `normStableB`: the S3 string-fallback phase is inert on the
run's output, and whenever a structural phase re-serializes the
document, each scaling policy carries at most one alias spelling, each
nested stack body is itself recursively stable, the serializer/parser
round-trip facts hold at the re-serialized document, and the output
text stays on its own parse path (brace-started for JSON; for YAML
neither brace-started nor carrying cooldown-prefixed lines the removal
loop would strip).  Runs whose phases raise or report no change need no
condition beyond fallback inertness. -/
theorem normalize_idempotent_amended (jl : JsonLib) (yl : YamlLib)
    (fuel : Nat) (tb : String)
    (h : normStableB jl yl fuel tb = true) :
    normalizeTemplateText jl yl fuel (normalizeTemplateText jl yl fuel tb) =
      normalizeTemplateText jl yl fuel tb :=
  normalize_idem_go jl yl fuel tb h

/-- The amended idempotence applied on both parse paths: a JSON-path run
and a YAML-path run in which the log-group rule actually rewrites the
document and the text is re-serialized. -/
theorem normalize_idempotent_amended_witness :
    (normStableB c2WJl c2WYl 1 c2WT0 = true ∧
      normalizeTemplateText c2WJl c2WYl 1 (normalizeTemplateText c2WJl c2WYl 1 c2WT0) =
        normalizeTemplateText c2WJl c2WYl 1 c2WT0) ∧
    (normStableB c2WJl2 c2WYl2 1 c2WY0 = true ∧
      normalizeTemplateText c2WJl2 c2WYl2 1 (normalizeTemplateText c2WJl2 c2WYl2 1 c2WY0) =
        normalizeTemplateText c2WJl2 c2WYl2 1 c2WY0) :=
  ⟨⟨by decide, normalize_idempotent_amended c2WJl c2WYl 1 c2WT0 (by decide)⟩,
   ⟨by decide, normalize_idempotent_amended c2WJl2 c2WYl2 1 c2WY0 (by decide)⟩⟩

end IctMcp
